import Mathlib

/-!
# SSD1306 display driver: framebuffer engine and bus backends

A shallow embedding of `ssd1306/ssd1306.go`, `ssd1306/ssd1306_i2c.go` and
`ssd1306/ssd1306_spi.go`, followed by the compensation arithmetic of
`ens160/ens160.go` (namespace `Ens160`), the rotary encoder functions of
`seesaw/encoder.go` (namespace `Seesaw`) and the SPI register reads of
`internal/regmap/devices.go` (namespace `Regmap`).

Conventions of the embedding.

* Go `int16` values are `Int`; every `int16` operation of the source that can
  leave the range is wrapped with `wrap16`.  Go `/` and `%` on signed integers
  truncate toward zero and are `Int.tdiv` / `Int.tmod`.
* Go `byte`/`uint8` values are `Nat`; conversions and stores reduce modulo 256.
* A Go run-time panic (index out of range, slice bounds out of range,
  `make` with a negative length) is the result `none`.
* The transmission buffer of a backend and the framebuffer of the device are
  one Go backing array: `Device.buffer` is the slice `bus.buffer[view:]`.  The
  embedding keeps the array once, inside the bus, and the device keeps the
  offset of its view.
* The physical bus (`drivers.I2C`, `drivers.SPI`, the three GPIO lines) is the
  environment: every call on it is appended to an event log, and the error a
  transfer returns is read from a list of pending results supplied by the
  environment (no pending result: the transfer succeeds).
* `time.Sleep` and `println` do not touch the device state or the bus and are
  left out.
-/

namespace Ssd1306

/-! ## Machine integers -/

/-- Wrap an integer to the Go `int16` range (two's complement). -/
def wrap16 (n : Int) : Int := (n + 32768) % 65536 - 32768

/-- Go conversion `uint8(n)` of a signed integer: the low eight bits. -/
def toUint8 (n : Int) : Nat := (n % 256).toNat

/-! ## Errors, colours, constants -/

/-- The `error` values: `errBufferSize`, `errOutOfRange`, and whatever the
underlying bus transfer returns. -/
inductive Error where
  | errBufferSize
  | errOutOfRange
  | transport (code : Nat)
  deriving DecidableEq, Repr

/-- The type `color.RGBA`: four `uint8` channels. -/
structure RGBA where
  R : Nat
  G : Nat
  B : Nat
  A : Nat
  deriving DecidableEq, Repr

/-- The type `ResetValue`, `[2]byte`. -/
abbrev ResetValue := Nat × Nat

/-- Named constants used by the driver whose declarations are not part of the
available sources and whose values the specification does not give: the two
`VccMode` values, the two rotation values the driver distinguishes, and the
default I2C address `Address`. -/
structure Consts where
  EXTERNALVCC : Nat
  SWITCHCAPVCC : Nat
  Rotation0 : Nat
  Rotation180 : Nat
  Address : Nat
  deriving DecidableEq, Repr

/-- Modelled from the spec: the command constant `DISPLAYOFF` (section 6, display-off). -/
def DISPLAYOFF : Nat := 0xAE
/-- Modelled from the spec: the command constant `SETDISPLAYCLOCKDIV` (section 6, clock-div). -/
def SETDISPLAYCLOCKDIV : Nat := 0xD5
/-- Modelled from the spec: the command constant `SETMULTIPLEX` (section 6, multiplex). -/
def SETMULTIPLEX : Nat := 0xA8
/-- Modelled from the spec: the command constant `SETDISPLAYOFFSET` (section 6, display-offset). -/
def SETDISPLAYOFFSET : Nat := 0xD3
/-- Modelled from the spec: the command constant `SETSTARTLINE` (section 6, start-line). -/
def SETSTARTLINE : Nat := 0x40
/-- Modelled from the spec: the command constant `CHARGEPUMP` (section 6, charge-pump). -/
def CHARGEPUMP : Nat := 0x8D
/-- Modelled from the spec: the command constant `MEMORYMODE` (section 6, memory-mode). -/
def MEMORYMODE : Nat := 0x20
/-- Modelled from the spec: the command constant `SEGREMAP` (section 6, segment-remap,
`0xA0`, and `0xA1` with the low bit set). -/
def SEGREMAP : Nat := 0xA0
/-- Modelled from the spec: the command constant `COMSCANINC` (section 6, COM-scan direction `0xC0`). -/
def COMSCANINC : Nat := 0xC0
/-- Modelled from the spec: the command constant `COMSCANDEC` (section 6, COM-scan direction `0xC8`). -/
def COMSCANDEC : Nat := 0xC8
/-- Modelled from the spec: the command constant `SETCOMPINS` (section 6, COM-pins config). -/
def SETCOMPINS : Nat := 0xDA
/-- Modelled from the spec: the command constant `SETCONTRAST` (section 6, contrast). -/
def SETCONTRAST : Nat := 0x81
/-- Modelled from the spec: the command constant `SETPRECHARGE` (section 6, pre-charge). -/
def SETPRECHARGE : Nat := 0xD9
/-- Modelled from the spec: the command constant `SETVCOMDETECT` (section 6, VCOM-detect). -/
def SETVCOMDETECT : Nat := 0xDB
/-- Modelled from the spec: the command constant `DISPLAYALLON_RESUME` (section 6). -/
def DISPLAYALLON_RESUME : Nat := 0xA4
/-- Modelled from the spec: the command constant `NORMALDISPLAY` (section 6, normal-display). -/
def NORMALDISPLAY : Nat := 0xA6
/-- Modelled from the spec: the command constant `DEACTIVATE_SCROLL` (section 6). -/
def DEACTIVATE_SCROLL : Nat := 0x2E
/-- Modelled from the spec: the command constant `DISPLAYON` (section 6, display-on). -/
def DISPLAYON : Nat := 0xAF
/-- Modelled from the spec: the command constant `COLUMNADDR` (section 6, column address set). -/
def COLUMNADDR : Nat := 0x21
/-- Modelled from the spec: the command constant `PAGEADDR` (section 6, page address set). -/
def PAGEADDR : Nat := 0x22

/-! ## The physical bus -/

/-- One observable action on the hardware. -/
inductive Event where
  /-- The call `wire.Tx(addr, w, nil)` on the I2C bus. -/
  | i2cTx (addr : Nat) (w : List Nat)
  /-- The call `wire.Tx(w, nil)` on the SPI bus. -/
  | spiTx (w : List Nat)
  /-- Chip-select line driven high (`true`) or low. -/
  | csPin (high : Bool)
  /-- Data/command line driven high (`true`) or low. -/
  | dcPin (high : Bool)
  /-- Reset line driven high (`true`) or low. -/
  | resetPin (high : Bool)
  deriving DecidableEq, Repr

/-- The hardware side: the log of what was done to it so far and the results
its next transfers are going to return. -/
structure Wire where
  log : List Event
  pending : List (Option Error)
  deriving DecidableEq, Repr

/-- Record an action that returns nothing (a GPIO write). -/
def Wire.emit (w : Wire) (e : Event) : Wire :=
  { w with log := w.log ++ [e] }

/-- Perform a transfer: it is logged and returns the next pending result. -/
def Wire.transfer (w : Wire) (e : Event) : Wire × Option Error :=
  match w.pending with
  | [] => ({ w with log := w.log ++ [e] }, none)
  | r :: rs => ({ log := w.log ++ [e], pending := rs }, r)

/-- Go `copy(dst, src)`: overwrite the first `min (len dst) (len src)` elements. -/
def goCopy (dst src : List Nat) : List Nat :=
  src.take dst.length ++ dst.drop src.length

/-- Go `make([]byte, n)` for an `int16` length: panics when `n` is negative. -/
def makeBytes (n : Int) : Option (List Nat) :=
  if n < 0 then none else some (List.replicate n.toNat 0)

/-! ## I2C backend (`ssd1306_i2c.go`) -/

/-- The struct `I2CBus`. -/
structure I2CBus where
  wire : Wire
  address : Nat
  buffer : List Nat
  deriving DecidableEq, Repr

/-- The method `I2CBus.configure`: returns the bus and the offset at which the returned
image buffer `b.buffer[2:]` starts. -/
def I2CBus.configure (b : I2CBus) (address : Nat) (size : Int) : Option (I2CBus × Nat) := do
  let b := if address ≠ 0 then { b with address := address } else b
  let buf ← makeBytes (wrap16 (size + 2))
  let b := { b with buffer := buf }
  if 2 ≤ b.buffer.length then some (b, 2) else none

/-- The method `I2CBus.command`. -/
def I2CBus.command (b : I2CBus) (cmd : Nat) : Option (I2CBus × Option Error) :=
  if 2 ≤ b.buffer.length then
    let buf := (b.buffer.set 0 0x00).set 1 cmd
    let (w, err) := b.wire.transfer (Event.i2cTx b.address (buf.take 2))
    some ({ b with buffer := buf, wire := w }, err)
  else none

/-- The method `I2CBus.flush`. -/
def I2CBus.flush (b : I2CBus) : Option (I2CBus × Option Error) :=
  if 2 ≤ b.buffer.length then
    let buf := b.buffer.set 1 0x40
    let (w, err) := b.wire.transfer (Event.i2cTx b.address (buf.drop 1))
    some ({ b with buffer := buf, wire := w }, err)
  else none

/-- The method `I2CBus.tx`. -/
def I2CBus.tx (b : I2CBus) (data : List Nat) (isCommand : Bool) :
    Option (I2CBus × Option Error) :=
  if isCommand then
    match data with
    | [] => none
    | c :: _ => b.command c
  else if 2 ≤ b.buffer.length then
    I2CBus.flush { b with buffer := b.buffer.take 2 ++ goCopy (b.buffer.drop 2) data }
  else none

/-! ## SPI backend (`ssd1306_spi.go`) -/

/-- The struct `SPIBus`; the three pins are lines of the same hardware log. -/
structure SPIBus where
  wire : Wire
  buffer : List Nat
  deriving DecidableEq, Repr

/-- The method `SPIBus.tx`. -/
def SPIBus.tx (b : SPIBus) (data : List Nat) (isCommand : Bool) : SPIBus × Option Error :=
  let w := b.wire.emit (Event.csPin true)
  let w := w.emit (Event.dcPin (!isCommand))
  let w := w.emit (Event.csPin false)
  let (w, err) := w.transfer (Event.spiTx data)
  let w := w.emit (Event.csPin true)
  ({ b with wire := w }, err)

/-- The method `SPIBus.configure`: returns the bus and the offset at which the returned
image buffer `b.buffer[1:]` starts. -/
def SPIBus.configure (b : SPIBus) (_address : Nat) (size : Int) : Option (SPIBus × Nat) := do
  let w := b.wire.emit (Event.csPin false)
  let w := w.emit (Event.dcPin false)
  let w := w.emit (Event.resetPin false)
  let w := w.emit (Event.resetPin true)
  let w := w.emit (Event.resetPin false)
  let w := w.emit (Event.resetPin true)
  let buf ← makeBytes (wrap16 (size + 1))
  let b : SPIBus := { wire := w, buffer := buf }
  if 1 ≤ b.buffer.length then some (b, 1) else none

/-- The method `SPIBus.command`. -/
def SPIBus.command (b : SPIBus) (cmd : Nat) : Option (SPIBus × Option Error) :=
  if 1 ≤ b.buffer.length then
    let b := { b with buffer := b.buffer.set 0 cmd }
    some (b.tx (b.buffer.take 1) true)
  else none

/-- The method `SPIBus.flush`. -/
def SPIBus.flush (b : SPIBus) : Option (SPIBus × Option Error) :=
  if 1 ≤ b.buffer.length then some (b.tx (b.buffer.drop 1) false) else none

/-! ## The interface `Buser` -/

/-- The two implementations of the interface `Buser`. -/
inductive Bus where
  | i2c (b : I2CBus)
  | spi (b : SPIBus)
  deriving DecidableEq, Repr

/-- The backing array of the transmission buffer. -/
def Bus.buffer : Bus → List Nat
  | .i2c b => b.buffer
  | .spi b => b.buffer

/-- Replace the backing array (a store through an aliasing slice). -/
def Bus.setBuffer : Bus → List Nat → Bus
  | .i2c b, buf => .i2c { b with buffer := buf }
  | .spi b, buf => .spi { b with buffer := buf }

/-- The hardware behind the bus. -/
def Bus.wire : Bus → Wire
  | .i2c b => b.wire
  | .spi b => b.wire

/-- Interface method `configure`. -/
def Bus.configure (bus : Bus) (address : Nat) (size : Int) : Option (Bus × Nat) :=
  match bus with
  | .i2c b => (b.configure address size).map fun r => (Bus.i2c r.1, r.2)
  | .spi b => (b.configure address size).map fun r => (Bus.spi r.1, r.2)

/-- Interface method `command`. -/
def Bus.command (bus : Bus) (cmd : Nat) : Option (Bus × Option Error) :=
  match bus with
  | .i2c b => (b.command cmd).map fun r => (Bus.i2c r.1, r.2)
  | .spi b => (b.command cmd).map fun r => (Bus.spi r.1, r.2)

/-- Interface method `flush`. -/
def Bus.flush (bus : Bus) : Option (Bus × Option Error) :=
  match bus with
  | .i2c b => b.flush.map fun r => (Bus.i2c r.1, r.2)
  | .spi b => b.flush.map fun r => (Bus.spi r.1, r.2)

/-- Interface method `tx`. -/
def Bus.tx (bus : Bus) (data : List Nat) (isCommand : Bool) : Option (Bus × Option Error) :=
  match bus with
  | .i2c b => (b.tx data isCommand).map fun r => (Bus.i2c r.1, r.2)
  | .spi b => some ((fun r => (Bus.spi r.1, r.2)) (b.tx data isCommand))

/-! ## The display engine (`ssd1306.go`) -/

/-- The struct `Device`.  The field `buffer` of the source is the slice
`bus.buffer[view:]` (see `Device.buffer`). -/
structure Device where
  bus : Bus
  view : Nat
  width : Int
  height : Int
  vccState : Nat
  canReset : Bool
  resetCol : ResetValue
  resetPage : ResetValue
  rotation : Nat
  deriving DecidableEq, Repr

/-- The struct `Config`. -/
structure Config where
  Width : Int
  Height : Int
  VccState : Nat
  Address : Nat
  ResetCol : ResetValue
  ResetPage : ResetValue
  Rotation : Nat
  deriving DecidableEq, Repr

/-- The field `d.buffer`: the framebuffer, a view of the transmission buffer. -/
def Device.buffer (d : Device) : List Nat := d.bus.buffer.drop d.view

/-- The store `d.buffer[i] = v` for an index already checked to be in bounds. -/
def Device.store (d : Device) (i : Nat) (v : Nat) : Device :=
  { d with bus := d.bus.setBuffer (d.bus.buffer.set (d.view + i) v) }

/-- The constructor `NewI2C`. -/
def NewI2C (K : Consts) (wire : Wire) : Device :=
  { bus := .i2c { wire := wire, address := K.Address, buffer := [] }
    view := 0, width := 0, height := 0, vccState := 0, canReset := false
    resetCol := (0, 0), resetPage := (0, 0), rotation := 0 }

/-- The constructor `NewSPI`: the three pins are configured as outputs (no event of
the log) and the device is returned. -/
def NewSPI (wire : Wire) : Device :=
  { bus := .spi { wire := wire, buffer := [] }
    view := 0, width := 0, height := 0, vccState := 0, canReset := false
    resetCol := (0, 0), resetPage := (0, 0), rotation := 0 }

/-- The method `Device.Command`: the error of the bus is dropped. -/
def Device.Command (d : Device) (command : Nat) : Option Device :=
  (d.bus.command command).map fun r => { d with bus := r.1 }

/-- The method `Device.Tx`. -/
def Device.Tx (d : Device) (data : List Nat) (isCommand : Bool) : Option (Device × Option Error) :=
  (d.bus.tx data isCommand).map fun r => ({ d with bus := r.1 }, r.2)

/-- The method `Device.SetRotation`. -/
def Device.SetRotation (K : Consts) (d : Device) (rotation : Nat) :
    Option (Device × Option Error) := do
  let d := { d with rotation := rotation }
  if d.rotation = K.Rotation0 then
    let d ← d.Command (SEGREMAP ||| 0x1)
    let d ← d.Command COMSCANDEC
    pure (d, none)
  else if d.rotation = K.Rotation180 then
    let d ← d.Command SEGREMAP
    let d ← d.Command COMSCANINC
    pure (d, none)
  else
    let d ← d.Command (SEGREMAP ||| 0x1)
    let d ← d.Command COMSCANDEC
    pure (d, none)

/-- The method `Device.Rotation`. -/
def Device.Rotation (d : Device) : Nat := d.rotation

/-- The method `Device.Size`. -/
def Device.Size (d : Device) : Int × Int := (d.width, d.height)

/-- The method `Device.GetBuffer`. -/
def Device.GetBuffer (d : Device) : List Nat := d.buffer

/-- The size-keyed block of `Device.Configure` (the `if / else if` chain on the geometry). -/
def Device.configureSizeBlock (K : Consts) (d : Device) : Option Device := do
  if (d.width = 128 ∧ d.height = 64) ∨ (d.width = 64 ∧ d.height = 48) then
    let d ← d.Command SETCOMPINS
    let d ← d.Command 0x12
    let d ← d.Command SETCONTRAST
    if d.vccState = K.EXTERNALVCC then d.Command 0x9F else d.Command 0xCF
  else if d.width = 128 ∧ d.height = 32 then
    let d ← d.Command SETCOMPINS
    let d ← d.Command 0x02
    let d ← d.Command SETCONTRAST
    d.Command 0x8F
  else if d.width = 96 ∧ d.height = 16 then
    let d ← d.Command SETCOMPINS
    let d ← d.Command 0x2
    let d ← d.Command SETCONTRAST
    if d.vccState = K.EXTERNALVCC then d.Command 0x10 else d.Command 0xAF
  else
    pure d

/-- The field assignments at the head of `Device.Configure` (everything before the
call of `d.bus.configure`). -/
def Device.configureFields (K : Consts) (d : Device) (cfg : Config) : Device :=
  let zeroReset : ResetValue := (0, 0)
  let width : Int := if cfg.Width ≠ 0 then cfg.Width else 128
  let height : Int := if cfg.Height ≠ 0 then cfg.Height else 64
  let vccState : Nat := if cfg.VccState ≠ 0 then cfg.VccState else K.SWITCHCAPVCC
  let resetCol : ResetValue :=
    if cfg.ResetCol ≠ zeroReset then cfg.ResetCol else (0, toUint8 (wrap16 (width - 1)))
  let resetPage : ResetValue :=
    if cfg.ResetPage ≠ zeroReset then cfg.ResetPage
    else (0, (toUint8 (height.tdiv 8) + 255) % 256)
  let canReset : Bool := decide (cfg.Address ≠ 0 ∨ width ≠ 128 ∨ height ≠ 64)
  { d with
    width := width, height := height, vccState := vccState
    resetCol := resetCol, resetPage := resetPage, canReset := canReset }

/-- The command sequence of `Device.Configure` that follows the call of
`d.bus.configure`, one statement of the source a line. -/
def Device.configureCommands (K : Consts) (d : Device) (cfg : Config) : Option Device :=
  (d.Command DISPLAYOFF)
    |>.bind (fun d => d.Command SETDISPLAYCLOCKDIV)
    |>.bind (fun d => d.Command 0x80)
    |>.bind (fun d => d.Command SETMULTIPLEX)
    |>.bind (fun d => d.Command (toUint8 (wrap16 (d.height - 1))))
    |>.bind (fun d => d.Command SETDISPLAYOFFSET)
    |>.bind (fun d => d.Command 0x0)
    |>.bind (fun d => d.Command (SETSTARTLINE ||| 0x0))
    |>.bind (fun d => d.Command CHARGEPUMP)
    |>.bind (fun d => if d.vccState = K.EXTERNALVCC then d.Command 0x10 else d.Command 0x14)
    |>.bind (fun d => d.Command MEMORYMODE)
    |>.bind (fun d => d.Command 0x00)
    |>.bind (fun d => (d.SetRotation K cfg.Rotation).map fun r => r.1)
    |>.bind (fun d => d.configureSizeBlock K)
    |>.bind (fun d => d.Command SETPRECHARGE)
    |>.bind (fun d => if d.vccState = K.EXTERNALVCC then d.Command 0x22 else d.Command 0xF1)
    |>.bind (fun d => d.Command SETVCOMDETECT)
    |>.bind (fun d => d.Command 0x40)
    |>.bind (fun d => d.Command DISPLAYALLON_RESUME)
    |>.bind (fun d => d.Command NORMALDISPLAY)
    |>.bind (fun d => d.Command DEACTIVATE_SCROLL)
    |>.bind (fun d => d.Command DISPLAYON)

/-- The method `Device.Configure`. -/
def Device.Configure (K : Consts) (d : Device) (cfg : Config) : Option Device := do
  let d := d.configureFields K cfg
  let (bus, view) ← d.bus.configure cfg.Address ((wrap16 (d.width * d.height)).tdiv 8)
  let d := { d with bus := bus, view := view }
  d.configureCommands K cfg

/-- The loop of `Device.ClearBuffer`: `for i := k; i < len(d.buffer); i++` with
`n` iterations left. -/
def Device.clearFrom (d : Device) : Nat → Nat → Device
  | 0, _ => d
  | n + 1, i => (d.store i 0).clearFrom n (i + 1)

/-- The method `Device.ClearBuffer`. -/
def Device.ClearBuffer (d : Device) : Device :=
  d.clearFrom d.buffer.length 0

/-- The method `Device.Display`. -/
def Device.Display (d : Device) : Option (Device × Option Error) := do
  let d ← if d.canReset then (do
      let d ← d.Command COLUMNADDR
      let d ← d.Command d.resetCol.1
      let d ← d.Command d.resetCol.2
      let d ← d.Command PAGEADDR
      let d ← d.Command d.resetPage.1
      d.Command d.resetPage.2)
    else pure d
  let (bus, err) ← d.bus.flush
  pure ({ d with bus := bus }, err)

/-- The method `Device.ClearDisplay`: the result of `Display` is dropped. -/
def Device.ClearDisplay (d : Device) : Option Device :=
  (d.ClearBuffer.Display).map fun r => r.1

/-- The test `c.R != 0 || c.G != 0 || c.B != 0` of `SetPixel`. -/
def RGBA.isOn (c : RGBA) : Bool := decide (c.R ≠ 0 ∨ c.G ≠ 0 ∨ c.B ≠ 0)

/-- The index expression `x + (y/8)*d.width` of `SetPixel` and `GetPixel`, in `int16`. -/
def Device.byteIndex (d : Device) (x y : Int) : Int :=
  wrap16 (x + wrap16 (y.tdiv 8 * d.width))

/-- The shift count `uint8(y%8)` of `SetPixel` and `GetPixel`. -/
def bitIndex (y : Int) : Nat := toUint8 (y.tmod 8)

/-- The mask `1 << uint8(y%8)` of `SetPixel`, a `byte`. -/
def bitMask (y : Int) : Nat := (1 <<< bitIndex y) % 256

/-- The method `Device.SetPixel`.  `b &^= m` on bytes is `b & (0xFF xor m)`. -/
def Device.SetPixel (d : Device) (x y : Int) (c : RGBA) : Option Device :=
  if x < 0 ∨ x ≥ d.width ∨ y < 0 ∨ y ≥ d.height then some d
  else
    let byteIndex := d.byteIndex x y
    if h : 0 ≤ byteIndex ∧ byteIndex.toNat < d.buffer.length then
      let old := d.buffer.get ⟨byteIndex.toNat, h.2⟩
      if c.R ≠ 0 ∨ c.G ≠ 0 ∨ c.B ≠ 0 then
        some (d.store byteIndex.toNat ((old ||| bitMask y) % 256))
      else
        some (d.store byteIndex.toNat ((old &&& (0xFF ^^^ bitMask y)) % 256))
    else none

/-- The method `Device.GetPixel`. -/
def Device.GetPixel (d : Device) (x y : Int) : Option Bool :=
  if x < 0 ∨ x ≥ d.width ∨ y < 0 ∨ y ≥ d.height then some false
  else
    let byteIndex := d.byteIndex x y
    if h : 0 ≤ byteIndex ∧ byteIndex.toNat < d.buffer.length then
      some (decide (((d.buffer.get ⟨byteIndex.toNat, h.2⟩ >>> bitIndex y) &&& 0x1) = 1))
    else none

/-- The method `Device.SetBuffer`. -/
def Device.SetBuffer (d : Device) (buffer : List Nat) : Device × Option Error :=
  if buffer.length ≠ d.buffer.length then (d, some Error.errBufferSize)
  else
    ({ d with bus := d.bus.setBuffer (d.bus.buffer.take d.view ++ goCopy d.buffer buffer) }, none)

/-- The method `Device.Sleep`. -/
def Device.Sleep (d : Device) (sleepEnabled : Bool) : Option (Device × Option Error) :=
  if sleepEnabled then (d.Command DISPLAYOFF).map fun d => (d, none)
  else (d.Command DISPLAYON).map fun d => (d, none)

/-- The method `Device.SetScroll`, a no-op. -/
def Device.SetScroll (d : Device) (_line : Int) : Device := d

/-- A Go loop `for i := lo; i < hi; i++ { body }` over an `int16` counter.  The first
argument bounds the number of iterations; an `int16` counter has 65536 values, so a
loop that needs more never ends, and the result is `none` as for a panic. -/
def forInt16 {σ : Type} (body : Int → σ → Option σ) (hi : Int) : Nat → Int → σ → Option σ
  | 0, _, _ => none
  | n + 1, i, s =>
    if i < hi then (body i s).bind (forInt16 body hi n (wrap16 (i + 1))) else some s

/-- A Go loop `for i := k; i < k + n; i++ { body }` over an `int` counter that cannot
overflow (the bound is an `int`). -/
def forInt {σ : Type} (body : Nat → σ → Option σ) : Nat → Nat → σ → Option σ
  | 0, _, s => some s
  | n + 1, i, s => (body i s).bind (forInt body n (i + 1))

/-- The method `Device.FillRectangle`. -/
def Device.FillRectangle (d : Device) (x y width height : Int) (c : RGBA) :
    Option (Device × Option Error) :=
  let dw := d.Size.1
  let dh := d.Size.2
  if x < 0 ∨ y < 0 ∨ width ≤ 0 ∨ height ≤ 0 ∨
      x ≥ d.width ∨ wrap16 (x + width) > dw ∨ y ≥ dh ∨ wrap16 (y + height) > dh then
    some (d, some Error.errOutOfRange)
  else if wrap16 (x + width) = dw ∧ wrap16 (y + height) = dh ∧ c.R = 0 ∧ c.G = 0 ∧ c.B = 0 then
    d.ClearDisplay.map fun d => (d, none)
  else
    (forInt16 (fun i d => forInt16 (fun j d => d.SetPixel i j c) (wrap16 (y + height)) 65536 y d)
      (wrap16 (x + width)) 65536 x d).map fun d => (d, none)

/-- Modelled from the spec: the monochrome source image `pixel.Image[pixel.Monochrome]`
(its package is not part of the available sources), "a monochrome source-image
capability exposing `Size()` and `Get(x,y) -> pixel-with-color`".  `Get i j` is the
colour `bitmap.Get(i, j).RGBA()`; the sizes are non-negative Go `int`s. -/
structure Bitmap where
  width : Nat
  height : Nat
  Get : Nat → Nat → RGBA

/-- The method `Device.DrawBitmap`. -/
def Device.DrawBitmap (d : Device) (x y : Int) (bitmap : Bitmap) :
    Option (Device × Option Error) :=
  let width := bitmap.width
  let height := bitmap.height
  if x < 0 ∨ wrap16 (x + wrap16 width) > d.width ∨ y < 0 ∨
      wrap16 (y + wrap16 height) > d.height then
    some (d, some Error.errOutOfRange)
  else
    (forInt (fun i d => forInt (fun j d =>
        d.SetPixel (wrap16 (x + wrap16 i)) (wrap16 (y + wrap16 j)) (bitmap.Get i j)) height 0 d)
      width 0 d).map fun d => (d, none)

/-! ## What the controller receives -/

/-- One item the SSD1306 controller receives. -/
inductive Received where
  /-- A command byte. -/
  | cmd (c : Nat)
  /-- One data transfer (display RAM content). -/
  | data (bytes : List Nat)
  deriving DecidableEq, Repr

/-- Decode a hardware log as the controller does.  On I2C the first byte of a write
is the control byte: `0x00` announces command bytes, `0x40` display data.  On SPI
the level of the data/command line at the time of the transfer decides: low for
commands, high for data.  The first argument is the current level of that line. -/
def received : Bool → List Event → List Received
  | _, [] => []
  | dc, Event.i2cTx _ w :: es =>
    (match w with
      | 0x00 :: cs => cs.map Received.cmd
      | 0x40 :: bytes => [Received.data bytes]
      | _ => []) ++ received dc es
  | dc, Event.spiTx w :: es =>
    (if dc then [Received.data w] else w.map Received.cmd) ++ received dc es
  | _, Event.dcPin high :: es => received high es
  | dc, Event.csPin _ :: es => received dc es
  | dc, Event.resetPin _ :: es => received dc es

/-- The command bytes among received items, in order. -/
def commandBytes (rs : List Received) : List Nat :=
  rs.filterMap fun r => match r with
    | Received.cmd c => some c
    | Received.data _ => none

/-- The hardware log of a device. -/
def Device.log (d : Device) : List Event := d.bus.wire.log

/-- The events a device operation appended to the log `before`. -/
def eventsSince (before : List Event) (d : Device) : List Event :=
  d.log.drop before.length

/-- The number of header bytes in front of the image buffer: the offset at which
`configure` of the backend lets the image buffer start. -/
def Bus.header : Bus → Nat
  | .i2c _ => 2
  | .spi _ => 1

/-- What `Configure` establishes and every later operation keeps: the framebuffer is
the view of the transmission buffer behind the header bytes of the backend, and it
has as many bytes as `Configure` requested, `width*height/8` in `int16` arithmetic. -/
def Device.Configured (d : Device) : Prop :=
  d.view = d.bus.header ∧ d.view ≤ d.bus.buffer.length ∧
    (d.buffer.length : Int) = (wrap16 (d.width * d.height)).tdiv 8

instance (d : Device) : Decidable d.Configured := by
  unfold Device.Configured; infer_instance

/-- Bit `k` of a byte, as the expression `(b >> k) & 0x1 == 1` of `GetPixel` reads it. -/
def byteBit (b k : Nat) : Bool := decide (((b >>> k) &&& 0x1) = 1)

/-- The constants of the witnesses: distinct `VccMode` values, distinct rotation
values, and an I2C address. -/
def K0 : Consts :=
  { EXTERNALVCC := 1, SWITCHCAPVCC := 2, Rotation0 := 0, Rotation180 := 2, Address := 0x3D }

/-- The colour white, `color.RGBA{255, 255, 255, 255}`. -/
def white : RGBA := ⟨255, 255, 255, 255⟩

/-- The colour black with any alpha, `color.RGBA{0, 0, 0, a}`. -/
def transparentBlack (a : Nat) : RGBA := ⟨0, 0, 0, a⟩

/-- A hardware with an empty log whose transfers all succeed. -/
def idleWire : Wire := { log := [], pending := [] }

/-- The byte `SetPixel` stores for colour `c` over the old byte `b`. -/
def pixelByte (b : Nat) (y : Int) (c : RGBA) : Nat :=
  if c.isOn then (b ||| bitMask y) % 256 else (b &&& (0xFF ^^^ bitMask y)) % 256

/-- The default configuration: the zero value of `Config` (128x64, internal VCC). -/
def cfgDefault : Config := ⟨0, 0, 0, 0, (0, 0), (0, 0), 0⟩

/-- An SPI panel configured with the default configuration. -/
def spi128x64 : Option Device := Device.Configure K0 (NewSPI idleWire) cfgDefault

/-- An I2C panel configured with the default configuration. -/
def i2c128x64 : Option Device := Device.Configure K0 (NewI2C K0 idleWire) cfgDefault

/-- A configuration whose height is not a multiple of 8. -/
def cfg8x12 : Config := ⟨8, 12, 0, 0, (0, 0), (0, 0), 0⟩

/-- A configuration whose `width*height` does not fit `int16`: `1024*64 = 65536`. -/
def cfg1024x64 : Config := ⟨1024, 64, 0, 0, (0, 0), (0, 0), 0⟩

/-- The header bytes of the transmission buffer are allocated, so that a command
can be staged. -/
def Bus.Ready (bus : Bus) : Prop := bus.header ≤ bus.buffer.length

instance (bus : Bus) : Decidable bus.Ready := by
  unfold Bus.Ready; infer_instance

/-- The hardware events of one command byte `c`: on I2C one write of the control byte
`0x00` and `c`; on SPI chip-select high, data/command low, chip-select low, the
transfer of `c`, chip-select high. -/
def Bus.commandEvents : Bus → Nat → List Event
  | .i2c b, c => [Event.i2cTx b.address [0x00, c]]
  | .spi _, c =>
    [Event.csPin true, Event.dcPin false, Event.csPin false, Event.spiTx [c], Event.csPin true]

/-- The bus after the interface call `command(c)`, for a bus on which it returns. -/
def Bus.afterCommand (bus : Bus) (c : Nat) : Bus :=
  ((bus.command c).map fun r => r.1).getD bus

/-- The device after `d.Command(c)`, for a device on which it returns. -/
def Device.afterCommand (d : Device) (c : Nat) : Device :=
  { d with bus := d.bus.afterCommand c }

/-- The effective width of a configuration: `cfg.Width`, or 128 when it is 0. -/
def Config.effWidth (cfg : Config) : Int := if cfg.Width ≠ 0 then cfg.Width else 128

/-- The effective height of a configuration: `cfg.Height`, or 64 when it is 0. -/
def Config.effHeight (cfg : Config) : Int := if cfg.Height ≠ 0 then cfg.Height else 64

/-- The effective VCC mode of a configuration: `cfg.VccState`, or `SWITCHCAPVCC` when
it is 0. -/
def Config.effVcc (K : Consts) (cfg : Config) : Nat :=
  if cfg.VccState ≠ 0 then cfg.VccState else K.SWITCHCAPVCC

/-- The buffer size `Configure` requests from the bus: `width*height/8` in `int16`
arithmetic. -/
def Config.bufferSize (cfg : Config) : Int :=
  (wrap16 (cfg.effWidth * cfg.effHeight)).tdiv 8

/-- The size-keyed block as the specification tabulates it, for a geometry and
whether VCC is external. -/
def specSizeBlock (w h : Int) (ext : Bool) : List Nat :=
  if (w = 128 ∧ h = 64) ∨ (w = 64 ∧ h = 48) then [0xDA, 0x12, 0x81, if ext then 0x9F else 0xCF]
  else if w = 128 ∧ h = 32 then [0xDA, 0x02, 0x81, 0x8F]
  else if w = 96 ∧ h = 16 then [0xDA, 0x02, 0x81, if ext then 0x10 else 0xAF]
  else []

/-- The two commands `SetRotation` sends for a rotation value, read off its `switch`. -/
def rotationBytes (K : Consts) (r : Nat) : List Nat :=
  if r = K.Rotation0 then [0xA1, 0xC8]
  else if r = K.Rotation180 then [0xA0, 0xC0]
  else [0xA1, 0xC8]

/-- The device after a sequence of commands, for a device on which they return. -/
def Device.afterCommands (d : Device) (cs : List Nat) : Device :=
  cs.foldl Device.afterCommand d

/-- The command bytes of `Configure` in the order of the specification, for a
geometry, the VCC mode being external or not, and the rotation pair: display-off,
clock divide, multiplex ratio `height-1`, display offset, start line, charge pump,
memory mode, the rotation pair, the size-keyed block, pre-charge, VCOM deselect,
display-all-on-resume, normal display, deactivate scroll, display-on. -/
def specConfigureBytes (w h : Int) (ext : Bool) (rot : List Nat) : List Nat :=
  [0xAE, 0xD5, 0x80, 0xA8, toUint8 (wrap16 (h - 1)), 0xD3, 0x00, 0x40, 0x8D,
    if ext then 0x10 else 0x14, 0x20, 0x00]
  ++ rot ++ specSizeBlock w h ext
  ++ [0xD9, if ext then 0x22 else 0xF1, 0xDB, 0x40, 0xA4, 0xA6, 0x2E, 0xAF]

/-- The hardware events of the interface call `configure`: none on I2C; on SPI the
three lines driven low and the reset pulse. -/
def Bus.configureEvents : Bus → List Event
  | .i2c _ => []
  | .spi _ =>
    [Event.csPin false, Event.dcPin false, Event.resetPin false, Event.resetPin true,
      Event.resetPin false, Event.resetPin true]

/-- The hardware events of the interface call `flush` when the framebuffer holds
`fb`: on I2C one write of the control byte `0x40` and the framebuffer; on SPI
chip-select high, data/command high, chip-select low, the transfer of the
framebuffer, chip-select high. -/
def Bus.flushEvents : Bus → List Nat → List Event
  | .i2c b, fb => [Event.i2cTx b.address (0x40 :: fb)]
  | .spi _, fb =>
    [Event.csPin true, Event.dcPin true, Event.csPin false, Event.spiTx fb, Event.csPin true]

/-- The configuration of the Thumby example: a 72x40 panel with explicit reset
ranges. -/
def cfgThumby : Config := ⟨72, 40, 0, 0, (28, 99), (0, 5), 0⟩

/-- A configuration whose `width*height` is 32768, which is `-32768` as an `int16`. -/
def cfg256x128 : Config := ⟨256, 128, 0, 0, (0, 0), (0, 0), 0⟩

/-- Another configuration whose `width*height` is 32768. -/
def cfg512x64 : Config := ⟨512, 64, 0, 0, (0, 0), (0, 0), 0⟩

/-- The pixel `(x, y)` is on the panel. -/
def Device.InRange (d : Device) (x y : Int) : Prop :=
  0 ≤ x ∧ x < d.width ∧ 0 ≤ y ∧ y < d.height

instance (d : Device) (x y : Int) : Decidable (d.InRange x y) := by
  unfold Device.InRange; infer_instance

/-- A configured device whose framebuffer has a byte for every pixel of the panel. -/
def Device.Covered (d : Device) : Prop :=
  d.Configured ∧ ∀ x y : Int, d.InRange x y → x + y / 8 * d.width < d.buffer.length

/-- A white bitmap of 32700 by 1 pixels. -/
def wideBitmap : Bitmap := { width := 32700, height := 1, Get := fun _ _ => white }

/-- The default SPI panel after `SetPixel(0, 0, white)`. -/
def spi128x64Dot : Option Device := spi128x64.bind fun d => d.SetPixel 0 0 white

/-! ## Clients of the I2C backend, hardware results, chip-select discipline -/

/-- One step of a client of the I2C backend between two flushes: a command byte, a
store of a byte through the image buffer `b.buffer[2:]` returned by `configure`
(the pixel writes of the display engine), or a flush. -/
inductive I2COp where
  | command (c : Nat)
  | write (i : Nat) (v : Nat)
  | flush
  deriving DecidableEq, Repr

/-- A store `img[i] = v` through the image buffer `img = b.buffer[2:]`: a fault when
`i` is outside the image buffer. -/
def I2CBus.write (b : I2CBus) (i v : Nat) : Option I2CBus :=
  if 2 + i < b.buffer.length then some { b with buffer := b.buffer.set (2 + i) v } else none

/-- Run a sequence of steps on the I2C backend; the errors of the transfers are
dropped, as the display engine does for commands. -/
def I2CBus.run (b : I2CBus) : List I2COp → Option I2CBus
  | [] => some b
  | I2COp.command c :: ops => (b.command c).bind fun r => r.1.run ops
  | I2COp.write i v :: ops => (b.write i v).bind fun b => b.run ops
  | I2COp.flush :: ops => b.flush.bind fun r => r.1.run ops

/-- The next result the hardware is going to return for a transfer. -/
def Wire.next (w : Wire) : Option Error := w.pending.headD none

/-- No change of the data/command line while chip-select is low: the first argument
says whether chip-select is low at the start of the events. -/
def dcQuietWhileSelected : Bool → List Event → Bool
  | _, [] => true
  | _, Event.csPin high :: es => dcQuietWhileSelected (!high) es
  | selected, Event.dcPin _ :: es => !selected && dcQuietWhileSelected selected es
  | selected, Event.i2cTx _ _ :: es => dcQuietWhileSelected selected es
  | selected, Event.spiTx _ :: es => dcQuietWhileSelected selected es
  | selected, Event.resetPin _ :: es => dcQuietWhileSelected selected es

/-- An I2C backend, not yet configured, on a wire whose second transfer fails. -/
def i2cSample : I2CBus :=
  { wire := { log := [], pending := [none, some (Error.transport 5)] }
    address := 0x3C, buffer := [] }

/-- A configuration whose `width*height` is 65536, which is `0` as an `int16`. -/
def cfg256x256 : Config := ⟨256, 256, 0, 0, (0, 0), (0, 0), 0⟩

/-! ## Failing hardware, sequences of operations -/

/-- A hardware with an empty log whose first `n` transfers succeed and whose next
transfers return `results`. -/
def flakyWire (n : Nat) (results : List (Option Error)) : Wire :=
  { log := [], pending := List.replicate n none ++ results }

/-- The default I2C panel on a hardware whose first transfer after the 26 commands of
`Configure` fails. -/
def i2cFlaky : Option Device :=
  Device.Configure K0 (NewI2C K0 (flakyWire 26 [some (Error.transport 7)])) cfgDefault

/-- The 72x40 SPI panel on a hardware on which, after the 22 commands of `Configure`,
six transfers fail with one error and the seventh with another. -/
def spiFlaky : Option Device :=
  Device.Configure K0 (NewSPI (flakyWire 22 (List.replicate 6 (some (Error.transport 1)) ++
    [some (Error.transport 9)]))) cfgThumby

/-- The bus is the I2C backend. -/
def Bus.isI2C : Bus → Bool
  | .i2c _ => true
  | .spi _ => false

/-- One call of an operation of the display engine on a configured device. -/
inductive Op where
  | setPixel (x y : Int) (c : RGBA)
  | clearBuffer
  | clearDisplay
  | setBuffer (buffer : List Nat)
  | fillRectangle (x y width height : Int) (c : RGBA)
  | drawBitmap (x y : Int) (bitmap : Bitmap)
  | display
  | setRotation (rotation : Nat)
  | sleep (sleepEnabled : Bool)
  | tx (data : List Nat) (isCommand : Bool)

/-- The device after one operation; the error the operation returns is dropped, a
fault of the operation is a fault. -/
def Device.step (K : Consts) (d : Device) : Op → Option Device
  | Op.setPixel x y c => d.SetPixel x y c
  | Op.clearBuffer => some d.ClearBuffer
  | Op.clearDisplay => d.ClearDisplay
  | Op.setBuffer buffer => some (d.SetBuffer buffer).1
  | Op.fillRectangle x y width height c => (d.FillRectangle x y width height c).map Prod.fst
  | Op.drawBitmap x y bitmap => (d.DrawBitmap x y bitmap).map Prod.fst
  | Op.display => d.Display.map Prod.fst
  | Op.setRotation rotation => (d.SetRotation K rotation).map Prod.fst
  | Op.sleep sleepEnabled => (d.Sleep sleepEnabled).map Prod.fst
  | Op.tx data isCommand => (d.Tx data isCommand).map Prod.fst

/-- The device after a sequence of operations. -/
def Device.run (K : Consts) : Device → List Op → Option Device
  | d, [] => some d
  | d, op :: ops => (d.step K op).bind fun d' => Device.run K d' ops

/-- A configured device of a given size. -/
def Device.Framed (W H : Int) (d : Device) : Prop :=
  d.Configured ∧ d.width = W ∧ d.height = H

/-- A configuration of 16 by 16 pixels. -/
def cfg16x16 : Config := ⟨16, 16, 0, 0, (0, 0), (0, 0), 0⟩

/-- A bitmap of 2 by 2 pixels, all on. -/
def dotBitmap : Bitmap := { width := 2, height := 2, Get := fun _ _ => white }

/-- Ten operations on a 16x16 panel, one of each kind. -/
def sampleOps : List Op :=
  [Op.setPixel 3 4 white, Op.fillRectangle 1 1 3 2 white, Op.sleep true,
    Op.tx [1, 2, 3] false, Op.display, Op.setRotation 2, Op.setBuffer (List.replicate 32 5),
    Op.drawBitmap 4 4 dotBitmap, Op.clearBuffer, Op.clearDisplay]

end Ssd1306

/-! ## ENS160 gas sensor: compensation values (`ens160/ens160.go`) -/

namespace Ens160

/-- Wrap an integer to the Go `int32` range (two's complement). -/
def wrap32 (n : Int) : Int := (n + 2147483648) % 4294967296 - 2147483648

/-- Go conversion `uint16(n)` of a signed integer: the low sixteen bits. -/
def toUint16 (n : Int) : Nat := (n % 65536).toNat

/-- The constant `kelvinOffsetMilli`. -/
def kelvinOffsetMilli : Int := 273150
/-- The constant `tempRawFactor`. -/
def tempRawFactor : Int := 64
/-- The constant `humRawFactor`. -/
def humRawFactor : Int := 512
/-- The constant `milliFactor`. -/
def milliFactor : Int := 1000
/-- The constant `roundingTerm`, `milliFactor / 2`. -/
def roundingTerm : Int := milliFactor.tdiv 2

/-- The function `calculateTempRaw`, in `int32` arithmetic. -/
def calculateTempRaw (tempMilliC : Int) : Nat :=
  let minC : Int := -40 * 1000
  let maxC : Int := 85 * 1000
  let tempMilliC := if tempMilliC < minC then minC
    else if tempMilliC > maxC then maxC else tempMilliC
  toUint16 ((wrap32 (wrap32 (wrap32 (tempMilliC + kelvinOffsetMilli) * tempRawFactor)
    + roundingTerm)).tdiv milliFactor)

/-- The value `x` clamped to `[lo, hi]`. -/
def clamp (x lo hi : Int) : Int := if x < lo then lo else if x > hi then hi else x

/-- The value `n` is an `int32`. -/
def IsInt32 (n : Int) : Prop := -2147483648 ≤ n ∧ n ≤ 2147483647

/-- The function `calculateHumRaw`, in `int32` arithmetic. -/
def calculateHumRaw (rhMilliPct : Int) : Nat :=
  let rhMilliPct := if rhMilliPct < 0 then 0
    else if rhMilliPct > 100 * 1000 then 100 * 1000 else rhMilliPct
  toUint16 ((wrap32 (wrap32 (rhMilliPct * humRawFactor) + roundingTerm)).tdiv milliFactor)

end Ens160

/-! ## Seesaw rotary encoders (`seesaw/encoder.go`) -/

namespace Seesaw

/-- Wrap an integer to the Go `int32` range (two's complement). -/
def wrap32 (n : Int) : Int := (n + 2147483648) % 4294967296 - 2147483648

/-- The 32 bits of an `int32`, as a natural number (two's complement). -/
def bits32 (n : Int) : Nat := (n % 4294967296).toNat

/-- Go `a << k` on `int32`. -/
def shl32 (a : Int) (k : Nat) : Int := wrap32 (a * 2 ^ k)

/-- Go `a >> k` on `int32`: the arithmetic shift. -/
def sar32 (a : Int) (k : Nat) : Int := a / 2 ^ k

/-- Go `a | b` on `int32`. -/
def or32 (a b : Int) : Int := wrap32 ((bits32 a ||| bits32 b : Nat) : Int)

/-- Go conversion `byte(n)` of an `int32`: the low eight bits. -/
def byte (n : Int) : Nat := (n % 256).toNat

/-- The value `n` is an `int32`. -/
def IsInt32 (n : Int) : Prop := -2147483648 ≤ n ∧ n ≤ 2147483647

/-- The `error` values: `errInvalidEncoderNumber` and whatever `Read` and `Write`
return. -/
inductive Error where
  | errInvalidEncoderNumber
  | bus (code : Nat)
  deriving DecidableEq, Repr

/-- Named constants used by the encoder functions whose declarations are not part of
the available sources: the module base address of the encoders and the two function
codes. -/
structure Consts where
  ModuleEncoderBase : Nat
  FunctionEncoderPosition : Nat
  FunctionEncoderDelta : Nat
  deriving DecidableEq, Repr

/-- One call of `d.Read(module, function, buf)` or `d.Write(module, function, buf)`. -/
inductive Call where
  | read (module function : Nat) (len : Nat)
  | write (module function : Nat) (data : List Nat)
  deriving DecidableEq, Repr

/-- The struct `Device` with the hardware behind it.  The methods `Read` and `Write` are
not part of the available sources; they are the environment: every call is appended to
`calls`, and `respond` gives, for the history of calls up to and including the current
one, the bytes the hardware sends and the error the call returns. -/
structure Device where
  calls : List Call
  respond : List Call → List Nat × Option Error

/-- Go `copy(dst, src)`: overwrite the first `min (len dst) (len src)` elements. -/
def goCopy (dst src : List Nat) : List Nat :=
  src.take dst.length ++ dst.drop src.length

/-- The call `d.Read(module, function, buf)` on a zeroed buffer of `n` bytes: the
device afterwards, the content of the buffer, the error. -/
def Device.Read (d : Device) (module function n : Nat) : Device × List Nat × Option Error :=
  let history := d.calls ++ [Call.read module function n]
  let answer := d.respond history
  ({ d with calls := history },
    goCopy (List.replicate n 0) (answer.1.map fun b => b % 256), answer.2)

/-- The call `d.Write(module, function, buf)`. -/
def Device.Write (d : Device) (module function : Nat) (buf : List Nat) :
    Device × Option Error :=
  let history := d.calls ++ [Call.write module function buf]
  ({ d with calls := history }, (d.respond history).2)

/-- The conversion `FunctionAddress(encoder)` to the byte type of function addresses
("the upper nibble is the function, the lower nibble selects the encoder"). -/
def FunctionAddress (encoder : Nat) : Nat := encoder % 256

/-- The expression `int32(buf[0])<<24 | int32(buf[1])<<16 | int32(buf[2])<<8 |
int32(buf[3])` of `GetEncoderPosition`. -/
def decodeInt32 (buf : List Nat) : Int :=
  or32 (or32 (or32 (shl32 (buf.getD 0 0) 24) (shl32 (buf.getD 1 0) 16))
    (shl32 (buf.getD 2 0) 8)) (buf.getD 3 0)

/-- The array literal of `SetEncoderPosition`: `byte(position >> 24)`,
`byte(position >> 16)`, `byte(position >> 8)`, `byte(position)`. -/
def encodeInt32 (position : Int) : List Nat :=
  [byte (sar32 position 24), byte (sar32 position 16), byte (sar32 position 8), byte position]

/-- The method `Device.GetEncoderPosition`. -/
def Device.GetEncoderPosition (K : Consts) (d : Device) (encoder : Nat) (asDelta : Bool) :
    Device × Int × Option Error :=
  if encoder ≥ 16 then (d, 0, some Error.errInvalidEncoderNumber)
  else
    let fnAddr := FunctionAddress encoder
    let fnAddr := if asDelta then fnAddr ||| K.FunctionEncoderDelta
      else fnAddr ||| K.FunctionEncoderPosition
    let (d, buf, err) := d.Read K.ModuleEncoderBase fnAddr 4
    if err ≠ none then (d, 0, err)
    else (d, decodeInt32 buf, none)

/-- The method `Device.SetEncoderPosition`. -/
def Device.SetEncoderPosition (K : Consts) (d : Device) (encoder : Nat) (position : Int) :
    Device × Option Error :=
  if encoder ≥ 16 then (d, some Error.errInvalidEncoderNumber)
  else
    let fnAddr := K.FunctionEncoderPosition ||| FunctionAddress encoder
    d.Write K.ModuleEncoderBase fnAddr (encodeInt32 position)

/-- A hardware that answers a read with the bytes of the write just before it to the
same module and function, and whose calls all succeed. -/
def Device.Echo (d : Device) : Prop :=
  ∀ (history : List Call) (module function : Nat) (data : List Nat),
    d.respond (history ++ [Call.write module function data,
      Call.read module function data.length]) = (data, none)

/-- The answers of a hardware that echoes the write just before a read. -/
def echoRespond (history : List Call) : List Nat × Option Error :=
  match history.reverse with
  | Call.read m f _ :: Call.write m' f' data :: _ =>
    if m = m' ∧ f = f' then (data, none) else ([], none)
  | _ => ([], none)

/-- A device on an echoing hardware, before any call. -/
def echoDevice : Device := { calls := [], respond := echoRespond }

/-- A device on a hardware whose calls all fail with the same error and send the
bytes `1, 2, 3, 4`. -/
def failingDevice : Device :=
  { calls := [], respond := fun _ => ([1, 2, 3, 4], some (Error.bus 3)) }

/-- The constants of the witnesses. -/
def K1 : Consts :=
  { ModuleEncoderBase := 0x11, FunctionEncoderPosition := 0x30, FunctionEncoderDelta := 0x40 }

end Seesaw

/-! ## Register access over SPI (`internal/regmap/devices.go`) -/

namespace Regmap

/-- The `error` values: `io.ErrShortBuffer` and whatever the bus returns. -/
inductive Error where
  | ErrShortBuffer
  | bus (code : Nat)
  deriving DecidableEq, Repr

/-- One call `bus.Tx(w, r)` on the SPI bus: the bytes written and the length of the
read buffer. -/
structure Transfer where
  w : List Nat
  rlen : Nat
  deriving DecidableEq, Repr

/-- The bus `drivers.SPI`, the environment: every call of `Tx` is appended to `log`,
and `respond` gives, for the history of calls up to and including the current one, the
bytes received and the error the call returns.  SPI is full duplex: the `k`-th byte
received is the byte the device sends while the `k`-th byte of `w` is sent. -/
structure SPI where
  log : List Transfer
  respond : List Transfer → List Nat × Option Error

/-- Go `copy(dst, src)`: overwrite the first `min (len dst) (len src)` elements. -/
def goCopy (dst src : List Nat) : List Nat :=
  src.take dst.length ++ dst.drop src.length

/-- The call `bus.Tx(w, r)`: the bus afterwards, the content of `r`, the error. -/
def SPI.Tx (bus : SPI) (w r : List Nat) : SPI × List Nat × Option Error :=
  let history := bus.log ++ [{ w := w, rlen := r.length }]
  let answer := bus.respond history
  ({ bus with log := history }, goCopy r (answer.1.map fun b => b % 256), answer.2)

/-- The struct `Device8`. -/
structure Device8 where
  buf : List Nat
  deriving DecidableEq, Repr

/-- The method `Device8.clear`. -/
def Device8.clear (_d : Device8) : Device8 := { buf := List.replicate 10 0 }

/-- The interface `binary.ByteOrder`, as far as the reads use it. -/
structure ByteOrder where
  Uint16 : List Nat → Nat
  Uint32 : List Nat → Nat

/-- The byte order `binary.LittleEndian`. -/
def LittleEndian : ByteOrder :=
  { Uint16 := fun b => b.getD 0 0 ||| (b.getD 1 0 <<< 8)
    Uint32 := fun b =>
      b.getD 0 0 ||| (b.getD 1 0 <<< 8) ||| (b.getD 2 0 <<< 16) ||| (b.getD 3 0 <<< 24) }

/-- The byte order `binary.BigEndian`. -/
def BigEndian : ByteOrder :=
  { Uint16 := fun b => b.getD 1 0 ||| (b.getD 0 0 <<< 8)
    Uint32 := fun b =>
      b.getD 3 0 ||| (b.getD 2 0 <<< 8) ||| (b.getD 1 0 <<< 16) ||| (b.getD 0 0 <<< 24) }

/-- The slice expression `l[i:j]`. -/
def slice (l : List Nat) (i j : Nat) : List Nat := (l.take j).drop i

/-- The array `l` after the slice that starts at `i` received the content `r`. -/
def writeBack (l : List Nat) (i : Nat) (r : List Nat) : List Nat :=
  l.take i ++ r ++ l.drop (i + r.length)

/-- What a register read returns: the device and the bus afterwards, the value, the
error. -/
structure ReadResult where
  dev : Device8
  bus : SPI
  value : Nat
  err : Option Error

/-- The method `Device8.Read8SPI`. -/
def Device8.Read8SPI (d : Device8) (bus : SPI) (addr : Nat) : ReadResult :=
  let d := d.clear
  let buf := d.buf.set 0 addr
  let (bus, r, err) := bus.Tx (slice buf 0 1) (slice buf 1 2)
  let buf := writeBack buf 1 r
  { dev := { buf := buf }, bus := bus, value := buf.getD 1 0, err := err }

/-- The method `Device8.Read16SPI`. -/
def Device8.Read16SPI (d : Device8) (bus : SPI) (addr : Nat) (order : ByteOrder) :
    ReadResult :=
  let d := d.clear
  let buf := d.buf.set 0 addr
  let (bus, r, err) := bus.Tx (slice buf 0 3) (slice buf 3 6)
  let buf := writeBack buf 3 r
  { dev := { buf := buf }, bus := bus, value := order.Uint16 (slice buf 4 6), err := err }

/-- The method `Device8.Read32SPI`. -/
def Device8.Read32SPI (d : Device8) (bus : SPI) (addr : Nat) (order : ByteOrder) :
    ReadResult :=
  let d := d.clear
  let buf := d.buf.set 0 addr
  let (bus, r, err) := bus.Tx (slice buf 0 5) (slice buf 5 10)
  let buf := writeBack buf 5 r
  { dev := { buf := buf }, bus := bus, value := order.Uint32 (slice buf 6 10), err := err }

/-- What `ReadDataSPI` returns: the bus and the auxiliary buffer afterwards, the slice
returned (`none` for `nil`), the error. -/
structure DataResult where
  bus : SPI
  aux : List Nat
  data : Option (List Nat)
  err : Option Error

/-- The method `Device8.ReadDataSPI`.  The Go `int` values are integers (the sum
`dataLength+1` does not overflow for a length below the largest `int`); a slice or
index expression out of range is the result `none`. -/
def Device8.ReadDataSPI (_d : Device8) (bus : SPI) (addr : Nat) (dataLength : Int)
    (auxiliaryBuf : List Nat) : Option DataResult :=
  let split := auxiliaryBuf.length / 2
  if (split : Int) < dataLength + 1 then
    some { bus := bus, aux := auxiliaryBuf, data := none, err := some Error.ErrShortBuffer }
  else
    let wbuf := auxiliaryBuf.take split
    let rbuf := auxiliaryBuf.drop split
    if wbuf.length = 0 then none
    else
      let wbuf := wbuf.set 0 addr
      let (bus, rbuf, err) := bus.Tx wbuf rbuf
      if rbuf.length < 1 then none
      else some { bus := bus, aux := wbuf ++ rbuf, data := some (rbuf.drop 1), err := err }

/-- The bytes received during a transfer of `n` bytes on the bus `bus` when `w` is
written: the answer of the hardware, as far as the read buffer of `n` zero bytes holds
it. -/
def SPI.received (bus : SPI) (w : List Nat) (n : Nat) : List Nat :=
  goCopy (List.replicate n 0) ((bus.respond (bus.log ++ [{ w := w, rlen := n }])).1.map
    fun b => b % 256)

/-- A bus without history on which the device sends `0xAA` while the address byte is
sent and `0x55, 0x66, 0x77, 0x88` after it. -/
def sampleSPI : SPI :=
  { log := [], respond := fun _ => ([0xAA, 0x55, 0x66, 0x77, 0x88], none) }

/-- A device whose buffer is zero. -/
def dev0 : Device8 := { buf := List.replicate 10 0 }

end Regmap

namespace Ssd1306

/-! ## Basic facts: machine integers and bytes -/

theorem wrap16_of_range {n : Int} (h1 : -32768 ≤ n) (h2 : n ≤ 32767) : wrap16 n = n := by
  unfold wrap16; omega

theorem bitIndex_of_nonneg {y : Int} (hy : 0 ≤ y) : bitIndex y = (y % 8).toNat := by
  unfold bitIndex toUint8
  rw [Int.tmod_eq_emod hy (by decide)]
  congr 1; omega

theorem bitIndex_lt {y : Int} (hy : 0 ≤ y) : bitIndex y < 8 := by
  rw [bitIndex_of_nonneg hy]; omega

theorem byteBit_eq_testBit (b k : Nat) : byteBit b k = b.testBit k := by
  unfold byteBit
  simp [Nat.testBit_to_div_mod, Nat.and_one_is_mod, Nat.shiftRight_eq_div_pow]

theorem bitMask_eq {y : Int} (hy : 0 ≤ y) : bitMask y = 2 ^ bitIndex y := by
  have h := bitIndex_lt hy
  unfold bitMask
  rw [Nat.one_shiftLeft]
  apply Nat.mod_eq_of_lt
  calc 2 ^ bitIndex y < 2 ^ 8 := Nat.pow_lt_pow_right (by decide) h
    _ = 256 := by norm_num

theorem testBit_255 (j : Nat) : Nat.testBit 255 j = decide (j < 8) := by
  have h : (255 : Nat) = 2 ^ 8 - 1 := by norm_num
  rw [h, Nat.testBit_two_pow_sub_one]

/-- Bits of a byte after `b |= 1 << k`. -/
theorem testBit_setBit (b k j : Nat) :
    ((b ||| 2 ^ k) % 256).testBit j = (decide (j < 8) && (b.testBit j || decide (k = j))) := by
  have h : (256 : Nat) = 2 ^ 8 := by norm_num
  rw [h, Nat.testBit_mod_two_pow, Nat.testBit_or, Nat.testBit_two_pow]

/-- Bits of a byte after `b &^= 1 << k`. -/
theorem testBit_clearBit (b k j : Nat) :
    ((b &&& (0xFF ^^^ 2 ^ k)) % 256).testBit j =
      (decide (j < 8) && (b.testBit j && !decide (k = j))) := by
  have h : (256 : Nat) = 2 ^ 8 := by norm_num
  rw [h, Nat.testBit_mod_two_pow, Nat.testBit_and, Nat.testBit_xor, Nat.testBit_two_pow,
    testBit_255]
  by_cases h8 : j < 8 <;> by_cases hk : k = j <;> simp [h8, hk]

/-! ## Basic facts: the framebuffer view -/

@[simp] theorem Bus.buffer_setBuffer (bus : Bus) (l : List Nat) :
    (bus.setBuffer l).buffer = l := by
  cases bus <;> rfl

@[simp] theorem Bus.header_setBuffer (bus : Bus) (l : List Nat) :
    (bus.setBuffer l).header = bus.header := by
  cases bus <;> rfl

@[simp] theorem Bus.wire_setBuffer (bus : Bus) (l : List Nat) :
    (bus.setBuffer l).wire = bus.wire := by
  cases bus <;> rfl

@[simp] theorem Device.buffer_store (d : Device) (i v : Nat) :
    (d.store i v).buffer = d.buffer.set i v := by
  simp [Device.store, Device.buffer, List.set_drop]

@[simp] theorem Device.width_store (d : Device) (i v : Nat) : (d.store i v).width = d.width := rfl
@[simp] theorem Device.height_store (d : Device) (i v : Nat) :
    (d.store i v).height = d.height := rfl
@[simp] theorem Device.view_store (d : Device) (i v : Nat) : (d.store i v).view = d.view := rfl
@[simp] theorem Device.log_store (d : Device) (i v : Nat) : (d.store i v).log = d.log := by
  simp [Device.store, Device.log]

@[simp] theorem Device.byteIndex_store (d : Device) (i v : Nat) (x y : Int) :
    (d.store i v).byteIndex x y = d.byteIndex x y := rfl

theorem Device.Configured.store {d : Device} (h : d.Configured) (i v : Nat) :
    (d.store i v).Configured := by
  obtain ⟨h1, h2, h3⟩ := h
  refine ⟨?_, ?_, ?_⟩
  · simpa [Device.store] using h1
  · simpa [Device.store] using h2
  · simpa using h3

/-! ## Pixel access -/

theorem tdiv8_of_nonneg {a : Int} (h : 0 ≤ a) : a.tdiv 8 = a / 8 :=
  Int.tdiv_eq_ediv h (by decide)

theorem tdiv8_le {a : Int} (h : a ≤ 32767) : a.tdiv 8 ≤ 4095 := by
  by_cases h0 : 0 ≤ a
  · rw [tdiv8_of_nonneg h0]; omega
  · have h1 : a = -(-a) := by omega
    rw [h1, Int.neg_tdiv, tdiv8_of_nonneg (by omega)]; omega

theorem wrap16_le (n : Int) : wrap16 n ≤ 32767 := by unfold wrap16; omega

/-- The framebuffer of a configured device has at most 4095 bytes. -/
theorem Device.Configured.length_le {d : Device} (h : d.Configured) :
    d.buffer.length ≤ 4095 := by
  have h3 := h.2.2
  have := tdiv8_le (wrap16_le (d.width * d.height))
  omega

/-- The byte index of an in-range pixel, when the exact value lies inside the
framebuffer of a configured device: no `int16` operation wraps. -/
theorem Device.byteIndex_exact {d : Device} (hc : d.Configured) {x y : Int}
    (hx : 0 ≤ x ∧ x < d.width) (hy : 0 ≤ y)
    (hidx : x + y / 8 * d.width < d.buffer.length) :
    d.byteIndex x y = x + y / 8 * d.width ∧ 0 ≤ x + y / 8 * d.width := by
  have hl := hc.length_le
  have hq : 0 ≤ y / 8 * d.width := Int.mul_nonneg (by omega) (by omega)
  unfold Device.byteIndex
  rw [tdiv8_of_nonneg hy]
  generalize y / 8 * d.width = q at *
  constructor
  · rw [wrap16_of_range (n := q) (by omega) (by omega)]
    exact wrap16_of_range (by omega) (by omega)
  · omega

/-- The method `SetPixel` on an in-range pixel whose byte index is inside the buffer. -/
theorem Device.SetPixel_inside (d : Device) (x y : Int) (c : RGBA)
    (hx : 0 ≤ x ∧ x < d.width) (hy : 0 ≤ y ∧ y < d.height)
    (hi : 0 ≤ d.byteIndex x y) (hlt : (d.byteIndex x y).toNat < d.buffer.length) :
    d.SetPixel x y c = some (d.store (d.byteIndex x y).toNat
      (pixelByte (d.buffer.getD (d.byteIndex x y).toNat 0) y c)) := by
  have hg : ¬ (x < 0 ∨ x ≥ d.width ∨ y < 0 ∨ y ≥ d.height) := by omega
  unfold Device.SetPixel pixelByte RGBA.isOn
  rw [if_neg hg]
  simp only [dif_pos (And.intro hi hlt)]
  have hb : d.buffer.get ⟨(d.byteIndex x y).toNat, hlt⟩
      = d.buffer.getD (d.byteIndex x y).toNat 0 := by
    simp [List.getD_eq_getElem?_getD, List.getElem?_eq_getElem hlt]
  rw [hb]
  by_cases hc : c.R ≠ 0 ∨ c.G ≠ 0 ∨ c.B ≠ 0
  · simp [hc]
  · simp [hc]

/-- The method `GetPixel` on an in-range pixel whose byte index is inside the buffer. -/
theorem Device.GetPixel_inside (d : Device) (x y : Int)
    (hx : 0 ≤ x ∧ x < d.width) (hy : 0 ≤ y ∧ y < d.height)
    (hi : 0 ≤ d.byteIndex x y) (hlt : (d.byteIndex x y).toNat < d.buffer.length) :
    d.GetPixel x y =
      some ((d.buffer.getD (d.byteIndex x y).toNat 0).testBit (bitIndex y)) := by
  have hg : ¬ (x < 0 ∨ x ≥ d.width ∨ y < 0 ∨ y ≥ d.height) := by omega
  unfold Device.GetPixel
  rw [if_neg hg]
  simp only [dif_pos (And.intro hi hlt)]
  have hb : d.buffer.get ⟨(d.byteIndex x y).toNat, hlt⟩
      = d.buffer.getD (d.byteIndex x y).toNat 0 := by
    simp [List.getD_eq_getElem?_getD, List.getElem?_eq_getElem hlt]
  rw [hb]
  have := byteBit_eq_testBit (d.buffer.getD (d.byteIndex x y).toNat 0) (bitIndex y)
  unfold byteBit at this
  rw [this]

/-- Bits of the byte `SetPixel` stores. -/
theorem testBit_pixelByte (b : Nat) {y : Int} (hy : 0 ≤ y) (c : RGBA) (j : Nat) :
    (pixelByte b y c).testBit j =
      (decide (j < 8) && if bitIndex y = j then c.isOn else b.testBit j) := by
  unfold pixelByte
  rw [bitMask_eq hy]
  by_cases hc : c.isOn = true
  · rw [if_pos hc, testBit_setBit]
    by_cases hk : bitIndex y = j <;> simp [hk, hc]
  · rw [if_neg hc, testBit_clearBit]
    by_cases hk : bitIndex y = j <;> simp [hk, hc]

theorem pixelByte_lt (b : Nat) (y : Int) (c : RGBA) : pixelByte b y c < 256 := by
  unfold pixelByte
  split <;> exact Nat.mod_lt _ (by decide)

theorem getD_set_self (l : List Nat) (i v : Nat) (h : i < l.length) :
    (l.set i v).getD i 0 = v := by
  simp [List.getD_eq_getElem?_getD, List.getElem?_set, h]

/-- The method `GetPixel` outside the panel. -/
theorem setPixel_getPixel_outside_aux (d : Device) (x y : Int)
    (h : x < 0 ∨ x ≥ d.width ∨ y < 0 ∨ y ≥ d.height) : d.GetPixel x y = some false := by
  unfold Device.GetPixel
  rw [if_pos h]

/-! ## C2: pixels outside the panel -/

/-- C2: for every device state, every `(x, y)` outside `[0,width) x [0,height)` and every
colour, `SetPixel` returns the device unchanged (in particular the whole framebuffer)
and `GetPixel` returns false; both return without a run-time fault, that is without
indexing the buffer. -/
theorem setPixel_getPixel_outside (d : Device) (x y : Int) (c : RGBA)
    (h : x < 0 ∨ x ≥ d.width ∨ y < 0 ∨ y ≥ d.height) :
    d.SetPixel x y c = some d ∧ d.GetPixel x y = some false := by
  unfold Device.SetPixel Device.GetPixel
  rw [if_pos h, if_pos h]
  exact ⟨rfl, rfl⟩

set_option maxRecDepth 100000 in
/-- C2, witness: the pixel `(128, 3)` on the default SPI panel. -/
theorem setPixel_getPixel_outside_witness :
    ∃ d, spi128x64 = some d ∧ (128 < (0 : Int) ∨ 128 ≥ d.width ∨ (3 : Int) < 0 ∨ 3 ≥ d.height) ∧
      (d.SetPixel 128 3 white = some d ∧ d.GetPixel 128 3 = some false) :=
  ⟨spi128x64.getD (NewSPI idleWire), by decide, by decide,
    setPixel_getPixel_outside _ 128 3 white (by decide)⟩

/-! ## C1: write then read a pixel -/

set_option maxRecDepth 100000 in
/-- C1, as stated, fails: the I2C device configured as 8x12 has a 12-byte framebuffer,
the pixel `(4, 8)` is in range, and `SetPixel(4, 8, white)` indexes byte 12: a run-time
fault, so no `GetPixel` follows. -/
theorem setPixel_faults_8x12 :
    ∃ d, Device.Configure K0 (NewI2C K0 idleWire) cfg8x12 = some d ∧ d.Configured ∧
      d.buffer.length = 12 ∧ ((0 : Int) ≤ 4 ∧ 4 < d.width) ∧ ((0 : Int) ≤ 8 ∧ 8 < d.height) ∧
      d.SetPixel 4 8 white = none :=
  ⟨(Device.Configure K0 (NewI2C K0 idleWire) cfg8x12).getD (NewSPI idleWire),
    by decide, by decide, by decide, by decide, by decide, by decide⟩

/-- C1 (amended): for every configured device, every in-range pixel whose byte index
`x + (y/8)*width` lies inside the framebuffer, and every boolean `v`: `SetPixel(x, y, c)`
with `c` white when `v` is true and black `(0,0,0,alpha)` when `v` is false returns, and
`GetPixel(x, y)` afterwards returns `v`. -/
theorem setPixel_getPixel_roundtrip (d : Device) (x y : Int) (v : Bool) (alpha : Nat)
    (hc : d.Configured) (hx : 0 ≤ x ∧ x < d.width) (hy : 0 ≤ y ∧ y < d.height)
    (hidx : x + y / 8 * d.width < d.buffer.length) :
    ∃ d', d.SetPixel x y (if v then white else transparentBlack alpha) = some d' ∧
      d'.GetPixel x y = some v := by
  obtain ⟨he, h0⟩ := Device.byteIndex_exact hc hx hy.1 hidx
  have hi : 0 ≤ d.byteIndex x y := by rw [he]; exact h0
  have hlt : (d.byteIndex x y).toNat < d.buffer.length := by rw [he]; omega
  refine ⟨_, Device.SetPixel_inside d x y _ hx hy hi hlt, ?_⟩
  rw [Device.GetPixel_inside _ x y (by simpa using hx) (by simpa using hy)
    (by simpa using hi) (by simpa using hlt)]
  simp only [Device.buffer_store, Device.byteIndex_store]
  rw [getD_set_self _ _ _ hlt, testBit_pixelByte _ hy.1]
  have hb := bitIndex_lt hy.1
  cases v <;> simp [hb, RGBA.isOn, white, transparentBlack]

set_option maxRecDepth 100000 in
/-- C1, witness: the pixel `(127, 63)` of the default SPI panel, written white. -/
theorem setPixel_getPixel_roundtrip_witness :
    ∃ d, spi128x64 = some d ∧ d.Configured ∧ ((0 : Int) ≤ 127 ∧ 127 < d.width) ∧
      ((0 : Int) ≤ 63 ∧ 63 < d.height) ∧ (127 + 63 / 8 * d.width < d.buffer.length) ∧
      ∃ d', d.SetPixel 127 63 (if true then white else transparentBlack 255) = some d' ∧
        d'.GetPixel 127 63 = some true :=
  ⟨spi128x64.getD (NewSPI idleWire), by decide, by decide, by decide, by decide, by decide,
    setPixel_getPixel_roundtrip _ 127 63 true 255 (by decide) (by decide) (by decide)
      (by decide)⟩

/-! ## C3: the effect of `SetPixel` on the framebuffer -/

set_option maxRecDepth 100000 in
/-- C3, as stated, fails: for the SPI device configured as 1024x64 the requested size
`width*height/8` is `0` in `int16` arithmetic, the framebuffer is empty, the pixel
`(0, 0)` is in range, and `SetPixel(0, 0, white)` is a run-time fault. -/
theorem setPixel_faults_1024x64 :
    ∃ d, Device.Configure K0 (NewSPI idleWire) cfg1024x64 = some d ∧ d.Configured ∧
      d.buffer = [] ∧ ((0 : Int) ≤ 0 ∧ 0 < d.width) ∧ ((0 : Int) ≤ 0 ∧ 0 < d.height) ∧
      d.SetPixel 0 0 white = none :=
  ⟨(Device.Configure K0 (NewSPI idleWire) cfg1024x64).getD (NewSPI idleWire),
    by decide, by decide, by decide, by decide, by decide, by decide⟩

/-- C3 (amended): for every configured device, every in-range pixel whose byte index
`x + (y/8)*width` lies inside the framebuffer, and every colour `c`: `SetPixel(x, y, c)`
returns; the framebuffer keeps its length; every byte at another index is unchanged;
in the byte at that index, bit `y mod 8` is 1 when one of `c.R`, `c.G`, `c.B` is nonzero
and 0 when all three are zero, whatever `c.A`, every other bit is unchanged, and the
value is a byte. -/
theorem setPixel_frame (d : Device) (x y : Int) (c : RGBA)
    (hc : d.Configured) (hx : 0 ≤ x ∧ x < d.width) (hy : 0 ≤ y ∧ y < d.height)
    (hidx : x + y / 8 * d.width < d.buffer.length) :
    ∃ d', d.SetPixel x y c = some d' ∧
      d'.buffer.length = d.buffer.length ∧
      (∀ i : Nat, (i : Int) ≠ x + y / 8 * d.width → d'.buffer[i]? = d.buffer[i]?) ∧
      byteBit (d'.buffer.getD (x + y / 8 * d.width).toNat 0) (y % 8).toNat
        = decide (c.R ≠ 0 ∨ c.G ≠ 0 ∨ c.B ≠ 0) ∧
      (∀ j : Nat, j < 8 → (j : Int) ≠ y % 8 →
        byteBit (d'.buffer.getD (x + y / 8 * d.width).toNat 0) j
          = byteBit (d.buffer.getD (x + y / 8 * d.width).toNat 0) j) ∧
      d'.buffer.getD (x + y / 8 * d.width).toNat 0 < 256 := by
  obtain ⟨he, h0⟩ := Device.byteIndex_exact hc hx hy.1 hidx
  have hi : 0 ≤ d.byteIndex x y := by rw [he]; exact h0
  have hlt : (d.byteIndex x y).toNat < d.buffer.length := by rw [he]; omega
  refine ⟨_, Device.SetPixel_inside d x y _ hx hy hi hlt, ?_⟩
  rw [he] at hlt ⊢
  simp only [Device.buffer_store, List.length_set, getD_set_self _ _ _ hlt,
    byteBit_eq_testBit, testBit_pixelByte _ hy.1]
  have hb := bitIndex_lt hy.1
  have hbi := bitIndex_of_nonneg hy.1
  refine ⟨trivial, ?_, ?_, ?_, pixelByte_lt _ _ _⟩
  · intro i hne
    rw [List.getElem?_set]
    have : (x + y / 8 * d.width).toNat ≠ i := by omega
    simp [this]
  · rw [← hbi]; simp [hb, RGBA.isOn]
  · intro j h8 hne
    have hj : bitIndex y ≠ j := by omega
    rw [if_neg hj]
    simp [h8]

set_option maxRecDepth 100000 in
/-- C3, witness: on the default SPI panel, whose 1024-byte framebuffer is all zero after
`Configure`, `SetPixel(0, 0, white)` leaves byte 0 equal to `0x01` and every other
byte 0. -/
theorem setPixel_frame_witness :
    ∃ d, spi128x64 = some d ∧ d.Configured ∧ d.buffer = List.replicate 1024 0 ∧
      ((0 : Int) ≤ 0 ∧ 0 < d.width) ∧ ((0 : Int) ≤ 0 ∧ 0 < d.height) ∧
      (0 + 0 / 8 * d.width < d.buffer.length) ∧
      (∃ d', d.SetPixel 0 0 white = some d' ∧ d'.buffer = 0x01 :: List.replicate 1023 0) ∧
      ∃ d', d.SetPixel 0 0 white = some d' ∧
        d'.buffer.length = d.buffer.length ∧
        (∀ i : Nat, (i : Int) ≠ 0 + 0 / 8 * d.width → d'.buffer[i]? = d.buffer[i]?) ∧
        byteBit (d'.buffer.getD (0 + 0 / 8 * d.width).toNat 0) ((0 : Int) % 8).toNat
          = decide (white.R ≠ 0 ∨ white.G ≠ 0 ∨ white.B ≠ 0) ∧
        (∀ j : Nat, j < 8 → (j : Int) ≠ 0 % 8 →
          byteBit (d'.buffer.getD (0 + 0 / 8 * d.width).toNat 0) j
            = byteBit (d.buffer.getD (0 + 0 / 8 * d.width).toNat 0) j) ∧
        d'.buffer.getD (0 + 0 / 8 * d.width).toNat 0 < 256 :=
  ⟨spi128x64.getD (NewSPI idleWire), by decide, by decide, by decide, by decide, by decide,
    by decide, ⟨(spi128x64.getD (NewSPI idleWire)).store 0 1, by decide, by decide⟩,
    setPixel_frame _ 0 0 white (by decide) (by decide) (by decide) (by decide)⟩

/-! ## C7: replacing the whole framebuffer -/

theorem goCopy_same_length (dst src : List Nat) (h : src.length = dst.length) :
    goCopy dst src = src := by
  unfold goCopy
  rw [← h, List.take_length, List.drop_eq_nil_of_le (by omega), List.append_nil]

/-- The framebuffer after the `copy` of `SetBuffer`, for a buffer of the right length. -/
theorem Device.buffer_after_copy (d : Device) (b : List Nat) (h : b.length = d.buffer.length) :
    ({ d with bus := d.bus.setBuffer (d.bus.buffer.take d.view ++ goCopy d.buffer b) } :
      Device).buffer = b := by
  rw [goCopy_same_length _ _ h]
  simp only [Device.buffer, Bus.buffer_setBuffer]
  by_cases hv : d.view ≤ d.bus.buffer.length
  · rw [List.drop_append_of_le_length (by simp [hv])]
    simp [List.drop_take]
  · have hb : b = [] := by
      apply List.eq_nil_of_length_eq_zero
      rw [h]; simp [Device.buffer]; omega
    subst hb
    simp

/-- C7: for every device and byte slice `b`: when `len(b)` differs from the framebuffer
length, `SetBuffer(b)` returns the invalid-buffer-size error and the device, its
framebuffer included, is unchanged; when the lengths are equal it returns nil and the
framebuffer afterwards, which `GetBuffer` returns, is `b`. -/
theorem setBuffer_spec (d : Device) (b : List Nat) :
    (b.length ≠ d.buffer.length → d.SetBuffer b = (d, some Error.errBufferSize)) ∧
    (b.length = d.buffer.length →
      (d.SetBuffer b).2 = none ∧ (d.SetBuffer b).1.GetBuffer = b) := by
  constructor
  · intro h
    unfold Device.SetBuffer
    rw [if_pos h]
  · intro h
    unfold Device.SetBuffer Device.GetBuffer
    rw [if_neg (by simpa using h)]
    exact ⟨rfl, Device.buffer_after_copy d b h⟩

/-! ## Commands on the bus -/

theorem Wire.log_transfer (w : Wire) (e : Event) : (w.transfer e).1.log = w.log ++ [e] := by
  unfold Wire.transfer
  cases w.pending <;> rfl

theorem take_two_set (l : List Nat) (a c : Nat) (h : 2 ≤ l.length) :
    ((l.set 0 a).set 1 c).take 2 = [a, c] := by
  match l, h with
  | _ :: _ :: _, _ => rfl

theorem drop_two_set (l : List Nat) (a c : Nat) :
    ((l.set 0 a).set 1 c).drop 2 = l.drop 2 := by
  match l with
  | [] => rfl
  | [_] => rfl
  | _ :: _ :: _ => rfl

theorem take_one_set (l : List Nat) (c : Nat) (h : 1 ≤ l.length) :
    (l.set 0 c).take 1 = [c] := by
  match l, h with
  | _ :: _, _ => rfl

theorem drop_one_set (l : List Nat) (c : Nat) : (l.set 0 c).drop 1 = l.drop 1 := by
  match l with
  | [] => rfl
  | _ :: _ => rfl

theorem drop_one_set_one (l : List Nat) (c : Nat) (h : 2 ≤ l.length) :
    (l.set 1 c).drop 1 = c :: l.drop 2 := by
  match l, h with
  | _ :: _ :: _, _ => rfl

theorem drop_two_set_one (l : List Nat) (c : Nat) : (l.set 1 c).drop 2 = l.drop 2 := by
  match l with
  | [] => rfl
  | [_] => rfl
  | _ :: _ :: _ => rfl

theorem Bus.command_of_ready (bus : Bus) (c : Nat) (h : bus.Ready) :
    ∃ err, bus.command c = some (bus.afterCommand c, err) := by
  cases bus with
  | i2c b =>
    have h2 : 2 ≤ b.buffer.length := h
    simp [Bus.command, Bus.afterCommand, I2CBus.command, h2]
  | spi b =>
    have h1 : 1 ≤ b.buffer.length := h
    simp [Bus.command, Bus.afterCommand, SPIBus.command, h1]

theorem Bus.log_afterBus (bus : Bus) (c : Nat) (h : bus.Ready) :
    (bus.afterCommand c).wire.log = bus.wire.log ++ bus.commandEvents c := by
  cases bus with
  | i2c b =>
    have h2 : 2 ≤ b.buffer.length := h
    simp [Bus.command, Bus.afterCommand, I2CBus.command, h2, Bus.wire, Wire.log_transfer,
      Bus.commandEvents, take_two_set]
  | spi b =>
    have h1 : 1 ≤ b.buffer.length := h
    simp [Bus.command, Bus.afterCommand, SPIBus.command, h1, Bus.wire, Wire.log_transfer,
      Bus.commandEvents, SPIBus.tx, Wire.emit, take_one_set]

theorem Bus.header_afterCommand (bus : Bus) (c : Nat) :
    (bus.afterCommand c).header = bus.header := by
  cases bus with
  | i2c b =>
    by_cases h2 : 2 ≤ b.buffer.length <;>
      simp [Bus.command, Bus.afterCommand, I2CBus.command, h2, Bus.header]
  | spi b =>
    by_cases h1 : 1 ≤ b.buffer.length <;>
      simp [Bus.command, Bus.afterCommand, SPIBus.command, h1, Bus.header]

theorem Bus.commandEvents_afterBus (bus : Bus) (c : Nat) :
    (bus.afterCommand c).commandEvents = bus.commandEvents := by
  funext k
  cases bus with
  | i2c b =>
    by_cases h2 : 2 ≤ b.buffer.length <;>
      simp [Bus.command, Bus.afterCommand, I2CBus.command, h2, Bus.commandEvents]
  | spi b =>
    by_cases h1 : 1 ≤ b.buffer.length <;>
      simp [Bus.command, Bus.afterCommand, SPIBus.command, h1, Bus.commandEvents]

theorem Bus.length_afterCommand (bus : Bus) (c : Nat) :
    (bus.afterCommand c).buffer.length = bus.buffer.length := by
  cases bus with
  | i2c b =>
    by_cases h2 : 2 ≤ b.buffer.length <;>
      simp [Bus.command, Bus.afterCommand, I2CBus.command, h2, Bus.buffer]
  | spi b =>
    by_cases h1 : 1 ≤ b.buffer.length <;>
      simp [Bus.command, Bus.afterCommand, SPIBus.command, h1, Bus.buffer, SPIBus.tx]

/-- A command is staged in the header bytes only: the bytes behind the header are
unchanged. -/
theorem Bus.drop_afterCommand (bus : Bus) (c : Nat) :
    (bus.afterCommand c).buffer.drop bus.header = bus.buffer.drop bus.header := by
  cases bus with
  | i2c b =>
    by_cases h2 : 2 ≤ b.buffer.length <;>
      simp [Bus.command, Bus.afterCommand, I2CBus.command, h2, Bus.buffer, Bus.header,
        drop_two_set]
  | spi b =>
    by_cases h1 : 1 ≤ b.buffer.length <;>
      simp [Bus.command, Bus.afterCommand, SPIBus.command, h1, Bus.buffer, Bus.header,
        SPIBus.tx, ← List.drop_one, drop_one_set]

theorem Bus.Ready.afterBus {bus : Bus} (h : bus.Ready) (c : Nat) :
    (bus.afterCommand c).Ready := by
  unfold Bus.Ready at *
  rw [Bus.header_afterCommand, Bus.length_afterCommand]; exact h

theorem Device.Command_eq (d : Device) (c : Nat) (h : d.bus.Ready) :
    d.Command c = some (d.afterCommand c) := by
  obtain ⟨err, he⟩ := Bus.command_of_ready d.bus c h
  simp [Device.Command, he, Device.afterCommand]

theorem Device.log_afterCommand (d : Device) (c : Nat) (h : d.bus.Ready) :
    (d.afterCommand c).log = d.log ++ d.bus.commandEvents c :=
  Bus.log_afterBus d.bus c h

theorem Device.ready_afterCommand (d : Device) (c : Nat) (h : d.bus.Ready) :
    (d.afterCommand c).bus.Ready := h.afterBus c

theorem Device.commandEvents_afterCommand (d : Device) (c : Nat) :
    (d.afterCommand c).bus.commandEvents = d.bus.commandEvents :=
  Bus.commandEvents_afterBus d.bus c

theorem Device.Configured.ready {d : Device} (h : d.Configured) : d.bus.Ready := by
  unfold Bus.Ready; rw [← h.1]; exact h.2.1

theorem Device.buffer_afterCommand (d : Device) (c : Nat) (h : d.view = d.bus.header) :
    (d.afterCommand c).buffer = d.buffer := by
  simp only [Device.buffer, Device.afterCommand, h]
  exact Bus.drop_afterCommand d.bus c

theorem Device.Configured.afterCommand {d : Device} (h : d.Configured) (c : Nat) :
    (d.afterCommand c).Configured := by
  refine ⟨?_, ?_, ?_⟩
  · show d.view = (d.bus.afterCommand c).header
    rw [Bus.header_afterCommand]; exact h.1
  · show d.view ≤ (d.bus.afterCommand c).buffer.length
    rw [Bus.length_afterCommand]; exact h.2.1
  · rw [Device.buffer_afterCommand d c h.1]; exact h.2.2

/-! ## Sequences of commands -/

@[simp] theorem Device.afterCommands_nil (d : Device) : d.afterCommands [] = d := rfl

@[simp] theorem Device.afterCommands_cons (d : Device) (c : Nat) (cs : List Nat) :
    d.afterCommands (c :: cs) = (d.afterCommand c).afterCommands cs := rfl

theorem Device.afterCommands_append (d : Device) (cs cs' : List Nat) :
    d.afterCommands (cs ++ cs') = (d.afterCommands cs).afterCommands cs' := by
  simp [Device.afterCommands, List.foldl_append]

theorem Device.afterCommands_snoc (d : Device) (cs : List Nat) (c : Nat) :
    (d.afterCommands cs).afterCommand c = d.afterCommands (cs ++ [c]) := by
  simp [Device.afterCommands_append]

/-- What a sequence of commands leaves alone and what it appends to the log. -/
theorem Device.afterCommands_spec (d : Device) (cs : List Nat) (h : d.bus.Ready) :
    (d.afterCommands cs).bus.Ready ∧
    (d.afterCommands cs).bus.commandEvents = d.bus.commandEvents ∧
    (d.afterCommands cs).bus.header = d.bus.header ∧
    (d.afterCommands cs).bus.buffer.length = d.bus.buffer.length ∧
    (d.afterCommands cs).log = d.log ++ cs.flatMap d.bus.commandEvents ∧
    (d.afterCommands cs).view = d.view ∧
    (d.afterCommands cs).width = d.width ∧ (d.afterCommands cs).height = d.height ∧
    (d.afterCommands cs).vccState = d.vccState ∧ (d.afterCommands cs).canReset = d.canReset ∧
    (d.afterCommands cs).resetCol = d.resetCol ∧ (d.afterCommands cs).resetPage = d.resetPage ∧
    (d.afterCommands cs).rotation = d.rotation ∧
    (d.view = d.bus.header → (d.afterCommands cs).buffer = d.buffer) := by
  induction cs generalizing d with
  | nil => simp [h]
  | cons c cs ih =>
    obtain ⟨h1, h2, h3, h4, h5, h6, h7, h8, h9, h10, h11, h12, h13, h14⟩ :=
      ih (d.afterCommand c) (d.ready_afterCommand c h)
    rw [Device.afterCommands_cons]
    refine ⟨h1, ?_, ?_, ?_, ?_, h6, h7, h8, h9, h10, h11, h12, h13, ?_⟩
    · rw [h2, Device.commandEvents_afterCommand]
    · rw [h3]; exact Bus.header_afterCommand d.bus c
    · rw [h4]; exact Bus.length_afterCommand d.bus c
    · rw [h5, Device.log_afterCommand d c h, Device.commandEvents_afterCommand]
      simp [List.flatMap_cons]
    · intro hv
      have hv2 : (d.afterCommand c).view = (d.afterCommand c).bus.header := by
        show d.view = (d.bus.afterCommand c).header
        rw [Bus.header_afterCommand d.bus c]; exact hv
      rw [h14 hv2]
      exact Device.buffer_afterCommand d c hv

/-! ## The command sequence of `Configure` -/

@[simp] theorem Device.width_afterCommand (d : Device) (c : Nat) :
    (d.afterCommand c).width = d.width := rfl
@[simp] theorem Device.height_afterCommand (d : Device) (c : Nat) :
    (d.afterCommand c).height = d.height := rfl
@[simp] theorem Device.vccState_afterCommand (d : Device) (c : Nat) :
    (d.afterCommand c).vccState = d.vccState := rfl
@[simp] theorem Device.view_afterCommand (d : Device) (c : Nat) :
    (d.afterCommand c).view = d.view := rfl
@[simp] theorem Device.canReset_afterCommand (d : Device) (c : Nat) :
    (d.afterCommand c).canReset = d.canReset := rfl
@[simp] theorem Device.resetCol_afterCommand (d : Device) (c : Nat) :
    (d.afterCommand c).resetCol = d.resetCol := rfl
@[simp] theorem Device.resetPage_afterCommand (d : Device) (c : Nat) :
    (d.afterCommand c).resetPage = d.resetPage := rfl
@[simp] theorem Device.rotation_afterCommand (d : Device) (c : Nat) :
    (d.afterCommand c).rotation = d.rotation := rfl

theorem Device.ready_afterCommand_iff (d : Device) (c : Nat) :
    (d.afterCommand c).bus.Ready ↔ d.bus.Ready := by
  show (d.bus.afterCommand c).Ready ↔ d.bus.Ready
  unfold Bus.Ready
  rw [Bus.header_afterCommand, Bus.length_afterCommand]

theorem Device.afterCommand_rotation (d : Device) (r c : Nat) :
    ({ d with rotation := r } : Device).afterCommand c
      = { d.afterCommand c with rotation := r } := rfl

theorem Device.SetRotation_eq (K : Consts) (d : Device) (r : Nat) (h : d.bus.Ready) :
    d.SetRotation K r
      = some (({ d with rotation := r } : Device).afterCommands (rotationBytes K r), none) := by
  have e1 : SEGREMAP ||| 0x1 = 0xA1 := by decide
  unfold Device.SetRotation rotationBytes
  have hr : ({ d with rotation := r } : Device).bus.Ready := h
  by_cases h0 : r = K.Rotation0
  · simp [h0, Device.Command_eq, hr, Device.ready_afterCommand_iff, e1, COMSCANDEC]
  · by_cases h180 : r = K.Rotation180
    · subst h180
      simp [h0, Device.Command_eq, hr, Device.ready_afterCommand_iff, SEGREMAP, COMSCANINC]
    · simp [h0, h180, Device.Command_eq, hr, Device.ready_afterCommand_iff, e1, COMSCANDEC]

theorem Device.configureSizeBlock_eq (K : Consts) (d : Device) (h : d.bus.Ready) :
    d.configureSizeBlock K
      = some (d.afterCommands
          (specSizeBlock d.width d.height (decide (d.vccState = K.EXTERNALVCC)))) := by
  unfold Device.configureSizeBlock specSizeBlock
  by_cases h1 : (d.width = 128 ∧ d.height = 64) ∨ (d.width = 64 ∧ d.height = 48)
  · by_cases hv : d.vccState = K.EXTERNALVCC <;>
      simp [h1, hv, Device.Command_eq, h, Device.ready_afterCommand_iff, SETCOMPINS, SETCONTRAST]
  · by_cases h2 : d.width = 128 ∧ d.height = 32
    · simp [h1, h2, Device.Command_eq, h, Device.ready_afterCommand_iff, SETCOMPINS, SETCONTRAST]
    · by_cases h3 : d.width = 96 ∧ d.height = 16
      · by_cases hv : d.vccState = K.EXTERNALVCC <;>
          simp [h1, h2, h3, hv, Device.Command_eq, h, Device.ready_afterCommand_iff, SETCOMPINS,
            SETCONTRAST]
      · simp [h1, h2, h3]

theorem Device.afterCommands_rotation (d : Device) (r : Nat) (cs : List Nat) :
    ({ d with rotation := r } : Device).afterCommands cs
      = { d.afterCommands cs with rotation := r } := by
  induction cs generalizing d with
  | nil => rfl
  | cons c cs ih =>
    rw [Device.afterCommands_cons, Device.afterCommands_cons, Device.afterCommand_rotation, ih]

/-- The commands of `Configure` before the rotation pair. -/
theorem Device.configure_head (K : Consts) (d : Device) (h : d.bus.Ready) :
    ((((((((((((d.Command DISPLAYOFF)
      |>.bind (fun d => d.Command SETDISPLAYCLOCKDIV))
      |>.bind (fun d => d.Command 0x80))
      |>.bind (fun d => d.Command SETMULTIPLEX))
      |>.bind (fun d => d.Command (toUint8 (wrap16 (d.height - 1)))))
      |>.bind (fun d => d.Command SETDISPLAYOFFSET))
      |>.bind (fun d => d.Command 0x0))
      |>.bind (fun d => d.Command (SETSTARTLINE ||| 0x0)))
      |>.bind (fun d => d.Command CHARGEPUMP))
      |>.bind (fun d => if d.vccState = K.EXTERNALVCC then d.Command 0x10 else d.Command 0x14))
      |>.bind (fun d => d.Command MEMORYMODE))
      |>.bind (fun d => d.Command 0x00))
    = some (d.afterCommands [0xAE, 0xD5, 0x80, 0xA8, toUint8 (wrap16 (d.height - 1)), 0xD3, 0x00,
        0x40, 0x8D, if d.vccState = K.EXTERNALVCC then 0x10 else 0x14, 0x20, 0x00]) := by
  have e : SETSTARTLINE ||| 0x0 = 0x40 := by decide
  by_cases hv : d.vccState = K.EXTERNALVCC <;>
    simp [hv, Device.Command_eq, h, Device.ready_afterCommand_iff, e, DISPLAYOFF,
      SETDISPLAYCLOCKDIV, SETMULTIPLEX, SETDISPLAYOFFSET, CHARGEPUMP, MEMORYMODE]

/-- The commands of `Configure` after the size-keyed block. -/
theorem Device.configure_tail (K : Consts) (d : Device) (h : d.bus.Ready) :
    ((((((((d.Command SETPRECHARGE)
      |>.bind (fun d => if d.vccState = K.EXTERNALVCC then d.Command 0x22 else d.Command 0xF1))
      |>.bind (fun d => d.Command SETVCOMDETECT))
      |>.bind (fun d => d.Command 0x40))
      |>.bind (fun d => d.Command DISPLAYALLON_RESUME))
      |>.bind (fun d => d.Command NORMALDISPLAY))
      |>.bind (fun d => d.Command DEACTIVATE_SCROLL))
      |>.bind (fun d => d.Command DISPLAYON))
    = some (d.afterCommands [0xD9, if d.vccState = K.EXTERNALVCC then 0x22 else 0xF1, 0xDB, 0x40,
        0xA4, 0xA6, 0x2E, 0xAF]) := by
  by_cases hv : d.vccState = K.EXTERNALVCC <;>
    simp [hv, Device.Command_eq, h, Device.ready_afterCommand_iff, SETPRECHARGE, SETVCOMDETECT,
      DISPLAYALLON_RESUME, NORMALDISPLAY, DEACTIVATE_SCROLL, DISPLAYON]

/-- The whole command sequence of `Configure`, as one sequence of commands. -/
theorem Device.configureCommands_eq (K : Consts) (d : Device) (cfg : Config)
    (h : d.bus.Ready) :
    d.configureCommands K cfg
      = some (({ d with rotation := cfg.Rotation } : Device).afterCommands
          (specConfigureBytes d.width d.height (decide (d.vccState = K.EXTERNALVCC))
            (rotationBytes K cfg.Rotation))) := by
  have hhead := Device.configure_head K d h
  obtain ⟨r1, -, -, -, -, -, w1, h1, v1, -⟩ := Device.afterCommands_spec d
    [0xAE, 0xD5, 0x80, 0xA8, toUint8 (wrap16 (d.height - 1)), 0xD3, 0x00,
        0x40, 0x8D, if d.vccState = K.EXTERNALVCC then 0x10 else 0x14, 0x20, 0x00] h
  unfold Device.configureCommands
  rw [hhead]
  have r1b : ({ d.afterCommands [0xAE, 0xD5, 0x80, 0xA8, toUint8 (wrap16 (d.height - 1)), 0xD3,
      0x00, 0x40, 0x8D, if d.vccState = K.EXTERNALVCC then 0x10 else 0x14, 0x20, 0x00]
      with rotation := cfg.Rotation } : Device).bus.Ready := r1
  obtain ⟨r2, -, -, -, -, -, w2, h2, v2, -⟩ := Device.afterCommands_spec _
    (rotationBytes K cfg.Rotation) r1b
  have w2b := w2.trans w1
  have h2b := h2.trans h1
  have v2b := v2.trans v1
  simp only [Option.some_bind, Device.SetRotation_eq K _ _ r1, Option.map_some']
  rw [Device.configureSizeBlock_eq K _ r2, w2b, h2b, v2b]
  obtain ⟨r3, -, -, -, -, -, -, -, v3, -⟩ := Device.afterCommands_spec _
    (specSizeBlock d.width d.height (decide (d.vccState = K.EXTERNALVCC))) r2
  simp only [Option.some_bind]
  rw [Device.configure_tail K _ r3, v3, v2b]
  simp only [specConfigureBytes, Device.afterCommands_append, Device.afterCommands_rotation]
  by_cases hv : d.vccState = K.EXTERNALVCC <;> simp [hv]

/-! ## `Configure` -/

theorem Bus.configure_spec (bus : Bus) (addr : Nat) (size : Int) (h0 : 0 ≤ size)
    (h1 : size ≤ 4095) :
    ∃ bus', bus.configure addr size = some (bus', bus.header) ∧ bus'.header = bus.header ∧
      bus'.buffer = List.replicate (bus.header + size.toNat) 0 ∧
      bus'.wire.log = bus.wire.log ++ bus.configureEvents := by
  cases bus with
  | i2c b =>
    have hw : wrap16 (size + 2) = size + 2 := wrap16_of_range (by omega) (by omega)
    have hn : ¬ (size + 2 < 0) := by omega
    have hl : (size + 2).toNat = 2 + size.toNat := by omega
    simp [Bus.configure, I2CBus.configure, makeBytes, hw, hn, hl, Bus.header, Bus.buffer,
      Bus.wire, Bus.configureEvents]
    by_cases ha : addr = 0 <;> simp [ha]
  | spi b =>
    have hw : wrap16 (size + 1) = size + 1 := wrap16_of_range (by omega) (by omega)
    have hn : ¬ (size + 1 < 0) := by omega
    have hl : (size + 1).toNat = 1 + size.toNat := by omega
    simp [Bus.configure, SPIBus.configure, makeBytes, hw, hn, hl, Bus.header, Bus.buffer,
      Bus.wire, Bus.configureEvents, Wire.emit]

theorem Config.bufferSize_le (cfg : Config) : cfg.bufferSize ≤ 4095 :=
  tdiv8_le (wrap16_le _)

/-- What `Configure` does when the buffer request is not negative: it returns, the
device is configured with the effective settings of the configuration, the
framebuffer is all zero, and the log grows by the events of the bus `configure` and
of the command sequence. -/
theorem Device.Configure_spec (K : Consts) (d0 : Device) (cfg : Config)
    (hs : 0 ≤ cfg.bufferSize) :
    ∃ d, d0.Configure K cfg = some d ∧ d.Configured ∧
      d.width = cfg.effWidth ∧ d.height = cfg.effHeight ∧ d.vccState = cfg.effVcc K ∧
      d.canReset = decide (cfg.Address ≠ 0 ∨ cfg.effWidth ≠ 128 ∨ cfg.effHeight ≠ 64) ∧
      d.resetCol = (if cfg.ResetCol ≠ (0, 0) then cfg.ResetCol
        else (0, toUint8 (wrap16 (cfg.effWidth - 1)))) ∧
      d.resetPage = (if cfg.ResetPage ≠ (0, 0) then cfg.ResetPage
        else (0, (toUint8 (cfg.effHeight.tdiv 8) + 255) % 256)) ∧
      d.rotation = cfg.Rotation ∧
      d.buffer = List.replicate cfg.bufferSize.toNat 0 ∧
      d.bus.header = d0.bus.header ∧
      d.log = d0.log ++ d0.bus.configureEvents ++
        (specConfigureBytes cfg.effWidth cfg.effHeight (decide (cfg.effVcc K = K.EXTERNALVCC))
          (rotationBytes K cfg.Rotation)).flatMap d.bus.commandEvents := by
  obtain ⟨bus', hb, hh, hbuf, hlog⟩ :=
    Bus.configure_spec d0.bus cfg.Address cfg.bufferSize hs cfg.bufferSize_le
  obtain ⟨d1, hd1⟩ : ∃ d1 : Device,
      d1 = { (d0.configureFields K cfg) with bus := bus', view := d0.bus.header } := ⟨_, rfl⟩
  have hcfg : d0.Configure K cfg = d1.configureCommands K cfg := by
    have hb2 : (d0.configureFields K cfg).bus.configure cfg.Address
        ((wrap16 ((d0.configureFields K cfg).width * (d0.configureFields K cfg).height)).tdiv 8)
        = some (bus', d0.bus.header) := hb
    unfold Device.Configure
    simp only [hb2, Option.some_bind, hd1]
    rfl
  have hready : d1.bus.Ready := by
    subst hd1
    show bus'.header ≤ bus'.buffer.length
    rw [hh, hbuf]; simp
  have hview : d1.view = d1.bus.header := by subst hd1; exact hh.symm
  have hbuf0 : d1.buffer = List.replicate cfg.bufferSize.toNat 0 := by
    subst hd1
    show bus'.buffer.drop d0.bus.header = _
    rw [hbuf]; simp
  have hlen1 : d1.view ≤ d1.bus.buffer.length := by
    subst hd1
    show d0.bus.header ≤ bus'.buffer.length
    rw [hbuf]; simp
  have hlog1 : d1.log = d0.log ++ d0.bus.configureEvents := by subst hd1; exact hlog
  have hhd1 : d1.bus.header = d0.bus.header := by subst hd1; exact hh
  have hf : d1.width = cfg.effWidth ∧ d1.height = cfg.effHeight ∧ d1.vccState = cfg.effVcc K ∧
      d1.canReset = decide (cfg.Address ≠ 0 ∨ cfg.effWidth ≠ 128 ∨ cfg.effHeight ≠ 64) ∧
      d1.resetCol = (if cfg.ResetCol ≠ (0, 0) then cfg.ResetCol
        else (0, toUint8 (wrap16 (cfg.effWidth - 1)))) ∧
      d1.resetPage = (if cfg.ResetPage ≠ (0, 0) then cfg.ResetPage
        else (0, (toUint8 (cfg.effHeight.tdiv 8) + 255) % 256)) := by
    subst hd1
    exact ⟨rfl, rfl, rfl, rfl, rfl, rfl⟩
  obtain ⟨f1, f2, f3, f4, f5, f6⟩ := hf
  rw [hcfg, Device.configureCommands_eq K _ cfg hready, Device.afterCommands_rotation, f1, f2, f3]
  obtain ⟨r, ce, hd, len, lg, vw, w, h, v, cr, rc, rp, -, bf⟩ :=
    Device.afterCommands_spec d1 (specConfigureBytes cfg.effWidth cfg.effHeight
        (decide (cfg.effVcc K = K.EXTERNALVCC)) (rotationBytes K cfg.Rotation)) hready
  have hrb : ∀ x : Device, ({ x with rotation := cfg.Rotation } : Device).buffer = x.buffer :=
    fun _ => rfl
  have hrl : ∀ x : Device, ({ x with rotation := cfg.Rotation } : Device).log = x.log :=
    fun _ => rfl
  refine ⟨_, rfl, ⟨?_, ?_, ?_⟩, w.trans f1, h.trans f2, v.trans f3, cr.trans f4, rc.trans f5,
    rp.trans f6, rfl, ?_, ?_, ?_⟩
  · show _ = Bus.header _
    rw [hd]; exact vw.trans hview
  · show _ ≤ List.length (Bus.buffer _)
    rw [len]; exact vw.trans_le hlen1
  · rw [hrb, bf hview, hbuf0]
    simp only [List.length_replicate]
    show ((cfg.bufferSize.toNat : Nat) : Int) = (wrap16 (Device.width _ * Device.height _)).tdiv 8
    rw [w, h, f1, f2]
    show ((cfg.bufferSize.toNat : Nat) : Int) = cfg.bufferSize
    omega
  · rw [hrb, bf hview, hbuf0]
  · show Bus.header _ = _
    rw [hd]; exact hhd1
  · rw [hrl, lg, hlog1]
    have hcb : ∀ x : Device, ({ x with rotation := cfg.Rotation } : Device).bus = x.bus :=
      fun _ => rfl
    rw [hcb, ce]

/-! ## Decoding the log -/

theorem received_commandEvents (bus : Bus) (c : Nat) (dc : Bool) (es : List Event) :
    ∃ dc', received dc (bus.commandEvents c ++ es) = Received.cmd c :: received dc' es := by
  cases bus with
  | i2c b => exact ⟨dc, by simp [Bus.commandEvents, received]⟩
  | spi b => exact ⟨false, by simp [Bus.commandEvents, received]⟩

theorem received_commands (bus : Bus) (cs : List Nat) (dc : Bool) (es : List Event) :
    ∃ dc', received dc (cs.flatMap bus.commandEvents ++ es)
      = cs.map Received.cmd ++ received dc' es := by
  induction cs generalizing dc with
  | nil => exact ⟨dc, rfl⟩
  | cons c cs ih =>
    obtain ⟨dc1, h1⟩ := received_commandEvents bus c dc (cs.flatMap bus.commandEvents ++ es)
    obtain ⟨dc2, h2⟩ := ih dc1
    refine ⟨dc2, ?_⟩
    rw [List.flatMap_cons, List.append_assoc, h1, h2]
    rfl

theorem received_configureEvents (bus : Bus) (dc : Bool) (es : List Event) :
    ∃ dc', received dc (bus.configureEvents ++ es) = received dc' es := by
  cases bus with
  | i2c b => exact ⟨dc, rfl⟩
  | spi b => exact ⟨false, by simp [Bus.configureEvents, received]⟩

theorem received_flushEvents (bus : Bus) (fb : List Nat) (dc : Bool) :
    received dc (bus.flushEvents fb) = [Received.data fb] := by
  cases bus with
  | i2c b => simp [Bus.flushEvents, received]
  | spi b => simp [Bus.flushEvents, received]

theorem eventsSince_of_log {d d' : Device} {es : List Event} (h : d'.log = d.log ++ es) :
    eventsSince d.log d' = es := by
  simp [eventsSince, h]

/-! ## `Display` -/

theorem tail_set_one (l : List Nat) (c : Nat) (h : 2 ≤ l.length) :
    (l.set 1 c).tail = c :: l.drop 2 := by
  match l, h with
  | _ :: _ :: _, _ => rfl

theorem Bus.flushEvents_afterCommand (bus : Bus) (c : Nat) :
    (bus.afterCommand c).flushEvents = bus.flushEvents := by
  funext k
  cases bus with
  | i2c b =>
    by_cases h2 : 2 ≤ b.buffer.length <;>
      simp [Bus.command, Bus.afterCommand, I2CBus.command, h2, Bus.flushEvents]
  | spi b =>
    by_cases h1 : 1 ≤ b.buffer.length <;>
      simp [Bus.command, Bus.afterCommand, SPIBus.command, h1, Bus.flushEvents]

theorem Device.flushEvents_afterCommands (d : Device) (cs : List Nat) :
    (d.afterCommands cs).bus.flushEvents = d.bus.flushEvents := by
  induction cs generalizing d with
  | nil => rfl
  | cons c cs ih =>
    rw [Device.afterCommands_cons, ih]
    exact Bus.flushEvents_afterCommand d.bus c

theorem Bus.flush_spec (bus : Bus) (h : bus.Ready) :
    ∃ bus' err, bus.flush = some (bus', err) ∧
      bus'.wire.log = bus.wire.log ++ bus.flushEvents (bus.buffer.drop bus.header) ∧
      bus'.buffer.drop bus.header = bus.buffer.drop bus.header ∧
      bus'.buffer.length = bus.buffer.length ∧ bus'.header = bus.header := by
  cases bus with
  | i2c b =>
    have h2 : 2 ≤ b.buffer.length := h
    simp [Bus.flush, I2CBus.flush, h2, Bus.wire, Wire.log_transfer, Bus.flushEvents, Bus.buffer,
      Bus.header, tail_set_one, drop_two_set_one]
  | spi b =>
    have h1 : 1 ≤ b.buffer.length := h
    simp [Bus.flush, SPIBus.flush, h1, Bus.wire, Wire.log_transfer, Bus.flushEvents, Bus.buffer,
      Bus.header, SPIBus.tx, Wire.emit]

/-- The addressing-reset commands of `Display`. -/
theorem Device.display_reset (d : Device) (h : d.bus.Ready) :
    (d.Command COLUMNADDR).bind (fun d => (d.Command d.resetCol.1).bind fun d =>
      (d.Command d.resetCol.2).bind fun d => (d.Command PAGEADDR).bind fun d =>
      (d.Command d.resetPage.1).bind fun d => d.Command d.resetPage.2)
    = some (d.afterCommands
        [0x21, d.resetCol.1, d.resetCol.2, 0x22, d.resetPage.1, d.resetPage.2]) := by
  simp [Device.Command_eq, h, Device.ready_afterCommand_iff, COLUMNADDR, PAGEADDR]

/-- What `Display` does on a configured device. -/
theorem Device.Display_spec (d : Device) (hc : d.Configured) :
    ∃ d' err, d.Display = some (d', err) ∧ d'.Configured ∧ d'.buffer = d.buffer ∧
      d'.canReset = d.canReset ∧ d'.resetCol = d.resetCol ∧ d'.resetPage = d.resetPage ∧
      d'.width = d.width ∧ d'.height = d.height ∧
      d'.log = d.log ++
        (if d.canReset then [0x21, d.resetCol.1, d.resetCol.2, 0x22, d.resetPage.1,
          d.resetPage.2] else []).flatMap d.bus.commandEvents ++
        d.bus.flushEvents d.buffer := by
  have hr := hc.ready
  obtain ⟨r, ce, hd, len, lg, vw, w, h, v, cr, rc, rp, -, bf⟩ :=
    Device.afterCommands_spec d (if d.canReset then [0x21, d.resetCol.1, d.resetCol.2, 0x22,
      d.resetPage.1, d.resetPage.2] else []) hr
  have hfe := Device.flushEvents_afterCommands d (if d.canReset then [0x21, d.resetCol.1,
    d.resetCol.2, 0x22, d.resetPage.1, d.resetPage.2] else [])
  have hstep : (if d.canReset then
        ((d.Command COLUMNADDR).bind (fun d => (d.Command d.resetCol.1).bind fun d =>
          (d.Command d.resetCol.2).bind fun d => (d.Command PAGEADDR).bind fun d =>
          (d.Command d.resetPage.1).bind fun d => d.Command d.resetPage.2))
      else some d)
      = some (d.afterCommands (if d.canReset then [0x21, d.resetCol.1, d.resetCol.2, 0x22,
          d.resetPage.1, d.resetPage.2] else [])) := by
    cases hcr : d.canReset
    · simp
    · simp only [if_true]
      exact Device.display_reset d hr
  generalize d.afterCommands (if d.canReset then [0x21, d.resetCol.1, d.resetCol.2, 0x22,
          d.resetPage.1, d.resetPage.2] else []) = d2 at *
  obtain ⟨bus', err, hf, hflog, hfdrop, hflen, hfhd⟩ := Bus.flush_spec d2.bus r
  have hD : d.Display = some ({ d2 with bus := bus' }, err) := by
    unfold Device.Display
    cases hcr : d.canReset
    · rw [hcr] at hstep
      simp only [Bool.false_eq_true, if_false, Option.some.injEq] at hstep
      subst hstep
      simp [hf]
    · rw [hcr] at hstep
      simp only [if_true] at hstep
      simp only [if_true, bind, hstep, Option.some_bind, hf]
      rfl
  refine ⟨_, err, hD, ⟨?_, ?_, ?_⟩, ?_, cr, rc, rp, w, h, ?_⟩
  · show d2.view = bus'.header
    rw [hfhd, hd, vw]; exact hc.1
  · show d2.view ≤ bus'.buffer.length
    rw [hflen, len, vw]; exact hc.2.1
  · show ((bus'.buffer.drop d2.view).length : Int) = (wrap16 (d2.width * d2.height)).tdiv 8
    have e : d2.view = d2.bus.header := by rw [hd, vw]; exact hc.1
    rw [e, hfdrop, ← e, w, h]
    have := bf hc.1
    unfold Device.buffer at this
    rw [this]
    exact hc.2.2
  · show bus'.buffer.drop d2.view = d.buffer
    have e : d2.view = d2.bus.header := by rw [hd, vw]; exact hc.1
    rw [e, hfdrop, ← e]
    exact bf hc.1
  · show bus'.wire.log = _
    have e : d2.bus.header = d2.view := by rw [hd, vw]; exact hc.1.symm
    have hb : d2.bus.buffer.drop d2.view = d.buffer := bf hc.1
    rw [hflog, e, hb, hfe]
    show d2.log ++ _ = _
    rw [lg]

theorem tdiv8_ge {a : Int} (h : -32768 ≤ a) : -4096 ≤ a.tdiv 8 := by
  by_cases h0 : 0 ≤ a
  · rw [tdiv8_of_nonneg h0]; omega
  · have h1 : a = -(-a) := by omega
    rw [h1, Int.neg_tdiv, tdiv8_of_nonneg (by omega)]; omega

theorem wrap16_ge (n : Int) : -32768 ≤ wrap16 n := by unfold wrap16; omega

theorem toUint8_wrap16 (n : Int) : toUint8 (wrap16 n) = toUint8 n := by
  unfold toUint8 wrap16; omega

theorem Bus.configure_none (bus : Bus) (addr : Nat) (size : Int) (h : size < 0)
    (hl : -4096 ≤ size) : bus.configure addr size = none := by
  cases bus with
  | i2c b =>
    have hw : wrap16 (size + 2) = size + 2 := wrap16_of_range (by omega) (by omega)
    by_cases hn : size + 2 < 0
    · simp [Bus.configure, I2CBus.configure, makeBytes, hw, hn]
    · have hl2 : (size + 2).toNat < 2 := by omega
      simp [Bus.configure, I2CBus.configure, makeBytes, hw, hn]
      omega
  | spi b =>
    have hw : wrap16 (size + 1) = size + 1 := wrap16_of_range (by omega) (by omega)
    by_cases hn : size + 1 < 0
    · simp [Bus.configure, SPIBus.configure, makeBytes, hw, hn]
    · have hl2 : (size + 1).toNat < 1 := by omega
      simp [Bus.configure, SPIBus.configure, makeBytes, hw, hn]
      omega

/-- The method `Configure` returns only when the buffer request is not negative. -/
theorem Device.bufferSize_nonneg_of_Configure {K : Consts} {d0 d1 : Device} {cfg : Config}
    (h : d0.Configure K cfg = some d1) : 0 ≤ cfg.bufferSize := by
  by_contra hneg
  have hn : d0.bus.configure cfg.Address cfg.bufferSize = none :=
    Bus.configure_none _ _ _ (by omega) (tdiv8_ge (wrap16_ge _))
  have : d0.Configure K cfg = none := by
    have hb2 : (d0.configureFields K cfg).bus.configure cfg.Address
        ((wrap16 ((d0.configureFields K cfg).width * (d0.configureFields K cfg).height)).tdiv 8)
        = none := hn
    unfold Device.Configure
    simp only [hb2]
    rfl
  rw [this] at h
  exact Option.noConfusion h

/-! ## C8: the addressing reset of `Display` -/

/-- C8: let `d1` be the device `Configure(cfg)` returns, on either backend.  Every
call of `Display()` on a configured device that has the reset settings of `d1` (they
are set by `Configure` only) returns, and the controller receives exactly: the command
bytes `0x21, resetCol[0], resetCol[1], 0x22, resetPage[0], resetPage[1]` in this order
when `cfg.Address != 0` or the effective `(width, height) != (128, 64)`, and no
command otherwise; then one data transfer, the flush of the framebuffer.  The device
after the call is again such a device, with the same framebuffer. -/
theorem display_commands (K : Consts) (d0 : Device) (cfg : Config) (d1 : Device)
    (hcfg : d0.Configure K cfg = some d1) (d : Device) (hd : d.Configured)
    (hsame : d.canReset = d1.canReset ∧ d.resetCol = d1.resetCol ∧ d.resetPage = d1.resetPage)
    (dc : Bool) :
    d1.Configured ∧
    ∃ d' err, d.Display = some (d', err) ∧
      received dc (eventsSince d.log d') =
        (if cfg.Address ≠ 0 ∨ (cfg.effWidth, cfg.effHeight) ≠ (128, 64) then
          [Received.cmd 0x21, Received.cmd d1.resetCol.1, Received.cmd d1.resetCol.2,
            Received.cmd 0x22, Received.cmd d1.resetPage.1, Received.cmd d1.resetPage.2]
        else []) ++ [Received.data d.buffer] ∧
      d'.Configured ∧ d'.buffer = d.buffer ∧
      d'.canReset = d1.canReset ∧ d'.resetCol = d1.resetCol ∧ d'.resetPage = d1.resetPage := by
  obtain ⟨d1', h1, hc1, -, -, -, hcr, -⟩ :=
    Device.Configure_spec K d0 cfg (Device.bufferSize_nonneg_of_Configure hcfg)
  rw [hcfg] at h1
  cases h1
  refine ⟨hc1, ?_⟩
  obtain ⟨d', err, hD, hc', hb', hcr', hrc', hrp', -, -, hlog⟩ := Device.Display_spec d hd
  refine ⟨d', err, hD, ?_, hc', hb', hcr'.trans hsame.1, hrc'.trans hsame.2.1,
    hrp'.trans hsame.2.2⟩
  rw [eventsSince_of_log (by rw [hlog, List.append_assoc])]
  obtain ⟨dc', hrec⟩ := received_commands d.bus
    (if d.canReset then [0x21, d.resetCol.1, d.resetCol.2, 0x22, d.resetPage.1,
      d.resetPage.2] else []) dc (d.bus.flushEvents d.buffer)
  rw [hrec, received_flushEvents, hsame.1, hcr, hsame.2.1, hsame.2.2]
  by_cases hcond : cfg.Address ≠ 0 ∨ cfg.effWidth ≠ 128 ∨ cfg.effHeight ≠ 64
  · have h2 : cfg.Address ≠ 0 ∨ (cfg.effWidth, cfg.effHeight) ≠ (128, 64) := by
      rcases hcond with h | h | h
      · exact Or.inl h
      · exact Or.inr (fun e => h (congrArg Prod.fst e))
      · exact Or.inr (fun e => h (congrArg Prod.snd e))
    simp only [hcond, h2, decide_True, if_true, List.map]
  · have h2 : ¬ (cfg.Address ≠ 0 ∨ (cfg.effWidth, cfg.effHeight) ≠ (128, 64)) := by
      intro h
      apply hcond
      rcases h with h | h
      · exact Or.inl h
      · by_cases hw : cfg.effWidth = 128
        · by_cases hh : cfg.effHeight = 64
          · exact absurd (by rw [hw, hh]) h
          · exact Or.inr (Or.inr hh)
        · exact Or.inr (Or.inl hw)
    simp only [hcond, h2, decide_False, if_false, List.map, Bool.false_eq_true]

set_option maxRecDepth 100000 in
/-- C8, witness: the 72x40 SPI panel with reset ranges `{28,99}` and `{0,5}` receives
`0x21, 28, 99, 0x22, 0, 5` and then the flush; the default 128x64 SPI panel with
address 0 receives the flush only. -/
theorem display_commands_witness :
    (∃ d1, Device.Configure K0 (NewSPI idleWire) cfgThumby = some d1 ∧ d1.Configured ∧
      ∃ d' err, d1.Display = some (d', err) ∧
        received false (eventsSince d1.log d') =
          [Received.cmd 0x21, Received.cmd 28, Received.cmd 99, Received.cmd 0x22,
            Received.cmd 0, Received.cmd 5, Received.data (List.replicate 360 0)]) ∧
    (∃ d1, Device.Configure K0 (NewSPI idleWire) cfgDefault = some d1 ∧ d1.Configured ∧
      ∃ d' err, d1.Display = some (d', err) ∧
        received false (eventsSince d1.log d') = [Received.data (List.replicate 1024 0)]) := by
  constructor
  · have hc : Device.Configure K0 (NewSPI idleWire) cfgThumby
        = some ((Device.Configure K0 (NewSPI idleWire) cfgThumby).getD (NewSPI idleWire)) := by
      decide
    obtain ⟨h1, d', err, h2, h3, -⟩ := display_commands K0 _ cfgThumby _ hc _ (by decide)
      ⟨rfl, rfl, rfl⟩ false
    refine ⟨_, hc, h1, d', err, h2, ?_⟩
    rw [h3]
    decide
  · have hc : Device.Configure K0 (NewSPI idleWire) cfgDefault
        = some ((Device.Configure K0 (NewSPI idleWire) cfgDefault).getD (NewSPI idleWire)) := by
      decide
    obtain ⟨h1, d', err, h2, h3, -⟩ := display_commands K0 _ cfgDefault _ hc _ (by decide)
      ⟨rfl, rfl, rfl⟩ false
    refine ⟨_, hc, h1, d', err, h2, ?_⟩
    rw [h3]
    decide

/-! ## C9 and C10: the command sequence of `Configure` -/

/-- What the controller receives during `Configure`, when the buffer request is not
negative. -/
theorem Device.Configure_received (K : Consts) (d0 : Device) (cfg : Config) (dc : Bool)
    (hs : 0 ≤ cfg.bufferSize) :
    ∃ d, d0.Configure K cfg = some d ∧
      received dc (eventsSince d0.log d) =
        (specConfigureBytes cfg.effWidth cfg.effHeight (decide (cfg.effVcc K = K.EXTERNALVCC))
          (rotationBytes K cfg.Rotation)).map Received.cmd := by
  obtain ⟨d, h1, -, -, -, -, -, -, -, -, -, -, hlog⟩ := Device.Configure_spec K d0 cfg hs
  refine ⟨d, h1, ?_⟩
  rw [eventsSince_of_log (by rw [hlog, List.append_assoc])]
  obtain ⟨dc1, e1⟩ := received_configureEvents d0.bus dc
    ((specConfigureBytes cfg.effWidth cfg.effHeight (decide (cfg.effVcc K = K.EXTERNALVCC))
      (rotationBytes K cfg.Rotation)).flatMap d.bus.commandEvents)
  obtain ⟨dc2, e2⟩ := received_commands d.bus
    (specConfigureBytes cfg.effWidth cfg.effHeight (decide (cfg.effVcc K = K.EXTERNALVCC))
      (rotationBytes K cfg.Rotation)) dc1 []
  rw [List.append_nil] at e2
  rw [e1, e2]
  simp [received]

set_option maxRecDepth 100000 in
/-- C9, as stated, fails: for the configuration 256x128 the product `width*height` is
`-32768` as an `int16`, the buffer request is `-4096`, and `Configure` faults in the
allocation of the bus before any command is sent, on either backend. -/
theorem configure_faults_256x128 :
    cfg256x128.bufferSize = -4096 ∧
    Device.Configure K0 (NewI2C K0 idleWire) cfg256x128 = none ∧
    Device.Configure K0 (NewSPI idleWire) cfg256x128 = none := by
  decide

/-- C9 (amended): for every configuration whose buffer request `width*height/8`, in
`int16` arithmetic, is not negative, and either backend, `Configure` returns and the
controller receives exactly the command bytes `0xAE, 0xD5, 0x80, 0xA8`, `height-1` as a
byte, `0xD3, 0x00, 0x40, 0x8D`, `0x10` if VCC is external else `0x14`, `0x20, 0x00`, the
two rotation commands, the size-keyed block, `0xD9`, `0x22` if external else `0xF1`,
`0xDB, 0x40, 0xA4, 0xA6, 0x2E, 0xAF`, and nothing else (no data transfer either). -/
theorem configure_commands (K : Consts) (d0 : Device) (cfg : Config) (dc : Bool)
    (hs : 0 ≤ cfg.bufferSize) :
    ∃ d, d0.Configure K cfg = some d ∧
      received dc (eventsSince d0.log d) =
        ([0xAE, 0xD5, 0x80, 0xA8, toUint8 (cfg.effHeight - 1), 0xD3, 0x00, 0x40, 0x8D,
            if cfg.effVcc K = K.EXTERNALVCC then 0x10 else 0x14, 0x20, 0x00]
          ++ (if cfg.Rotation = K.Rotation0 then [0xA1, 0xC8]
              else if cfg.Rotation = K.Rotation180 then [0xA0, 0xC0] else [0xA1, 0xC8])
          ++ specSizeBlock cfg.effWidth cfg.effHeight (decide (cfg.effVcc K = K.EXTERNALVCC))
          ++ [0xD9, if cfg.effVcc K = K.EXTERNALVCC then 0x22 else 0xF1, 0xDB, 0x40, 0xA4, 0xA6,
            0x2E, 0xAF]).map Received.cmd := by
  obtain ⟨d, h1, h2⟩ := Device.Configure_received K d0 cfg dc hs
  refine ⟨d, h1, ?_⟩
  rw [h2]
  unfold specConfigureBytes rotationBytes
  rw [toUint8_wrap16]
  by_cases hv : cfg.effVcc K = K.EXTERNALVCC <;> simp [hv]

set_option maxRecDepth 100000 in
/-- C9, witness: the zero configuration (128x64, internal VCC, rotation 0) on the I2C
backend yields the 26 bytes `AE D5 80 A8 3F D3 00 40 8D 14 20 00 A1 C8 DA 12 81 CF D9
F1 DB 40 A4 A6 2E AF`. -/
theorem configure_commands_witness :
    0 ≤ cfgDefault.bufferSize ∧
    ∃ d, Device.Configure K0 (NewI2C K0 idleWire) cfgDefault = some d ∧
      received false (eventsSince (NewI2C K0 idleWire).log d) =
        [0xAE, 0xD5, 0x80, 0xA8, 0x3F, 0xD3, 0x00, 0x40, 0x8D, 0x14, 0x20, 0x00, 0xA1, 0xC8,
          0xDA, 0x12, 0x81, 0xCF, 0xD9, 0xF1, 0xDB, 0x40, 0xA4, 0xA6, 0x2E, 0xAF].map
          Received.cmd := by
  refine ⟨by decide, ?_⟩
  obtain ⟨d, h1, h2⟩ := configure_commands K0 (NewI2C K0 idleWire) cfgDefault false (by decide)
  refine ⟨d, h1, ?_⟩
  rw [h2]
  decide

set_option maxRecDepth 100000 in
/-- C10, as stated, fails: 512x64 is none of the four tabulated geometries, and
`Configure` does not complete the sequence: the buffer request is negative and the
allocation of the bus faults, on either backend. -/
theorem configure_faults_512x64 :
    cfg512x64.bufferSize = -4096 ∧
    specSizeBlock cfg512x64.effWidth cfg512x64.effHeight false = [] ∧
    Device.Configure K0 (NewI2C K0 idleWire) cfg512x64 = none ∧
    Device.Configure K0 (NewSPI idleWire) cfg512x64 = none := by
  decide

/-- C10 (amended): for every configuration whose buffer request `width*height/8`, in
`int16` arithmetic, is not negative, `Configure` returns, and what the controller
receives is 12 command bytes, the rotation pair, a block, and the eight command bytes
from `0xD9` on (so the sequence is completed); the block depends on the effective
`(width, height)` and on VCC being external only: `0xDA,0x12,0x81` and `0x9F`
(external) or `0xCF` for 128x64 and 64x48; `0xDA,0x02,0x81,0x8F` for 128x32;
`0xDA,0x02,0x81` and `0x10` (external) or `0xAF` for 96x16; empty for every other
geometry. -/
theorem configure_size_block (K : Consts) (d0 : Device) (cfg : Config) (dc : Bool)
    (hs : 0 ≤ cfg.bufferSize) :
    ∃ d before block, d0.Configure K cfg = some d ∧ before.length = 12 ∧
      received dc (eventsSince d0.log d) =
        (before
          ++ (if cfg.Rotation = K.Rotation0 then [0xA1, 0xC8]
              else if cfg.Rotation = K.Rotation180 then [0xA0, 0xC0] else [0xA1, 0xC8])
          ++ block
          ++ [0xD9, if cfg.effVcc K = K.EXTERNALVCC then 0x22 else 0xF1, 0xDB, 0x40, 0xA4, 0xA6,
            0x2E, 0xAF]).map Received.cmd ∧
      ((cfg.effWidth = 128 ∧ cfg.effHeight = 64) ∨ (cfg.effWidth = 64 ∧ cfg.effHeight = 48) →
        block = [0xDA, 0x12, 0x81, if cfg.effVcc K = K.EXTERNALVCC then 0x9F else 0xCF]) ∧
      (cfg.effWidth = 128 ∧ cfg.effHeight = 32 → block = [0xDA, 0x02, 0x81, 0x8F]) ∧
      (cfg.effWidth = 96 ∧ cfg.effHeight = 16 →
        block = [0xDA, 0x02, 0x81, if cfg.effVcc K = K.EXTERNALVCC then 0x10 else 0xAF]) ∧
      (¬ ((cfg.effWidth = 128 ∧ cfg.effHeight = 64) ∨ (cfg.effWidth = 64 ∧ cfg.effHeight = 48)
          ∨ (cfg.effWidth = 128 ∧ cfg.effHeight = 32) ∨ (cfg.effWidth = 96 ∧ cfg.effHeight = 16))
        → block = []) := by
  obtain ⟨d, h1, h2⟩ := Device.Configure_received K d0 cfg dc hs
  refine ⟨d, [0xAE, 0xD5, 0x80, 0xA8, toUint8 (wrap16 (cfg.effHeight - 1)), 0xD3, 0x00, 0x40,
      0x8D, if cfg.effVcc K = K.EXTERNALVCC then 0x10 else 0x14, 0x20, 0x00],
    specSizeBlock cfg.effWidth cfg.effHeight (decide (cfg.effVcc K = K.EXTERNALVCC)),
    h1, rfl, ?_, ?_, ?_, ?_, ?_⟩
  · rw [h2]
    unfold specConfigureBytes rotationBytes
    by_cases hv : cfg.effVcc K = K.EXTERNALVCC <;> simp [hv]
  · intro h
    unfold specSizeBlock
    rw [if_pos h]
    by_cases hv : cfg.effVcc K = K.EXTERNALVCC <;> simp [hv]
  · intro h
    unfold specSizeBlock
    have h1 : ¬ ((cfg.effWidth = 128 ∧ cfg.effHeight = 64) ∨
        (cfg.effWidth = 64 ∧ cfg.effHeight = 48)) := by omega
    rw [if_neg h1, if_pos h]
  · intro h
    unfold specSizeBlock
    have h1 : ¬ ((cfg.effWidth = 128 ∧ cfg.effHeight = 64) ∨
        (cfg.effWidth = 64 ∧ cfg.effHeight = 48)) := by omega
    have h2 : ¬ (cfg.effWidth = 128 ∧ cfg.effHeight = 32) := by omega
    rw [if_neg h1, if_neg h2, if_pos h]
    by_cases hv : cfg.effVcc K = K.EXTERNALVCC <;> simp [hv]
  · intro h
    unfold specSizeBlock
    have h1 : ¬ ((cfg.effWidth = 128 ∧ cfg.effHeight = 64) ∨
        (cfg.effWidth = 64 ∧ cfg.effHeight = 48)) := by tauto
    have h2 : ¬ (cfg.effWidth = 128 ∧ cfg.effHeight = 32) := by tauto
    have h3 : ¬ (cfg.effWidth = 96 ∧ cfg.effHeight = 16) := by tauto
    rw [if_neg h1, if_neg h2, if_neg h3]

set_option maxRecDepth 100000 in
/-- C10, witness: for the 72x40 panel, none of the four tabulated geometries, the block
is empty and `Configure` completes the sequence. -/
theorem configure_size_block_witness :
    0 ≤ cfgThumby.bufferSize ∧
    ∃ d before block, Device.Configure K0 (NewSPI idleWire) cfgThumby = some d ∧
      before.length = 12 ∧
      received false (eventsSince (NewSPI idleWire).log d) =
        (before ++ [0xA1, 0xC8] ++ block
          ++ [0xD9, 0xF1, 0xDB, 0x40, 0xA4, 0xA6, 0x2E, 0xAF]).map Received.cmd ∧
      block = [] := by
  refine ⟨by decide, ?_⟩
  obtain ⟨d, before, block, h1, h2, h3, -, -, -, h4⟩ :=
    configure_size_block K0 (NewSPI idleWire) cfgThumby false (by decide)
  exact ⟨d, before, block, h1, h2, h3, h4 (by decide)⟩

/-! ## Pixels of a covered panel -/

/-- Two pixels of the panel with the same byte index and the same bit index are the
same pixel. -/
theorem pixel_injective (w x y x' y' : Int) (hx : 0 ≤ x ∧ x < w) (hx' : 0 ≤ x' ∧ x' < w)
    (hi : x + y / 8 * w = x' + y' / 8 * w)
    (hb : y % 8 = y' % 8) : x = x' ∧ y = y' := by
  have hw : 0 < w := by omega
  have e1 : (x + y / 8 * w) % w = x := by
    rw [Int.add_mul_emod_self]; exact Int.emod_eq_of_lt hx.1 hx.2
  have e2 : (x' + y' / 8 * w) % w = x' := by
    rw [Int.add_mul_emod_self]; exact Int.emod_eq_of_lt hx'.1 hx'.2
  have hxx : x = x' := by rw [← e1, ← e2, hi]
  subst hxx
  have hq : y / 8 * w = y' / 8 * w := by omega
  have hq2 : y / 8 = y' / 8 := Int.eq_of_mul_eq_mul_right (by omega) hq
  exact ⟨rfl, by omega⟩

/-- The method `SetPixel` on a covered panel: it returns, the panel stays covered, and
exactly the pixel `(x, y)`, when it is on the panel, changes to the colour being on. -/
theorem Device.SetPixel_covered (d : Device) (x y : Int) (c : RGBA) (hc : d.Covered) :
    ∃ d', d.SetPixel x y c = some d' ∧ d'.Covered ∧ d'.width = d.width ∧
      d'.height = d.height ∧ d'.log = d.log ∧
      ∀ x' y' : Int, d'.GetPixel x' y' =
        if d.InRange x y ∧ x' = x ∧ y' = y then some c.isOn else d.GetPixel x' y' := by
  by_cases hr : d.InRange x y
  · obtain ⟨hx0, hx1, hy0, hy1⟩ := hr
    have hidx := hc.2 x y ⟨hx0, hx1, hy0, hy1⟩
    obtain ⟨he, h0⟩ := Device.byteIndex_exact hc.1 ⟨hx0, hx1⟩ hy0 hidx
    have hi : 0 ≤ d.byteIndex x y := by rw [he]; exact h0
    have hlt : (d.byteIndex x y).toNat < d.buffer.length := by rw [he]; omega
    refine ⟨_, Device.SetPixel_inside d x y c ⟨hx0, hx1⟩ ⟨hy0, hy1⟩ hi hlt, ?_, rfl, rfl,
      Device.log_store _ _ _, ?_⟩
    · refine ⟨hc.1.store _ _, ?_⟩
      intro a b hab
      simp only [Device.buffer_store, List.length_set, Device.width_store]
      exact hc.2 a b hab
    · intro x' y'
      by_cases hr' : d.InRange x' y'
      · obtain ⟨hx0', hx1', hy0', hy1'⟩ := hr'
        have hidx' := hc.2 x' y' ⟨hx0', hx1', hy0', hy1'⟩
        obtain ⟨he', h0'⟩ := Device.byteIndex_exact hc.1 ⟨hx0', hx1'⟩ hy0' hidx'
        have hi' : 0 ≤ d.byteIndex x' y' := by rw [he']; exact h0'
        have hlt' : (d.byteIndex x' y').toNat < d.buffer.length := by rw [he']; omega
        rw [Device.GetPixel_inside d x' y' ⟨hx0', hx1'⟩ ⟨hy0', hy1'⟩ hi' hlt',
          Device.GetPixel_inside (d.store (d.byteIndex x y).toNat
            (pixelByte (d.buffer.getD (d.byteIndex x y).toNat 0) y c)) x' y' ⟨hx0', hx1'⟩
            ⟨hy0', hy1'⟩ (by simpa using hi') (by simpa using hlt')]
        simp only [Device.buffer_store, Device.byteIndex_store]
        by_cases hsame : (d.byteIndex x y).toNat = (d.byteIndex x' y').toNat
        · rw [← hsame, getD_set_self _ _ _ hlt, testBit_pixelByte _ hy0]
          have hb' := bitIndex_lt hy0'
          by_cases hbit : bitIndex y = bitIndex y'
          · have hinj := pixel_injective d.width x y x' y' ⟨hx0, hx1⟩ ⟨hx0', hx1'⟩
              (by rw [he, he'] at hsame; omega)
              (by rw [bitIndex_of_nonneg hy0, bitIndex_of_nonneg hy0'] at hbit; omega)
            simp [hbit, hb', hinj.1, hinj.2, hx0', hx1', hy0', hy1', Device.InRange]
          · have hne : ¬ (x' = x ∧ y' = y) := by
              rintro ⟨rfl, rfl⟩; exact hbit rfl
            simp [hbit, hb', hne]
        · have hne : ¬ (x' = x ∧ y' = y) := by
            rintro ⟨rfl, rfl⟩; exact hsame rfl
          have hg : (d.buffer.set (d.byteIndex x y).toNat
              (pixelByte (d.buffer.getD (d.byteIndex x y).toNat 0) y c)).getD
              (d.byteIndex x' y').toNat 0 = d.buffer.getD (d.byteIndex x' y').toNat 0 := by
            simp [List.getD_eq_getElem?_getD, List.getElem?_set, hsame]
          rw [hg]
          simp [hne]
      · have hne : ¬ (x' = x ∧ y' = y) := by
          rintro ⟨rfl, rfl⟩; exact hr' ⟨hx0, hx1, hy0, hy1⟩
        have hout : x' < 0 ∨ x' ≥ d.width ∨ y' < 0 ∨ y' ≥ d.height := by
          unfold Device.InRange at hr'; omega
        rw [(setPixel_getPixel_outside_aux d x' y' hout)]
        have hout2 : x' < 0 ∨ x' ≥ (d.store (d.byteIndex x y).toNat
            (pixelByte (d.buffer.getD (d.byteIndex x y).toNat 0) y c)).width ∨ y' < 0 ∨
            y' ≥ (d.store (d.byteIndex x y).toNat
            (pixelByte (d.buffer.getD (d.byteIndex x y).toNat 0) y c)).height := hout
        rw [(setPixel_getPixel_outside_aux _ x' y' hout2)]
        simp [hne]
  · have hout : x < 0 ∨ x ≥ d.width ∨ y < 0 ∨ y ≥ d.height := by
      unfold Device.InRange at hr; omega
    refine ⟨d, ?_, hc, rfl, rfl, rfl, ?_⟩
    · unfold Device.SetPixel; rw [if_pos hout]
    · intro x' y'; simp [hr]

/-! ## `ClearBuffer` and `ClearDisplay` -/

theorem Device.clearFrom_spec (d : Device) (n i : Nat) :
    (d.clearFrom n i).width = d.width ∧ (d.clearFrom n i).height = d.height ∧
    (d.clearFrom n i).view = d.view ∧ (d.clearFrom n i).log = d.log ∧
    (d.clearFrom n i).canReset = d.canReset ∧ (d.clearFrom n i).resetCol = d.resetCol ∧
    (d.clearFrom n i).resetPage = d.resetPage ∧
    (d.clearFrom n i).bus.header = d.bus.header ∧
    (d.clearFrom n i).bus.buffer.length = d.bus.buffer.length ∧
    (d.clearFrom n i).buffer.length = d.buffer.length ∧
    ∀ j : Nat, (d.clearFrom n i).buffer[j]? =
      if i ≤ j ∧ j < i + n ∧ j < d.buffer.length then some 0 else d.buffer[j]? := by
  induction n generalizing d i with
  | zero =>
    refine ⟨rfl, rfl, rfl, rfl, rfl, rfl, rfl, rfl, rfl, rfl, ?_⟩
    intro j
    have : ¬ (i ≤ j ∧ j < i + 0 ∧ j < d.buffer.length) := by omega
    rw [if_neg this]; rfl
  | succ n ih =>
    obtain ⟨h1, h2, h3, h4, h5, h6, h7, h8, h9, h10, h11⟩ := ih (d.store i 0) (i + 1)
    refine ⟨h1, h2, h3, ?_, h5, h6, h7, ?_, ?_, ?_, ?_⟩
    · exact h4.trans (Device.log_store d i 0)
    · exact h8.trans (by simp [Device.store])
    · exact h9.trans (by simp [Device.store])
    · exact h10.trans (by simp)
    · intro j
      show ((d.store i 0).clearFrom n (i + 1)).buffer[j]? = _
      rw [h11 j]
      simp only [Device.buffer_store, List.length_set, List.getElem?_set]
      by_cases hij : i = j
      · subst hij
        by_cases hl : i < d.buffer.length
        · have h1 : ¬ (i + 1 ≤ i ∧ i < i + 1 + n ∧ i < d.buffer.length) := by omega
          have h2 : i ≤ i ∧ i < i + (n + 1) ∧ i < d.buffer.length := by omega
          simp [hl, h2]
        · have h1 : ¬ (i + 1 ≤ i ∧ i < i + 1 + n ∧ i < d.buffer.length) := by omega
          have h2 : ¬ (i ≤ i ∧ i < i + (n + 1) ∧ i < d.buffer.length) := by omega
          rw [if_neg h1, if_neg h2]
          simp [hl]
          omega
      · by_cases hc : i + 1 ≤ j ∧ j < i + 1 + n ∧ j < d.buffer.length
        · have h2 : i ≤ j ∧ j < i + (n + 1) ∧ j < d.buffer.length := by omega
          rw [if_pos hc, if_pos h2]
        · have h2 : ¬ (i ≤ j ∧ j < i + (n + 1) ∧ j < d.buffer.length) := by omega
          rw [if_neg hc, if_neg h2, if_neg hij]

/-- The method `ClearBuffer` sets every byte of the framebuffer to zero. -/
theorem Device.buffer_ClearBuffer (d : Device) :
    d.ClearBuffer.buffer = List.replicate d.buffer.length 0 := by
  obtain ⟨-, -, -, -, -, -, -, -, -, hl, hj⟩ := Device.clearFrom_spec d d.buffer.length 0
  apply List.ext_getElem?
  intro j
  show (d.clearFrom d.buffer.length 0).buffer[j]? = _
  rw [hj j, List.getElem?_replicate]
  by_cases h : j < d.buffer.length
  · simp [h]
  · simp [h]
    omega

theorem Device.Configured.ClearBuffer {d : Device} (h : d.Configured) :
    d.ClearBuffer.Configured := by
  obtain ⟨h1, h2, h3, -, -, -, -, h8, h9, h10, -⟩ := Device.clearFrom_spec d d.buffer.length 0
  refine ⟨?_, ?_, ?_⟩
  · show (d.clearFrom d.buffer.length 0).view = (d.clearFrom d.buffer.length 0).bus.header
    rw [h3, h8]; exact h.1
  · show (d.clearFrom d.buffer.length 0).view ≤ (d.clearFrom d.buffer.length 0).bus.buffer.length
    rw [h3, h9]; exact h.2.1
  · show (((d.clearFrom d.buffer.length 0).buffer.length : Nat) : Int) =
      (wrap16 ((d.clearFrom d.buffer.length 0).width * (d.clearFrom d.buffer.length 0).height)).tdiv 8
    rw [h10, h1, h2]; exact h.2.2

/-- The method `ClearDisplay` on a configured device: it returns, and the framebuffer is
all zero afterwards. -/
theorem Device.ClearDisplay_spec (d : Device) (hc : d.Configured) :
    ∃ d', d.ClearDisplay = some d' ∧ d'.Configured ∧ d'.width = d.width ∧
      d'.height = d.height ∧ d'.buffer = List.replicate d.buffer.length 0 := by
  obtain ⟨h1, h2, -⟩ := Device.clearFrom_spec d d.buffer.length 0
  obtain ⟨d', err, hD, hc', hb, -, -, -, hw, hh, -⟩ := Device.Display_spec _ hc.ClearBuffer
  refine ⟨d', ?_, hc', hw.trans h1, hh.trans h2, hb.trans (Device.buffer_ClearBuffer d)⟩
  unfold Device.ClearDisplay
  rw [hD]; rfl

/-! ## Panels of 128x64 pixels -/

theorem Device.covered_128x64 (d : Device) (hc : d.Configured) (hw : d.width = 128)
    (hh : d.height = 64) : d.Covered ∧ d.buffer.length = 1024 := by
  have hl : (d.buffer.length : Int) = 1024 := by
    rw [hc.2.2, hw, hh]; decide
  refine ⟨⟨hc, ?_⟩, by omega⟩
  intro x y hr
  unfold Device.InRange at hr
  rw [hw, hh] at hr
  rw [hw]
  omega

/-- On a covered panel whose framebuffer is all zero every pixel reads false. -/
theorem Device.GetPixel_zero (d : Device) (hc : d.Covered) (n : Nat)
    (hb : d.buffer = List.replicate n 0) (x y : Int) : d.GetPixel x y = some false := by
  by_cases hr : d.InRange x y
  · obtain ⟨hx0, hx1, hy0, hy1⟩ := hr
    have hidx := hc.2 x y ⟨hx0, hx1, hy0, hy1⟩
    obtain ⟨he, h0⟩ := Device.byteIndex_exact hc.1 ⟨hx0, hx1⟩ hy0 hidx
    rw [Device.GetPixel_inside d x y ⟨hx0, hx1⟩ ⟨hy0, hy1⟩ (by rw [he]; exact h0)
      (by rw [he]; omega), hb]
    have : (List.replicate n 0).getD (d.byteIndex x y).toNat 0 = 0 := by
      simp only [List.getD_eq_getElem?_getD, List.getElem?_replicate]
      split <;> rfl
    rw [this]
    simp
  · apply setPixel_getPixel_outside_aux
    unfold Device.InRange at hr; omega

/-! ## Loops -/

/-- A loop over an `int` counter whose body keeps an invariant returns, and the
invariant holds afterwards. -/
theorem forInt_invariant {σ : Type} (body : Nat → σ → Option σ) (P : Nat → σ → Prop)
    (hstep : ∀ i s, P i s → ∃ s', body i s = some s' ∧ P (i + 1) s') :
    ∀ (n i : Nat) (s : σ), P i s → ∃ s', forInt body n i s = some s' ∧ P (i + n) s' := by
  intro n
  induction n with
  | zero => intro i s h; exact ⟨s, rfl, h⟩
  | succ n ih =>
    intro i s h
    obtain ⟨s1, hb, h1⟩ := hstep i s h
    obtain ⟨s2, hf, h2⟩ := ih (i + 1) s1 h1
    refine ⟨s2, ?_, ?_⟩
    · show (body i s).bind (forInt body n (i + 1)) = some s2
      rw [hb]; exact hf
    · have : i + (n + 1) = i + 1 + n := by omega
      rw [this]; exact h2

/-! ## C4: rectangles outside the panel -/

set_option maxRecDepth 100000 in
/-- C4, the code at the failing input: on the default 128x64 SPI panel the rectangle
`(x, y, w, h) = (1, 0, 32767, 1)` reaches column 32767, far outside the panel, yet
`FillRectangle` returns nil: the sum `x + w` wraps to `-32768` in `int16` and passes the
guard.  (The device is unchanged: the loop bound is the wrapped sum.) -/
theorem fillRectangle_accepts_overflow :
    ∃ d, spi128x64 = some d ∧ d.Size = (128, 64) ∧ ¬ ((1 : Int) + 32767 ≤ 128) ∧
      wrap16 (1 + 32767) = -32768 ∧
      d.FillRectangle 1 0 32767 1 white = some (d, none) := by
  refine ⟨spi128x64.getD (NewSPI idleWire), ?_, ?_, ?_, ?_, ?_⟩ <;> decide

/-! ## C5: filling a rectangle -/

/-- The fast path of `FillRectangle`: when the guard passes, the rectangle ends at the
bottom right corner and the colour is off, the whole framebuffer is cleared. -/
theorem Device.FillRectangle_clear (d : Device) (hc : d.Configured) (x y w h : Int) (c : RGBA)
    (hg : ¬ (x < 0 ∨ y < 0 ∨ w ≤ 0 ∨ h ≤ 0 ∨ x ≥ d.width ∨ wrap16 (x + w) > d.width ∨
      y ≥ d.height ∨ wrap16 (y + h) > d.height))
    (hf : wrap16 (x + w) = d.width ∧ wrap16 (y + h) = d.height ∧ c.R = 0 ∧ c.G = 0 ∧ c.B = 0) :
    ∃ d', d.FillRectangle x y w h c = some (d', none) ∧ d'.Configured ∧ d'.width = d.width ∧
      d'.height = d.height ∧ d'.buffer = List.replicate d.buffer.length 0 := by
  obtain ⟨d', h1, h2, h3, h4, h5⟩ := Device.ClearDisplay_spec d hc
  refine ⟨d', ?_, h2, h3, h4, h5⟩
  unfold Device.FillRectangle
  simp only [Device.Size]
  rw [if_neg hg, if_pos hf, h1]
  rfl

set_option maxRecDepth 100000 in
/-- C5, the code at the failing input: on the default 128x64 SPI panel with the pixel
`(0, 0)` on, `FillRectangle(64, 32, 64, 32, black)`, the lower right quarter, returns nil
and turns the pixel `(0, 0)`, which is outside the rectangle, off: the whole-buffer
clear is taken although the rectangle is not the whole panel. -/
theorem fillRectangle_clears_outside :
    ∃ d, spi128x64Dot = some d ∧ d.Size = (128, 64) ∧ d.GetPixel 0 0 = some true ∧
      ¬ ((64 : Int) ≤ 0 ∧ (0 : Int) < 64 + 64 ∧ (32 : Int) ≤ 0 ∧ (0 : Int) < 32 + 32) ∧
      ∃ d', d.FillRectangle 64 32 64 32 ⟨0, 0, 0, 255⟩ = some (d', none) ∧
        d'.GetPixel 0 0 = some false := by
  have hc : (spi128x64Dot.getD (NewSPI idleWire)).Configured := by decide
  obtain ⟨d', h1, h2, h3, h4, h5⟩ := Device.FillRectangle_clear _ hc 64 32 64 32 ⟨0, 0, 0, 255⟩
    (by decide) (by decide)
  refine ⟨spi128x64Dot.getD (NewSPI idleWire), by decide, by decide, by decide, by decide,
    d', h1, ?_⟩
  have hcov := (Device.covered_128x64 d' h2 (h3.trans (by decide)) (h4.trans (by decide))).1
  exact Device.GetPixel_zero d' hcov _ h5 0 0

/-! ## C6: drawing a bitmap -/

set_option maxRecDepth 100000 in
/-- C6, the code at the failing input: on the default 128x64 SPI panel,
`DrawBitmap(100, 0, bitmap)` with a white bitmap of 32700 by 1 pixels, which does not
fit (`100 + 32700 > 128`), returns nil instead of the out-of-range error and changes
the framebuffer: the pixel `(100, 0)` was off and is on afterwards.  The sum
`x + int16(width)` wraps to `-32736` in `int16` and passes the guard. -/
theorem drawBitmap_accepts_overflow :
    ∃ d, spi128x64 = some d ∧ d.Size = (128, 64) ∧ ¬ ((100 : Int) + 32700 ≤ 128) ∧
      wrap16 (100 + wrap16 32700) = -32736 ∧ d.GetPixel 100 0 = some false ∧
      ∃ d', d.DrawBitmap 100 0 wideBitmap = some (d', none) ∧ d'.GetPixel 100 0 = some true := by
  have hc : (spi128x64.getD (NewSPI idleWire)).Configured := by decide
  have hw : (spi128x64.getD (NewSPI idleWire)).width = 128 := by decide
  have hh : (spi128x64.getD (NewSPI idleWire)).height = 64 := by decide
  refine ⟨spi128x64.getD (NewSPI idleWire), by decide, by decide, by decide, by decide,
    by decide, ?_⟩
  generalize spi128x64.getD (NewSPI idleWire) = d at hc hw hh ⊢
  have hloop := forInt_invariant
    (fun i d => forInt (fun j d =>
        d.SetPixel (wrap16 (100 + wrap16 i)) (wrap16 (0 + wrap16 j)) (wideBitmap.Get i j))
        wideBitmap.height 0 d)
    (fun i s => s.Configured ∧ s.width = 128 ∧ s.height = 64 ∧
      (1 ≤ i → s.GetPixel 100 0 = some true))
    (by
      intro i s hP
      obtain ⟨sc, sw, sh, sp⟩ := hP
      have hcov := (Device.covered_128x64 s sc sw sh).1
      obtain ⟨s', e1, c1, w1, h1, -, g1⟩ := Device.SetPixel_covered s
        (wrap16 (100 + wrap16 i)) (wrap16 (0 + wrap16 (0 : Nat))) white hcov
      refine ⟨s', ?_, c1.1, w1.trans sw, h1.trans sh, ?_⟩
      · show (s.SetPixel (wrap16 (100 + wrap16 i)) (wrap16 (0 + wrap16 (0 : Nat))) white).bind
          (fun s => some s) = some s'
        rw [e1]; rfl
      · intro _
        rw [g1 100 0]
        by_cases hi0 : i = 0
        · subst hi0
          have hr : s.InRange (wrap16 (100 + wrap16 (0 : Nat))) (wrap16 (0 + wrap16 (0 : Nat))) ∧
              (100 : Int) = wrap16 (100 + wrap16 (0 : Nat)) ∧
              (0 : Int) = wrap16 (0 + wrap16 (0 : Nat)) := by
            unfold Device.InRange
            rw [sw, sh]
            decide
          rw [if_pos hr]; rfl
        · split
          · rfl
          · exact sp (by omega))
    32700 0 d ⟨hc, hw, hh, fun h => absurd h (by decide)⟩
  obtain ⟨d', hd', -, -, -, hp⟩ := hloop
  refine ⟨d', ?_, hp (by decide)⟩
  unfold Device.DrawBitmap
  have hg : ¬ ((100 : Int) < 0 ∨ wrap16 (100 + wrap16 (wideBitmap.width : Nat)) > d.width ∨
      (0 : Int) < 0 ∨ wrap16 (0 + wrap16 (wideBitmap.height : Nat)) > d.height) := by
    rw [hw, hh]; decide
  simp only []
  rw [if_neg hg]
  have : wideBitmap.width = 32700 := rfl
  rw [this, hd']
  rfl

/-! ## Covered panels -/

/-- A configured device with a positive width, a positive height that is a multiple
of 8, and `width*height` in the `int16` range has a byte for every pixel. -/
theorem Device.covered_of_geometry (d : Device) (hc : d.Configured) (hw : 0 < d.width)
    (hh : 0 < d.height) (h8 : d.height % 8 = 0) (hwh : d.width * d.height ≤ 32767) :
    d.Covered := by
  refine ⟨hc, ?_⟩
  intro x y hr
  obtain ⟨hx0, hx1, hy0, hy1⟩ := hr
  have hpos : 0 ≤ d.width * d.height := Int.mul_nonneg (by omega) (by omega)
  have hl : (d.buffer.length : Int) = d.width * d.height / 8 := by
    rw [hc.2.2, wrap16_of_range (by omega) hwh, tdiv8_of_nonneg hpos]
  obtain ⟨k, hk⟩ : ∃ k, d.height = 8 * k := ⟨d.height / 8, by omega⟩
  have hlen : (d.buffer.length : Int) = d.width * k := by
    rw [hl, hk, show d.width * (8 * k) = d.width * k * 8 by ring]
    exact Int.mul_ediv_cancel _ (by decide)
  have hq : y / 8 ≤ k - 1 := by omega
  have hm : y / 8 * d.width ≤ (k - 1) * d.width :=
    Int.mul_le_mul_of_nonneg_right hq (by omega)
  have he : (k - 1) * d.width = d.width * k - d.width := by ring
  rw [hlen]
  omega

/-! ## The guards of the bulk operations when no sum overflows -/

/-- The guard of `FillRectangle` rejects every empty rectangle and every rectangle that
is not contained in the panel, when `x + width` and `y + height` fit `int16`; the device
is unchanged. -/
theorem Device.FillRectangle_rejects (d : Device) (x y w h : Int) (c : RGBA)
    (hxw : -32768 ≤ x + w ∧ x + w ≤ 32767) (hyh : -32768 ≤ y + h ∧ y + h ≤ 32767)
    (hout : w ≤ 0 ∨ h ≤ 0 ∨ x < 0 ∨ y < 0 ∨ x + w > d.width ∨ y + h > d.height) :
    d.FillRectangle x y w h c = some (d, some Error.errOutOfRange) := by
  unfold Device.FillRectangle
  simp only [Device.Size]
  rw [wrap16_of_range hxw.1 hxw.2, wrap16_of_range hyh.1 hyh.2]
  rw [if_pos (by omega)]

/-- The guard of `DrawBitmap` rejects every bitmap that does not fit the panel at the
offset, when the sizes and the sums `x + width`, `y + height` fit `int16`; the device
is unchanged. -/
theorem Device.DrawBitmap_rejects (d : Device) (x y : Int) (bitmap : Bitmap)
    (hxw : -32768 ≤ x ∧ x + bitmap.width ≤ 32767) (hyh : -32768 ≤ y ∧ y + bitmap.height ≤ 32767)
    (hout : x < 0 ∨ y < 0 ∨ x + bitmap.width > d.width ∨ y + bitmap.height > d.height) :
    d.DrawBitmap x y bitmap = some (d, some Error.errOutOfRange) := by
  unfold Device.DrawBitmap
  simp only []
  by_cases hx : x < 0
  · rw [if_pos (Or.inl hx)]
  · by_cases hy : y < 0
    · rw [if_pos (Or.inr (Or.inr (Or.inl hy)))]
    · have e1 : wrap16 (bitmap.width : Int) = bitmap.width :=
        wrap16_of_range (by omega) (by omega)
      have e2 : wrap16 (bitmap.height : Int) = bitmap.height :=
        wrap16_of_range (by omega) (by omega)
      rw [e1, e2, wrap16_of_range (by omega) (by omega), wrap16_of_range (by omega) (by omega)]
      rw [if_pos (by omega)]
/-! ## Loops that paint pixels -/

/-- A loop over an `int16` counter from `lo` up to `hi`, both in the `int16` range,
whose body keeps an invariant returns within the iteration bound, and the invariant
holds afterwards. -/
theorem forInt16_invariant {σ : Type} (body : Int → σ → Option σ) (P : Int → σ → Prop)
    (hi : Int) (hhi : hi ≤ 32767)
    (hstep : ∀ i s, i < hi → P i s → ∃ s', body i s = some s' ∧ P (i + 1) s') :
    ∀ (n : Nat) (fuel : Nat) (lo : Int) (s : σ), -32768 ≤ lo → lo ≤ hi → hi - lo = n →
      n < fuel → P lo s → ∃ s', forInt16 body hi fuel lo s = some s' ∧ P hi s' := by
  intro n
  induction n with
  | zero =>
    intro fuel lo s _ _ hn hf hP
    have e : lo = hi := by omega
    subst e
    obtain ⟨f, rfl⟩ : ∃ f, fuel = f + 1 := ⟨fuel - 1, by omega⟩
    refine ⟨s, ?_, hP⟩
    show (if lo < lo then _ else some s) = some s
    rw [if_neg (by omega)]
  | succ n ih =>
    intro fuel lo s hlo hle hn hf hP
    obtain ⟨f, rfl⟩ : ∃ f, fuel = f + 1 := ⟨fuel - 1, by omega⟩
    have hlt : lo < hi := by omega
    obtain ⟨s1, hb, h1⟩ := hstep lo s hlt hP
    have hw : wrap16 (lo + 1) = lo + 1 := wrap16_of_range (by omega) (by omega)
    obtain ⟨s2, hf2, h2⟩ := ih f (lo + 1) s1 (by omega) (by omega) (by omega) (by omega) h1
    refine ⟨s2, ?_, h2⟩
    show (if lo < hi then (body lo s).bind (forInt16 body hi f (wrap16 (lo + 1))) else some s)
      = some s2
    rw [if_pos hlt, hb, hw]
    exact hf2

/-- A covered panel with a pixel has dimensions in the `int16` range. -/
theorem Device.Covered.dims {d : Device} (hc : d.Covered) (hw : 0 < d.width)
    (hh : 0 < d.height) : d.width ≤ 4095 ∧ d.height ≤ 32767 := by
  have hl := hc.1.length_le
  have h1 := hc.2 (d.width - 1) 0 ⟨by omega, by omega, le_refl 0, hh⟩
  have h2 := hc.2 0 (d.height - 1) ⟨le_refl 0, hw, by omega, by omega⟩
  have hq : (d.height - 1) / 8 * 1 ≤ (d.height - 1) / 8 * d.width :=
    Int.mul_le_mul_of_nonneg_left (by omega) (by omega)
  constructor
  · omega
  · omega


/-- The method `SetPixel` on a pixel of a covered panel, in terms of `GetPixel`. -/
theorem Device.SetPixel_paint (s : Device) (W H : Int) (hc : s.Covered) (hw : s.width = W)
    (hh : s.height = H) (X Y : Int) (hX : 0 ≤ X ∧ X < W) (hY : 0 ≤ Y ∧ Y < H) (c : RGBA) :
    ∃ s', s.SetPixel X Y c = some s' ∧ s'.Covered ∧ s'.width = W ∧ s'.height = H ∧
      s'.log = s.log ∧
      ∀ px py : Int, s'.GetPixel px py =
        if px = X ∧ py = Y then some c.isOn else s.GetPixel px py := by
  obtain ⟨s', h1, h2, h3, h4, h5, h6⟩ := Device.SetPixel_covered s X Y c hc
  refine ⟨s', h1, h2, h3.trans hw, h4.trans hh, h5, ?_⟩
  intro px py
  rw [h6 px py]
  have hr : s.InRange X Y := by
    unfold Device.InRange; rw [hw, hh]; omega
  by_cases hp : px = X ∧ py = Y
  · rw [if_pos ⟨hr, hp⟩, if_pos hp]
  · rw [if_neg (fun h => hp h.2), if_neg hp]

/-- One column of the loop of `FillRectangle`. -/
theorem Device.fill_column (s0 : Device) (W H : Int) (hc : s0.Covered) (hw : s0.width = W)
    (hh : s0.height = H) (i : Int) (hi : 0 ≤ i ∧ i < W) (y yh : Int) (hy : 0 ≤ y)
    (hyle : y ≤ yh) (hyh : yh ≤ H) (hH : H ≤ 32767) (c : RGBA) :
    ∃ s, forInt16 (fun j d => d.SetPixel i j c) yh 65536 y s0 = some s ∧ s.Covered ∧
      s.width = W ∧ s.height = H ∧ s.log = s0.log ∧
      ∀ px py : Int, s.GetPixel px py =
        if px = i ∧ y ≤ py ∧ py < yh then some c.isOn else s0.GetPixel px py := by
  have := forInt16_invariant (fun j d => d.SetPixel i j c)
    (fun j s => y ≤ j ∧ s.Covered ∧ s.width = W ∧ s.height = H ∧ s.log = s0.log ∧
      ∀ px py : Int, s.GetPixel px py =
        if px = i ∧ y ≤ py ∧ py < j then some c.isOn else s0.GetPixel px py)
    yh (by omega)
    (by
      intro j s hj hP
      obtain ⟨hyj, sc, sw, sh, sl, sp⟩ := hP
      obtain ⟨s', e1, c1, w1, h1, l1, g1⟩ :=
        Device.SetPixel_paint s W H sc sw sh i j hi ⟨by omega, by omega⟩ c
      refine ⟨s', e1, by omega, c1, w1, h1, l1.trans sl, ?_⟩
      intro px py
      rw [g1 px py, sp px py]
      by_cases h1 : px = i ∧ py = j
      · rw [if_pos h1, if_pos (by omega)]
      · rw [if_neg h1]
        by_cases h2 : px = i ∧ y ≤ py ∧ py < j
        · rw [if_pos h2, if_pos (by omega)]
        · rw [if_neg h2, if_neg (by omega)])
    (yh - y).toNat 65536 y s0 (by omega) hyle (by omega) (by omega)
    ⟨le_refl y, hc, hw, hh, rfl, fun px py => by rw [if_neg (by omega)]⟩
  obtain ⟨s, e, -, r⟩ := this
  exact ⟨s, e, r⟩

/-- The two nested loops of `FillRectangle` on a covered panel, for a rectangle inside
the panel. -/
theorem Device.fill_loops (d : Device) (hc : d.Covered) (x y w h : Int) (c : RGBA)
    (hx : 0 ≤ x) (hy : 0 ≤ y) (hw : 0 < w) (hh : 0 < h) (hxw : x + w ≤ d.width)
    (hyh : y + h ≤ d.height) :
    ∃ d', forInt16 (fun i d => forInt16 (fun j d => d.SetPixel i j c) (y + h) 65536 y d)
        (x + w) 65536 x d = some d' ∧ d'.Covered ∧ d'.width = d.width ∧
      d'.height = d.height ∧ d'.log = d.log ∧
      ∀ px py : Int, d'.GetPixel px py =
        if x ≤ px ∧ px < x + w ∧ y ≤ py ∧ py < y + h then some c.isOn
        else d.GetPixel px py := by
  obtain ⟨dW, dH⟩ := hc.dims (by omega) (by omega)
  have := forInt16_invariant
    (fun i d => forInt16 (fun j d => d.SetPixel i j c) (y + h) 65536 y d)
    (fun i s => x ≤ i ∧ s.Covered ∧ s.width = d.width ∧ s.height = d.height ∧ s.log = d.log ∧
      ∀ px py : Int, s.GetPixel px py =
        if x ≤ px ∧ px < i ∧ y ≤ py ∧ py < y + h then some c.isOn else d.GetPixel px py)
    (x + w) (by omega)
    (by
      intro i s hi hP
      obtain ⟨hxi, sc, sw, sh, sl, sp⟩ := hP
      obtain ⟨s', e1, c1, w1, h1, l1, g1⟩ := Device.fill_column s d.width d.height sc sw sh i
        ⟨by omega, by omega⟩ y (y + h) hy (by omega) hyh dH c
      refine ⟨s', e1, by omega, c1, w1, h1, l1.trans sl, ?_⟩
      intro px py
      rw [g1 px py, sp px py]
      by_cases h1 : px = i ∧ y ≤ py ∧ py < y + h
      · rw [if_pos h1, if_pos (by omega)]
      · rw [if_neg h1]
        by_cases h2 : x ≤ px ∧ px < i ∧ y ≤ py ∧ py < y + h
        · rw [if_pos h2, if_pos (by omega)]
        · rw [if_neg h2, if_neg (by omega)])
    w.toNat 65536 x d (by omega) (by omega) (by omega) (by omega)
    ⟨le_refl x, hc, rfl, rfl, rfl, fun px py => by rw [if_neg (by omega)]⟩
  obtain ⟨s, e, -, r⟩ := this
  exact ⟨s, e, r⟩

/-- The method `FillRectangle` on a covered panel, for a rectangle inside the panel
that is the whole panel whenever it ends at the bottom right corner with an off
colour: it returns nil, every pixel of the rectangle reads as the colour being on,
and every other pixel is unchanged. -/
theorem Device.FillRectangle_paints (d : Device) (hc : d.Covered) (x y w h : Int) (c : RGBA)
    (hx : 0 ≤ x) (hy : 0 ≤ y) (hw : 0 < w) (hh : 0 < h) (hxw : x + w ≤ d.width)
    (hyh : y + h ≤ d.height)
    (hwhole : x + w = d.width ∧ y + h = d.height ∧ c.R = 0 ∧ c.G = 0 ∧ c.B = 0 →
      x = 0 ∧ y = 0) :
    ∃ d', d.FillRectangle x y w h c = some (d', none) ∧
      ∀ px py : Int, d'.GetPixel px py =
        if x ≤ px ∧ px < x + w ∧ y ≤ py ∧ py < y + h then some c.isOn
        else d.GetPixel px py := by
  obtain ⟨dW, dH⟩ := hc.dims (by omega) (by omega)
  have e1 : wrap16 (x + w) = x + w := wrap16_of_range (by omega) (by omega)
  have e2 : wrap16 (y + h) = y + h := wrap16_of_range (by omega) (by omega)
  have hg : ¬ (x < 0 ∨ y < 0 ∨ w ≤ 0 ∨ h ≤ 0 ∨ x ≥ d.width ∨ wrap16 (x + w) > d.width ∨
      y ≥ d.height ∨ wrap16 (y + h) > d.height) := by
    rw [e1, e2]; omega
  by_cases hf : wrap16 (x + w) = d.width ∧ wrap16 (y + h) = d.height ∧ c.R = 0 ∧ c.G = 0 ∧
      c.B = 0
  · obtain ⟨d', h1, h2, h3, h4, h5⟩ := Device.FillRectangle_clear d hc.1 x y w h c hg hf
    rw [e1, e2] at hf
    obtain ⟨hx0, hy0⟩ := hwhole hf
    refine ⟨d', h1, ?_⟩
    intro px py
    have hcov : d'.Covered := by
      refine ⟨h2, ?_⟩
      intro a b hab
      unfold Device.InRange at hab
      rw [h3, h5, List.length_replicate]
      rw [h3, h4] at hab
      exact hc.2 a b hab
    rw [Device.GetPixel_zero d' hcov _ h5 px py]
    have hoff : c.isOn = false := by
      unfold RGBA.isOn
      simp [hf.2.2.1, hf.2.2.2.1, hf.2.2.2.2]
    by_cases hin : x ≤ px ∧ px < x + w ∧ y ≤ py ∧ py < y + h
    · rw [if_pos hin, hoff]
    · rw [if_neg hin]
      symm
      apply setPixel_getPixel_outside_aux
      omega
  · obtain ⟨d', h1, -, -, -, -, h2⟩ := Device.fill_loops d hc x y w h c hx hy hw hh hxw hyh
    refine ⟨d', ?_, h2⟩
    unfold Device.FillRectangle
    simp only [Device.Size]
    rw [if_neg hg, if_neg hf, e1, e2, h1]
    rfl


/-- A loop over an `int` counter up to `hi` whose body keeps an invariant returns, and
the invariant holds afterwards. -/
theorem forInt_bounded {σ : Type} (body : Nat → σ → Option σ) (P : Nat → σ → Prop)
    (hi : Nat) (hstep : ∀ i s, i < hi → P i s → ∃ s', body i s = some s' ∧ P (i + 1) s') :
    ∀ (n i : Nat) (s : σ), i + n = hi → P i s →
      ∃ s', forInt body n i s = some s' ∧ P hi s' := by
  intro n
  induction n with
  | zero =>
    intro i s h hP
    have e : i = hi := by omega
    subst e
    exact ⟨s, rfl, hP⟩
  | succ n ih =>
    intro i s h hP
    obtain ⟨s1, hb, h1⟩ := hstep i s (by omega) hP
    obtain ⟨s2, hf, h2⟩ := ih (i + 1) s1 (by omega) h1
    refine ⟨s2, ?_, h2⟩
    show (body i s).bind (forInt body n (i + 1)) = some s2
    rw [hb]; exact hf

/-- One column of the loop of `DrawBitmap`. -/
theorem Device.draw_column (s0 : Device) (W H : Int) (hc : s0.Covered) (hw : s0.width = W)
    (hh : s0.height = H) (X : Int) (hX : 0 ≤ X ∧ X < W) (y : Int) (hy : 0 ≤ y) (bh : Nat)
    (hyh : y + bh ≤ H) (hH : H ≤ 32767) (col : Nat → RGBA) :
    ∃ s, forInt (fun j d => d.SetPixel X (wrap16 (y + wrap16 j)) (col j)) bh 0 s0 = some s ∧
      s.Covered ∧ s.width = W ∧ s.height = H ∧ s.log = s0.log ∧
      ∀ px py : Int, s.GetPixel px py =
        if px = X ∧ y ≤ py ∧ py < y + bh then some (col (py - y).toNat).isOn
        else s0.GetPixel px py := by
  exact forInt_bounded (fun j d => d.SetPixel X (wrap16 (y + wrap16 j)) (col j))
    (fun j s => s.Covered ∧ s.width = W ∧ s.height = H ∧ s.log = s0.log ∧
      ∀ px py : Int, s.GetPixel px py =
        if px = X ∧ y ≤ py ∧ py < y + j then some (col (py - y).toNat).isOn
        else s0.GetPixel px py)
    bh
    (by
      intro j s hj hP
      obtain ⟨sc, sw, sh, sl, sp⟩ := hP
      have e1 : wrap16 (j : Int) = j := wrap16_of_range (by omega) (by omega)
      have e2 : wrap16 (y + j) = y + j := wrap16_of_range (by omega) (by omega)
      obtain ⟨s', f1, c1, w1, h1, l1, g1⟩ :=
        Device.SetPixel_paint s W H sc sw sh X (y + j) hX ⟨by omega, by omega⟩ (col j)
      have f0 : s.SetPixel X (wrap16 (y + wrap16 (j : Int))) (col j) = some s' := by
        rw [e1, e2]; exact f1
      refine ⟨s', f0, c1, w1, h1, l1.trans sl, ?_⟩
      intro px py
      rw [g1 px py, sp px py]
      by_cases h1 : px = X ∧ py = y + j
      · have hidx : (py - y).toNat = j := by omega
        rw [if_pos h1, if_pos (by omega), hidx]
      · rw [if_neg h1]
        by_cases h2 : px = X ∧ y ≤ py ∧ py < y + j
        · rw [if_pos h2, if_pos (by omega)]
        · rw [if_neg h2, if_neg (by omega)])
    bh 0 s0 (by omega) ⟨hc, hw, hh, rfl, fun px py => by rw [if_neg (by omega)]⟩

/-- The method `DrawBitmap` on a covered panel, for a bitmap that fits the panel at the
offset `(x, y)`: it returns nil, every pixel of the area reads as the bitmap pixel
being on, and every other pixel is unchanged. -/
theorem Device.DrawBitmap_paints (d : Device) (hc : d.Covered) (x y : Int) (bitmap : Bitmap)
    (hx : 0 ≤ x) (hy : 0 ≤ y) (hxw : x + bitmap.width ≤ d.width)
    (hyh : y + bitmap.height ≤ d.height) (hw : 0 < bitmap.width) (hh : 0 < bitmap.height) :
    ∃ d', d.DrawBitmap x y bitmap = some (d', none) ∧ d'.log = d.log ∧
      ∀ px py : Int, d'.GetPixel px py =
        if x ≤ px ∧ px < x + bitmap.width ∧ y ≤ py ∧ py < y + bitmap.height then
          some (bitmap.Get (px - x).toNat (py - y).toNat).isOn
        else d.GetPixel px py := by
  obtain ⟨dW, dH⟩ := hc.dims (by omega) (by omega)
  have e1 : wrap16 (bitmap.width : Int) = bitmap.width := wrap16_of_range (by omega) (by omega)
  have e2 : wrap16 (bitmap.height : Int) = bitmap.height :=
    wrap16_of_range (by omega) (by omega)
  have e3 : wrap16 (x + bitmap.width) = x + bitmap.width :=
    wrap16_of_range (by omega) (by omega)
  have e4 : wrap16 (y + bitmap.height) = y + bitmap.height :=
    wrap16_of_range (by omega) (by omega)
  have hg : ¬ (x < 0 ∨ wrap16 (x + wrap16 (bitmap.width : Int)) > d.width ∨ y < 0 ∨
      wrap16 (y + wrap16 (bitmap.height : Int)) > d.height) := by
    rw [e1, e2, e3, e4]; omega
  obtain ⟨d', hl, -, -, -, hlog, hp⟩ := forInt_bounded
    (fun i d => forInt (fun j d =>
        d.SetPixel (wrap16 (x + wrap16 i)) (wrap16 (y + wrap16 j)) (bitmap.Get i j))
        bitmap.height 0 d)
    (fun i s => s.Covered ∧ s.width = d.width ∧ s.height = d.height ∧ s.log = d.log ∧
      ∀ px py : Int, s.GetPixel px py =
        if x ≤ px ∧ px < x + i ∧ y ≤ py ∧ py < y + bitmap.height then
          some (bitmap.Get (px - x).toNat (py - y).toNat).isOn
        else d.GetPixel px py)
    bitmap.width
    (by
      intro i s hi hP
      obtain ⟨sc, sw, sh, sl, sp⟩ := hP
      have f1 : wrap16 (i : Int) = i := wrap16_of_range (by omega) (by omega)
      have f2 : wrap16 (x + i) = x + i := wrap16_of_range (by omega) (by omega)
      obtain ⟨s', g0, c1, w1, h1, l1, g1⟩ := Device.draw_column s d.width d.height sc sw sh
        (x + i) ⟨by omega, by omega⟩ y hy bitmap.height hyh dH (fun j => bitmap.Get i j)
      have g2 : forInt (fun j d =>
          d.SetPixel (wrap16 (x + wrap16 (i : Int))) (wrap16 (y + wrap16 j)) (bitmap.Get i j))
          bitmap.height 0 s = some s' := by
        rw [f1, f2]; exact g0
      refine ⟨s', g2, c1, w1, h1, l1.trans sl, ?_⟩
      intro px py
      rw [g1 px py, sp px py]
      by_cases h1 : px = x + i ∧ y ≤ py ∧ py < y + bitmap.height
      · have hidx : (px - x).toNat = i := by omega
        rw [if_pos h1, if_pos (by omega), hidx]
      · rw [if_neg h1]
        by_cases h2 : x ≤ px ∧ px < x + i ∧ y ≤ py ∧ py < y + bitmap.height
        · rw [if_pos h2, if_pos (by omega)]
        · rw [if_neg h2, if_neg (by omega)])
    bitmap.width 0 d (by omega) ⟨hc, rfl, rfl, rfl, fun px py => by rw [if_neg (by omega)]⟩
  refine ⟨d', ?_, hlog, hp⟩
  unfold Device.DrawBitmap
  simp only []
  rw [if_neg hg, hl]
  rfl

/-! ## C11: `SetRotation` -/

/-- What a sequence of commands on a configured device sends and leaves alone. -/
theorem Device.afterCommands_received (d : Device) (hd : d.Configured) (cs : List Nat)
    (dc : Bool) :
    received dc (eventsSince d.log (d.afterCommands cs)) = cs.map Received.cmd ∧
    (d.afterCommands cs).buffer = d.buffer ∧ (d.afterCommands cs).Configured := by
  obtain ⟨r, -, hh, len, lg, vw, w, h, -, -, -, -, -, bf⟩ :=
    Device.afterCommands_spec d cs hd.ready
  refine ⟨?_, bf hd.1, ⟨?_, ?_, ?_⟩⟩
  · rw [eventsSince_of_log lg]
    obtain ⟨dc', e⟩ := received_commands d.bus cs dc []
    rw [List.append_nil] at e
    rw [e]; simp [received]
  · rw [vw, hh]; exact hd.1
  · rw [vw, len]; exact hd.2.1
  · rw [bf hd.1, w, h]; exact hd.2.2

/-- C11: on a configured device, for every rotation value `r` (the two rotation
constants being distinct, as the `switch` of the source requires), `SetRotation(r)`
returns nil; the controller receives exactly two command bytes, `0xA0` then `0xC0` when
`r` is `Rotation180`, and `0xA1` then `0xC8` for every other value; every byte of the
framebuffer is unchanged; and `Rotation()` afterwards returns `r`. -/
theorem setRotation_spec (K : Consts) (hK : K.Rotation0 ≠ K.Rotation180) (d : Device)
    (hd : d.Configured) (r : Nat) (dc : Bool) :
    ∃ d', d.SetRotation K r = some (d', none) ∧
      received dc (eventsSince d.log d') =
        (if r = K.Rotation180 then [Received.cmd 0xA0, Received.cmd 0xC0]
         else [Received.cmd 0xA1, Received.cmd 0xC8]) ∧
      d'.buffer = d.buffer ∧ d'.Rotation = r := by
  have hd2 : ({ d with rotation := r } : Device).Configured := hd
  obtain ⟨h1, h2, -⟩ := Device.afterCommands_received _ hd2 (rotationBytes K r) dc
  obtain ⟨-, -, -, -, -, -, -, -, -, -, -, -, hrot, -⟩ :=
    Device.afterCommands_spec ({ d with rotation := r } : Device) (rotationBytes K r) hd.ready
  refine ⟨_, Device.SetRotation_eq K d r hd.ready, ?_, h2, hrot⟩
  have hl : ({ d with rotation := r } : Device).log = d.log := rfl
  rw [hl] at h1
  rw [h1]
  unfold rotationBytes
  by_cases h180 : r = K.Rotation180
  · have h0 : ¬ r = K.Rotation0 := by rw [h180]; exact fun e => hK e.symm
    rw [if_neg h0, if_pos h180, if_pos h180]
    rfl
  · by_cases h0 : r = K.Rotation0
    · rw [if_pos h0, if_neg h180]; rfl
    · rw [if_neg h0, if_neg h180, if_neg h180]; rfl

set_option maxRecDepth 100000 in
/-- C11, witness: on the default SPI panel, `SetRotation(Rotation0)` sends `0xA1, 0xC8`
and `SetRotation(Rotation180)` sends `0xA0, 0xC0`. -/
theorem setRotation_spec_witness :
    K0.Rotation0 ≠ K0.Rotation180 ∧
    ∃ d, spi128x64 = some d ∧ d.Configured ∧
      (∃ d', d.SetRotation K0 K0.Rotation0 = some (d', none) ∧
        received false (eventsSince d.log d') = [Received.cmd 0xA1, Received.cmd 0xC8] ∧
        d'.buffer = d.buffer ∧ d'.Rotation = K0.Rotation0) ∧
      (∃ d', d.SetRotation K0 K0.Rotation180 = some (d', none) ∧
        received false (eventsSince d.log d') = [Received.cmd 0xA0, Received.cmd 0xC0] ∧
        d'.buffer = d.buffer ∧ d'.Rotation = K0.Rotation180) := by
  have hc : (spi128x64.getD (NewSPI idleWire)).Configured := by decide
  refine ⟨by decide, spi128x64.getD (NewSPI idleWire), by decide, hc, ?_, ?_⟩
  · obtain ⟨d', h1, h2, h3, h4⟩ := setRotation_spec K0 (by decide) _ hc K0.Rotation0 false
    exact ⟨d', h1, by rw [h2]; decide, h3, h4⟩
  · obtain ⟨d', h1, h2, h3, h4⟩ := setRotation_spec K0 (by decide) _ hc K0.Rotation180 false
    exact ⟨d', h1, by rw [h2]; decide, h3, h4⟩

/-! ## C19: `Sleep` -/

/-- C19: on a configured device, on either backend, `Sleep(enable)` returns nil, the
controller receives exactly one command byte, `0xAE` when `enable` is true and `0xAF`
when it is false, and every byte of the framebuffer is unchanged; the same holds for
every command byte `c` sent with `Command`: only the header bytes in front of the
framebuffer view are written. -/
theorem sleep_spec (d : Device) (hd : d.Configured) (enable : Bool) (dc : Bool) :
    (∃ d', d.Sleep enable = some (d', none) ∧
      received dc (eventsSince d.log d') = [Received.cmd (if enable then 0xAE else 0xAF)] ∧
      d'.buffer = d.buffer) ∧
    ∀ c : Nat, ∃ d', d.Command c = some d' ∧
      received dc (eventsSince d.log d') = [Received.cmd c] ∧ d'.buffer = d.buffer ∧
      d'.bus.buffer.drop d.bus.header = d.bus.buffer.drop d.bus.header ∧
      d'.bus.buffer.length = d.bus.buffer.length := by
  have hcmd : ∀ c : Nat, d.Command c = some (d.afterCommand c) ∧
      received dc (eventsSince d.log (d.afterCommand c)) = [Received.cmd c] ∧
      (d.afterCommand c).buffer = d.buffer := by
    intro c
    obtain ⟨h1, h2, -⟩ := Device.afterCommands_received d hd [c] dc
    exact ⟨Device.Command_eq d c hd.ready, h1, h2⟩
  constructor
  · cases enable
    · obtain ⟨h1, h2, h3⟩ := hcmd DISPLAYON
      refine ⟨d.afterCommand DISPLAYON, ?_, h2, h3⟩
      simp [Device.Sleep, h1]
    · obtain ⟨h1, h2, h3⟩ := hcmd DISPLAYOFF
      refine ⟨d.afterCommand DISPLAYOFF, ?_, h2, h3⟩
      simp [Device.Sleep, h1]
  · intro c
    obtain ⟨h1, h2, h3⟩ := hcmd c
    exact ⟨_, h1, h2, h3, Bus.drop_afterCommand d.bus c, Bus.length_afterCommand d.bus c⟩

set_option maxRecDepth 100000 in
/-- C19, witness: on the default I2C panel `Sleep(true)` sends `0xAE`, `Sleep(false)`
sends `0xAF`, and the framebuffer stays all zero. -/
theorem sleep_spec_witness :
    ∃ d, i2c128x64 = some d ∧ d.Configured ∧
      (∃ d', d.Sleep true = some (d', none) ∧
        received false (eventsSince d.log d') = [Received.cmd 0xAE] ∧
        d'.buffer = List.replicate 1024 0) ∧
      (∃ d', d.Sleep false = some (d', none) ∧
        received false (eventsSince d.log d') = [Received.cmd 0xAF] ∧
        d'.buffer = List.replicate 1024 0) := by
  have hc : (i2c128x64.getD (NewSPI idleWire)).Configured := by decide
  have hb : (i2c128x64.getD (NewSPI idleWire)).buffer = List.replicate 1024 0 := by decide
  refine ⟨i2c128x64.getD (NewSPI idleWire), by decide, hc, ?_, ?_⟩
  · obtain ⟨⟨d', h1, h2, h3⟩, -⟩ := sleep_spec _ hc true false
    exact ⟨d', h1, h2, h3.trans hb⟩
  · obtain ⟨⟨d', h1, h2, h3⟩, -⟩ := sleep_spec _ hc false false
    exact ⟨d', h1, h2, h3.trans hb⟩

/-! ## C12: the settings `Configure` establishes -/

theorem toUint8_pred (n : Int) : (toUint8 n + 255) % 256 = toUint8 (n - 1) := by
  unfold toUint8; omega

set_option maxRecDepth 100000 in
/-- C12, as stated, fails: for the configuration 1024x64 `Configure` returns, `Size()`
is `(1024, 64)`, but the reset column range is `{0, 255}`, not `[0, 1023]` (the range is
two bytes), and the buffer requested from the bus, which is the framebuffer, has 0
bytes, not `1024*64/8 = 8192` (`int16` arithmetic). -/
theorem configure_settings_wrap :
    ∃ d, Device.Configure K0 (NewSPI idleWire) cfg1024x64 = some d ∧ d.Size = (1024, 64) ∧
      cfg1024x64.ResetCol = (0, 0) ∧ d.resetCol = (0, 255) ∧ ¬ ((255 : Int) = 1024 - 1) ∧
      cfg1024x64.bufferSize = 0 ∧ d.buffer.length = 0 ∧ ¬ ((0 : Int) = 1024 * 64 / 8) :=
  ⟨(Device.Configure K0 (NewSPI idleWire) cfg1024x64).getD (NewSPI idleWire),
    by decide, by decide, by decide, by decide, by decide, by decide, by decide, by decide⟩

/-- C12 (amended): after `Configure(cfg)` has returned, `Size()` is `(cfg.Width, or 128
when it is 0; cfg.Height, or 64 when it is 0)`, each defaulted on its own; the VCC mode
is `SWITCHCAPVCC` when `cfg.VccState` is 0 and `cfg.VccState` otherwise; the reset
column range is `cfg.ResetCol` when that is not the zero value and `{0, (width-1) mod
256}` otherwise; the reset page range is `cfg.ResetPage` when that is not the zero value
and `{0, (height/8 - 1) mod 256}` otherwise; the framebuffer, the buffer requested from
the bus, has `width*height/8` bytes in `int16` arithmetic.  The reductions are the
identity for `1 ≤ width ≤ 256`, `8 ≤ height ≤ 2055` and `0 ≤ width*height ≤ 32767`. -/
theorem configure_settings (K : Consts) (d0 : Device) (cfg : Config) (d : Device)
    (hconf : d0.Configure K cfg = some d) :
    d.Size = (if cfg.Width = 0 then 128 else cfg.Width,
      if cfg.Height = 0 then 64 else cfg.Height) ∧
    d.vccState = (if cfg.VccState = 0 then K.SWITCHCAPVCC else cfg.VccState) ∧
    d.resetCol = (if cfg.ResetCol = (0, 0) then (0, toUint8 (d.width - 1))
      else cfg.ResetCol) ∧
    d.resetPage = (if cfg.ResetPage = (0, 0) then (0, toUint8 (d.height.tdiv 8 - 1))
      else cfg.ResetPage) ∧
    (d.buffer.length : Int) = (wrap16 (d.width * d.height)).tdiv 8 ∧
    (1 ≤ d.width ∧ d.width ≤ 256 → (toUint8 (d.width - 1) : Int) = d.width - 1) ∧
    (8 ≤ d.height ∧ d.height ≤ 2055 →
      (toUint8 (d.height.tdiv 8 - 1) : Int) = d.height / 8 - 1) ∧
    (0 ≤ d.width * d.height ∧ d.width * d.height ≤ 32767 →
      (d.buffer.length : Int) = d.width * d.height / 8) := by
  obtain ⟨d', h1, hc, hw, hh, hv, -, hrc, hrp, -, -, -, -⟩ :=
    Device.Configure_spec K d0 cfg (Device.bufferSize_nonneg_of_Configure hconf)
  rw [hconf] at h1
  cases h1
  have hlen : (d.buffer.length : Int) = (wrap16 (d.width * d.height)).tdiv 8 := hc.2.2
  refine ⟨?_, ?_, ?_, ?_, hlen, ?_, ?_, ?_⟩
  · unfold Device.Size
    rw [hw, hh]
    unfold Config.effWidth Config.effHeight
    by_cases h1 : cfg.Width = 0 <;> by_cases h2 : cfg.Height = 0 <;> simp [h1, h2]
  · rw [hv]; unfold Config.effVcc
    by_cases h1 : cfg.VccState = 0 <;> simp [h1]
  · rw [hrc, hw, toUint8_wrap16]
    by_cases h1 : cfg.ResetCol = (0, 0)
    · rw [if_neg (not_not.mpr h1), if_pos h1]
    · rw [if_pos h1, if_neg h1]
  · rw [hrp, hh, toUint8_pred]
    by_cases h1 : cfg.ResetPage = (0, 0)
    · rw [if_neg (not_not.mpr h1), if_pos h1]
    · rw [if_pos h1, if_neg h1]
  · intro h; unfold toUint8; omega
  · intro h
    rw [tdiv8_of_nonneg (by omega)]
    unfold toUint8; omega
  · intro h
    rw [hlen, wrap16_of_range (by omega) h.2, tdiv8_of_nonneg h.1]

set_option maxRecDepth 100000 in
/-- C12, witness: the zero configuration on the I2C backend gives the size 128x64,
internal VCC, the reset ranges `{0, 127}` and `{0, 7}` and a framebuffer of 1024
bytes. -/
theorem configure_settings_witness :
    ∃ d, Device.Configure K0 (NewI2C K0 idleWire) cfgDefault = some d ∧
      d.Size = (128, 64) ∧ d.vccState = K0.SWITCHCAPVCC ∧ d.resetCol = (0, 127) ∧
      d.resetPage = (0, 7) ∧ d.buffer.length = 1024 := by
  have hc : Device.Configure K0 (NewI2C K0 idleWire) cfgDefault
      = some ((Device.Configure K0 (NewI2C K0 idleWire) cfgDefault).getD (NewSPI idleWire)) := by
    decide
  obtain ⟨h1, h2, h3, h4, -⟩ := configure_settings K0 _ cfgDefault _ hc
  exact ⟨_, hc, h1, h2, by rw [h3]; decide, by rw [h4]; decide, by decide⟩

/-! ## C13: the flush of the I2C backend -/

theorem Wire.transfer_snd (w : Wire) (e : Event) : (w.transfer e).2 = w.next := by
  unfold Wire.transfer Wire.next
  cases w.pending <;> rfl

/-- Every step keeps the length of the transmission buffer. -/
theorem I2CBus.length_run (ops : List I2COp) :
    ∀ (b b' : I2CBus), b.run ops = some b' → b'.buffer.length = b.buffer.length := by
  induction ops with
  | nil => intro b b' h; cases h; rfl
  | cons op ops ih =>
    intro b b' h
    cases op with
    | command c =>
      by_cases h2 : 2 ≤ b.buffer.length
      · simp only [I2CBus.run, I2CBus.command, if_pos h2, Option.some_bind] at h
        rw [ih _ _ h]; simp
      · simp [I2CBus.run, I2CBus.command, h2] at h
    | write i v =>
      by_cases h2 : 2 + i < b.buffer.length
      · simp only [I2CBus.run, I2CBus.write, if_pos h2, Option.some_bind] at h
        rw [ih _ _ h]; simp
      · simp [I2CBus.run, I2CBus.write, h2] at h
    | flush =>
      by_cases h2 : 2 ≤ b.buffer.length
      · simp only [I2CBus.run, I2CBus.flush, if_pos h2, Option.some_bind] at h
        rw [ih _ _ h]; simp
      · simp [I2CBus.run, I2CBus.flush, h2] at h

/-- C13: on the I2C backend, after `configure(address, size)` has returned (for an
`int16` size) and after any sequence of commands, stores through the image buffer
and flushes, a flush returns; it performs exactly one bus write, of `size+1` bytes,
whose first byte is `0x40` and whose remaining `size` bytes are the current content of
the image buffer `b.buffer[2:]`, in order; it returns the error of that bus write; and
the image buffer is the same afterwards. -/
theorem i2c_flush_spec (b0 : I2CBus) (address : Nat) (size : Int) (b : I2CBus) (view : Nat)
    (ops : List I2COp) (b1 : I2CBus)
    (hsize : -32768 ≤ size ∧ size ≤ 32767)
    (hconf : b0.configure address size = some (b, view)) (hrun : b.run ops = some b1) :
    view = 2 ∧ 0 ≤ size ∧ ((b1.buffer.drop 2).length : Int) = size ∧
    ∃ b2, b1.flush = some (b2, b1.wire.next) ∧
      b2.wire.log = b1.wire.log ++ [Event.i2cTx b1.address (0x40 :: b1.buffer.drop 2)] ∧
      ((0x40 :: b1.buffer.drop 2).length : Int) = size + 1 ∧
      b2.buffer.drop 2 = b1.buffer.drop 2 := by
  have hlen := I2CBus.length_run ops b b1 hrun
  have hb : view = 2 ∧ 2 ≤ b.buffer.length ∧ (b.buffer.length : Int) = size + 2 := by
    unfold I2CBus.configure makeBytes at hconf
    by_cases hn : wrap16 (size + 2) < 0
    · simp [hn] at hconf
    · have hw : wrap16 (size + 2) = size + 2 := by unfold wrap16 at hn ⊢; omega
      simp only [hn, if_false, Option.pure_def, Option.bind_eq_bind, Option.some_bind] at hconf
      by_cases h2 : 2 ≤ (List.replicate (wrap16 (size + 2)).toNat (0 : Nat)).length
      · rw [if_pos h2] at hconf
        simp only [Option.some.injEq, Prod.mk.injEq] at hconf
        obtain ⟨hb, hv⟩ := hconf
        subst hb
        simp only [List.length_replicate] at h2 ⊢
        refine ⟨hv.symm, h2, ?_⟩
        rw [hw] at h2 ⊢
        omega
      · rw [if_neg h2] at hconf
        exact Option.noConfusion hconf
  obtain ⟨hv, h2, hl⟩ := hb
  have h21 : 2 ≤ b1.buffer.length := by omega
  refine ⟨hv, by omega, by simp only [List.length_drop]; omega, ?_⟩
  have hf : b1.flush = some (⟨(b1.wire.transfer
      (Event.i2cTx b1.address ((b1.buffer.set 1 0x40).drop 1))).1, b1.address,
      b1.buffer.set 1 0x40⟩, b1.wire.next) := by
    unfold I2CBus.flush
    rw [if_pos h21]
    simp only [Wire.transfer_snd]
  refine ⟨_, hf, ?_, ?_, ?_⟩
  · simp [Wire.log_transfer, tail_set_one _ _ h21]
  · simp only [List.length_cons, List.length_drop]; omega
  · simp [drop_two_set_one]

/-- C13, witness: after `configure(0, 4)`, the command `0xAE` and the store of `0xFF`
into byte 1 of the image buffer, the flush writes the five bytes `0x40, 0, 0xFF, 0, 0`
once and returns the error of that write. -/
theorem i2c_flush_spec_witness :
    ((-32768 : Int) ≤ 4 ∧ (4 : Int) ≤ 32767) ∧
    ∃ b b1, i2cSample.configure 0 4 = some (b, 2) ∧
      b.run [I2COp.command 0xAE, I2COp.write 1 0xFF] = some b1 ∧
      ∃ b2, b1.flush = some (b2, some (Error.transport 5)) ∧
        b2.wire.log = b1.wire.log ++ [Event.i2cTx 0x3C [0x40, 0, 0xFF, 0, 0]] := by
  have hc : i2cSample.configure 0 4
      = some (((i2cSample.configure 0 4).getD (i2cSample, 0)).1, 2) := by decide
  have hr : ((i2cSample.configure 0 4).getD (i2cSample, 0)).1.run
      [I2COp.command 0xAE, I2COp.write 1 0xFF]
      = some ((((i2cSample.configure 0 4).getD (i2cSample, 0)).1.run
        [I2COp.command 0xAE, I2COp.write 1 0xFF]).getD i2cSample) := by
    decide
  obtain ⟨-, -, -, b2, h1, h2, -, -⟩ := i2c_flush_spec i2cSample 0 4 _ 2 _ _ (by decide) hc hr
  have hn : ((((i2cSample.configure 0 4).getD (i2cSample, 0)).1.run
      [I2COp.command 0xAE, I2COp.write 1 0xFF]).getD i2cSample).wire.next
      = some (Error.transport 5) := by decide
  have ha : ((((i2cSample.configure 0 4).getD (i2cSample, 0)).1.run
      [I2COp.command 0xAE, I2COp.write 1 0xFF]).getD i2cSample).address = 0x3C := by decide
  have hb : ((((i2cSample.configure 0 4).getD (i2cSample, 0)).1.run
      [I2COp.command 0xAE, I2COp.write 1 0xFF]).getD i2cSample).buffer.drop 2
      = [0, 0xFF, 0, 0] := by decide
  rw [hn] at h1
  rw [ha, hb] at h2
  exact ⟨by decide, _, _, hc, hr, b2, h1, h2⟩

/-! ## C14: the transfers of the SPI backend -/

theorem Wire.pending_emit (w : Wire) (e : Event) : (w.emit e).pending = w.pending := rfl

/-- C14: on the SPI backend every call `tx(data, isCommand)` appends exactly the events
chip-select high, data/command line low if `isCommand` and high otherwise, chip-select
low, one bus transfer of `data`, chip-select high; it returns the error of that
transfer and leaves the buffer alone; the data/command line does not change while
chip-select is low, whatever the state before the call; and `command(c)` and `flush`,
when they return, are such calls, with the data `[c]` as a command and with the image
buffer `b.buffer[1:]` as data. -/
theorem spi_tx_events (b : SPIBus) (data : List Nat) (isCommand : Bool) :
    ((b.tx data isCommand).1.wire.log = b.wire.log ++
        [Event.csPin true, Event.dcPin (!isCommand), Event.csPin false, Event.spiTx data,
          Event.csPin true] ∧
      (b.tx data isCommand).2 = b.wire.next ∧ (b.tx data isCommand).1.buffer = b.buffer ∧
      ∀ selected, dcQuietWhileSelected selected
        [Event.csPin true, Event.dcPin (!isCommand), Event.csPin false, Event.spiTx data,
          Event.csPin true] = true) ∧
    (∀ c : Nat, 1 ≤ b.buffer.length →
      b.command c = some (SPIBus.tx { b with buffer := b.buffer.set 0 c } [c] true) ∧
      ∃ b', b.command c = some (b', b.wire.next) ∧ b'.wire.log = b.wire.log ++
        [Event.csPin true, Event.dcPin false, Event.csPin false, Event.spiTx [c],
          Event.csPin true]) ∧
    (1 ≤ b.buffer.length →
      b.flush = some (b.tx (b.buffer.drop 1) false) ∧
      ∃ b', b.flush = some (b', b.wire.next) ∧ b'.wire.log = b.wire.log ++
        [Event.csPin true, Event.dcPin true, Event.csPin false, Event.spiTx (b.buffer.drop 1),
          Event.csPin true]) := by
  have htx : ∀ (b : SPIBus) (data : List Nat) (isCommand : Bool),
      (b.tx data isCommand).1.wire.log = b.wire.log ++
        [Event.csPin true, Event.dcPin (!isCommand), Event.csPin false, Event.spiTx data,
          Event.csPin true] ∧
      (b.tx data isCommand).2 = b.wire.next ∧ (b.tx data isCommand).1.buffer = b.buffer := by
    intro b data isCommand
    refine ⟨?_, ?_, rfl⟩
    · simp [SPIBus.tx, Wire.emit, Wire.log_transfer]
    · simp [SPIBus.tx, Wire.transfer_snd, Wire.next, Wire.pending_emit]
  refine ⟨⟨(htx b data isCommand).1, (htx b data isCommand).2.1, (htx b data isCommand).2.2, ?_⟩,
    ?_, ?_⟩
  · intro selected
    cases selected <;> cases isCommand <;> rfl
  · intro c h1
    have e : b.command c = some (SPIBus.tx { b with buffer := b.buffer.set 0 c } [c] true) := by
      unfold SPIBus.command
      rw [if_pos h1]
      simp only [take_one_set _ _ h1]
    refine ⟨e, (SPIBus.tx { b with buffer := b.buffer.set 0 c } [c] true).1, ?_,
      (htx { b with buffer := b.buffer.set 0 c } [c] true).1⟩
    rw [e]
    exact congrArg some (Prod.ext rfl (htx { b with buffer := b.buffer.set 0 c } [c] true).2.1)
  · intro h1
    have e : b.flush = some (b.tx (b.buffer.drop 1) false) := by
      unfold SPIBus.flush
      rw [if_pos h1]
    refine ⟨e, (b.tx (b.buffer.drop 1) false).1, ?_, (htx b (b.buffer.drop 1) false).1⟩
    rw [e]
    exact congrArg some (Prod.ext rfl (htx b (b.buffer.drop 1) false).2.1)

/-! ## The results of the transfers -/

theorem Wire.pending_transfer (w : Wire) (e : Event) :
    (w.transfer e).1.pending = w.pending.tail := by
  unfold Wire.transfer
  cases w.pending <;> rfl

/-- The interface call `command` returns the result of its transfer. -/
theorem Bus.command_error (bus : Bus) (c : Nat) (h : bus.Ready) :
    bus.command c = some (bus.afterCommand c, bus.wire.next) := by
  cases bus with
  | i2c b =>
    have h2 : 2 ≤ b.buffer.length := h
    simp [Bus.command, Bus.afterCommand, I2CBus.command, h2, Bus.wire, Wire.transfer_snd]
  | spi b =>
    have h1 : 1 ≤ b.buffer.length := h
    simp [Bus.command, Bus.afterCommand, SPIBus.command, h1, Bus.wire, SPIBus.tx,
      Wire.transfer_snd, Wire.next, Wire.pending_emit]

/-- A command consumes one pending result. -/
theorem Bus.pending_afterCommand (bus : Bus) (c : Nat) (h : bus.Ready) :
    (bus.afterCommand c).wire.pending = bus.wire.pending.tail := by
  cases bus with
  | i2c b =>
    have h2 : 2 ≤ b.buffer.length := h
    simp [Bus.command, Bus.afterCommand, I2CBus.command, h2, Bus.wire, Wire.pending_transfer]
  | spi b =>
    have h1 : 1 ≤ b.buffer.length := h
    simp [Bus.command, Bus.afterCommand, SPIBus.command, h1, Bus.wire, SPIBus.tx,
      Wire.pending_transfer, Wire.pending_emit]

/-- A sequence of commands consumes one pending result a command. -/
theorem Device.pending_afterCommands (d : Device) (cs : List Nat) (h : d.bus.Ready) :
    (d.afterCommands cs).bus.wire.pending = d.bus.wire.pending.drop cs.length := by
  induction cs generalizing d with
  | nil => simp
  | cons c cs ih =>
    rw [Device.afterCommands_cons, ih _ (d.ready_afterCommand c h)]
    show (d.bus.afterCommand c).wire.pending.drop cs.length = _
    rw [Bus.pending_afterCommand d.bus c h, List.length_cons]
    cases d.bus.wire.pending <;> simp

/-- The interface call `flush` returns the result of its transfer. -/
theorem Bus.flush_error (bus : Bus) (h : bus.Ready) :
    ∃ bus', bus.flush = some (bus', bus.wire.next) := by
  cases bus with
  | i2c b =>
    have h2 : 2 ≤ b.buffer.length := h
    simp [Bus.flush, I2CBus.flush, h2, Bus.wire, Wire.transfer_snd]
  | spi b =>
    have h1 : 1 ≤ b.buffer.length := h
    simp [Bus.flush, SPIBus.flush, h1, Bus.wire, SPIBus.tx, Wire.transfer_snd, Wire.next,
      Wire.pending_emit]

theorem goCopy_length (dst src : List Nat) : (goCopy dst src).length = dst.length := by
  unfold goCopy
  simp only [List.length_append, List.length_take, List.length_drop]
  omega

/-- The interface call `tx` on a bus whose header bytes are allocated: it returns the
result of its transfer, and keeps the length of the transmission buffer; the bytes
behind the header are overwritten with the data on the I2C backend when the data is not
a command, and unchanged otherwise. -/
theorem Bus.tx_spec (bus : Bus) (h : bus.Ready) (data : List Nat) (isCommand : Bool)
    (hdata : isCommand = true → data ≠ []) :
    ∃ bus', bus.tx data isCommand = some (bus', bus.wire.next) ∧
      bus'.header = bus.header ∧ bus'.buffer.length = bus.buffer.length ∧
      bus'.buffer.drop bus.header =
        (if bus.isI2C = true ∧ isCommand = false then goCopy (bus.buffer.drop bus.header) data
          else bus.buffer.drop bus.header) := by
  cases isCommand with
  | true =>
    obtain ⟨c, cs, rfl⟩ : ∃ c cs, data = c :: cs := by
      cases data with
      | nil => exact absurd rfl (hdata rfl)
      | cons c cs => exact ⟨c, cs, rfl⟩
    cases bus with
    | i2c b =>
      have h2 : 2 ≤ b.buffer.length := h
      simp [Bus.tx, I2CBus.tx, I2CBus.command, h2, Bus.wire, Wire.transfer_snd, Bus.header,
        Bus.buffer, drop_two_set, Bus.isI2C]
    | spi b =>
      simp [Bus.tx, SPIBus.tx, Bus.wire, Wire.transfer_snd, Wire.next, Wire.pending_emit,
        Bus.header, Bus.buffer, Bus.isI2C]
  | false =>
    cases bus with
    | i2c b =>
      have h2 : 2 ≤ b.buffer.length := h
      have h3 : 2 ≤ (b.buffer.take 2 ++ goCopy (b.buffer.drop 2) data).length := by
        simp only [List.length_append, List.length_take, goCopy_length, List.length_drop]
        omega
      have h4 : (b.buffer.take 2 ++ goCopy (b.buffer.drop 2) data).length = b.buffer.length := by
        simp only [List.length_append, List.length_take, goCopy_length, List.length_drop]
        omega
      have h5 : (b.buffer.take 2 ++ goCopy (b.buffer.drop 2) data).drop 2
          = goCopy (b.buffer.drop 2) data := by
        rw [List.drop_append_of_le_length (by simp; omega)]
        simp [List.drop_take]
      have h6 : 2 + (goCopy (b.buffer.drop 2) data).length = b.buffer.length := by
        rw [goCopy_length, List.length_drop]; omega
      simp [Bus.tx, I2CBus.tx, I2CBus.flush, h2, h3, Bus.wire, Wire.transfer_snd, Bus.header,
        Bus.buffer, drop_two_set_one, h4, h5, h6, Bus.isI2C]
    | spi b =>
      simp [Bus.tx, SPIBus.tx, Bus.wire, Wire.transfer_snd, Wire.next, Wire.pending_emit,
        Bus.header, Bus.buffer, Bus.isI2C]

/-- The method `Display` on a device whose header bytes are allocated returns the result
of the flush: the seventh pending result when the six addressing commands are sent, the
first otherwise. -/
theorem Device.Display_error (d : Device) (h : d.bus.Ready) :
    ∃ d', d.Display
      = some (d', (d.bus.wire.pending.drop (if d.canReset then 6 else 0)).headD none) := by
  cases hcr : d.canReset
  · obtain ⟨bus', hf⟩ := Bus.flush_error d.bus h
    unfold Device.Display
    simp only [hcr, Bool.false_eq_true, if_false, List.drop_zero, bind, pure, Option.some_bind,
      Option.bind, hf]
    exact ⟨_, rfl⟩
  · have hs := Device.display_reset d h
    obtain ⟨r, -⟩ := Device.afterCommands_spec d
      [0x21, d.resetCol.1, d.resetCol.2, 0x22, d.resetPage.1, d.resetPage.2] h
    have hp := Device.pending_afterCommands d
      [0x21, d.resetCol.1, d.resetCol.2, 0x22, d.resetPage.1, d.resetPage.2] h
    obtain ⟨bus', hf⟩ := Bus.flush_error _ r
    unfold Wire.next at hf
    rw [hp] at hf
    unfold Device.Display
    simp only [hcr, if_true, bind, hs, Option.some_bind, hf]
    exact ⟨_, rfl⟩

/-! ## C15: which transfer errors reach the caller -/

set_option maxRecDepth 100000 in
/-- C15, as stated, fails: on the default I2C panel, on a hardware whose next transfer
fails with an error, `Sleep(true)` performs exactly one transfer, the command `0xAE`,
that transfer's result (the error) is consumed, and `Sleep` returns nil. -/
theorem sleep_drops_error :
    ∃ d d', i2cFlaky = some d ∧ d.Configured ∧
      d.bus.wire.next = some (Error.transport 7) ∧
      d.Sleep true = some (d', none) ∧
      eventsSince d.log d' = [Event.i2cTx 0x3D [0x00, 0xAE]] ∧
      d'.bus.wire.pending = [] :=
  ⟨i2cFlaky.getD (NewSPI idleWire),
    ((i2cFlaky.getD (NewSPI idleWire)).Sleep true).getD (NewSPI idleWire, none) |>.1,
    by decide, by decide, by decide, by decide, by decide, by decide⟩

/-- C15 (amended): on a configured device, on either backend: `Display` returns the
result of its last transfer, the flush (the results of the six addressing commands
before it, when they are sent, are consumed and dropped); `Tx` returns the result of its
one transfer; `SetRotation` and `Sleep` send their commands with `Command`, which has no
result, consume the results of their two and one transfers and return nil; and
`FillRectangle` returns `errOutOfRange` or nil, never the result of a transfer. -/
theorem transfer_errors (K : Consts) (d : Device) (hd : d.Configured) :
    (∃ d', d.Display
      = some (d', (d.bus.wire.pending.drop (if d.canReset then 6 else 0)).headD none)) ∧
    (∀ (data : List Nat) (isCommand : Bool), (isCommand = true → data ≠ []) →
      ∃ d', d.Tx data isCommand = some (d', d.bus.wire.next)) ∧
    (∀ r : Nat, ∃ d', d.SetRotation K r = some (d', none) ∧
      d'.bus.wire.pending = d.bus.wire.pending.drop 2) ∧
    (∀ enable : Bool, ∃ d', d.Sleep enable = some (d', none) ∧
      d'.bus.wire.pending = d.bus.wire.pending.drop 1) ∧
    (∀ (x y w h : Int) (c : RGBA) (r : Device × Option Error),
      d.FillRectangle x y w h c = some r → r.2 = none ∨ r.2 = some Error.errOutOfRange) := by
  have hr := hd.ready
  refine ⟨Device.Display_error d hr, ?_, ?_, ?_, ?_⟩
  · intro data isCommand hdata
    obtain ⟨bus', ht, -⟩ := Bus.tx_spec d.bus hr data isCommand hdata
    exact ⟨{ d with bus := bus' }, by simp [Device.Tx, ht]⟩
  · intro r
    refine ⟨_, Device.SetRotation_eq K d r hr, ?_⟩
    have hp := Device.pending_afterCommands ({ d with rotation := r } : Device)
      (rotationBytes K r) hr
    rw [hp]
    have hl : (rotationBytes K r).length = 2 := by
      unfold rotationBytes; split_ifs <;> rfl
    rw [hl]
  · intro enable
    have hc : ∀ c : Nat, (d.afterCommand c).bus.wire.pending = d.bus.wire.pending.drop 1 := by
      intro c
      have := Device.pending_afterCommands d [c] hr
      simpa using this
    cases enable
    · exact ⟨d.afterCommand DISPLAYON, by simp [Device.Sleep, Device.Command_eq d _ hr],
        hc _⟩
    · exact ⟨d.afterCommand DISPLAYOFF, by simp [Device.Sleep, Device.Command_eq d _ hr],
        hc _⟩
  · intro x y w h c r hfr
    unfold Device.FillRectangle at hfr
    simp only at hfr
    split_ifs at hfr with h1 h2
    · cases hfr; exact Or.inr rfl
    · cases hcd : d.ClearDisplay with
      | none => rw [hcd] at hfr; cases hfr
      | some d1 => rw [hcd] at hfr; cases hfr; exact Or.inl rfl
    · revert hfr
      generalize forInt16 _ _ _ _ _ = o
      intro hfr
      cases o with
      | none => cases hfr
      | some d1 => cases hfr; exact Or.inl rfl

set_option maxRecDepth 100000 in
/-- C15, witness: on the 72x40 SPI panel, on a hardware whose next six transfers fail
with one error and the seventh with another, `Display` returns the seventh, the error of
the flush; on the default I2C panel whose next transfer fails, `Tx` returns that
error. -/
theorem transfer_errors_witness :
    (∃ d, spiFlaky = some d ∧ d.Configured ∧
      d.bus.wire.pending = List.replicate 6 (some (Error.transport 1)) ++
        [some (Error.transport 9)] ∧
      ∃ d', d.Display = some (d', some (Error.transport 9))) ∧
    (∃ d, i2cFlaky = some d ∧ d.Configured ∧
      ∃ d', d.Tx [0xFF] false = some (d', some (Error.transport 7))) := by
  have hc1 : (spiFlaky.getD (NewSPI idleWire)).Configured := by decide
  have hc2 : (i2cFlaky.getD (NewSPI idleWire)).Configured := by decide
  constructor
  · obtain ⟨⟨d', h1⟩, -⟩ := transfer_errors K0 _ hc1
    refine ⟨spiFlaky.getD (NewSPI idleWire), by decide, hc1, by decide, d', ?_⟩
    rw [h1]
    exact congrArg (fun e => some (d', e)) (by decide)
  · obtain ⟨-, h2, -⟩ := transfer_errors K0 _ hc2
    obtain ⟨d', h3⟩ := h2 [0xFF] false (by decide)
    refine ⟨i2cFlaky.getD (NewSPI idleWire), by decide, hc2, d', ?_⟩
    rw [h3]
    exact congrArg (fun e => some (d', e)) (by decide)

/-! ## C16: `Tx` and the image buffer -/

/-- On the I2C backend `Tx(data, false)` updates the image buffer: on a configured
device and for data no longer than the framebuffer, the first `len(data)` bytes of
`GetBuffer` are `data` afterwards. -/
theorem Device.Tx_i2c_updates (d : Device) (b : I2CBus) (hb : d.bus = Bus.i2c b)
    (hd : d.Configured) (data : List Nat) (hlen : data.length ≤ d.buffer.length) :
    ∃ d' err, d.Tx data false = some (d', err) ∧ d'.GetBuffer.take data.length = data := by
  obtain ⟨bus', ht, -, -, hdrop⟩ := Bus.tx_spec d.bus hd.ready data false
    (fun h => absurd h (by decide))
  refine ⟨{ d with bus := bus' }, d.bus.wire.next, by simp [Device.Tx, ht], ?_⟩
  have hv : d.view = 2 := by rw [hd.1, hb]; rfl
  rw [hb] at hdrop
  simp only [Bus.header, Bus.isI2C, and_self, if_true] at hdrop
  change bus'.buffer.drop 2 = goCopy (b.buffer.drop 2) data at hdrop
  show (bus'.buffer.drop d.view).take data.length = data
  rw [hv, hdrop]
  have hl : data.length ≤ (b.buffer.drop 2).length := by
    have : d.buffer = b.buffer.drop 2 := by
      unfold Device.buffer; rw [hb, hv]; rfl
    rw [← this]; exact hlen
  unfold goCopy
  rw [List.take_append_of_le_length (by rw [List.length_take]; omega), List.take_take,
    Nat.min_eq_left hl, List.take_length]

set_option maxRecDepth 100000 in
/-- C16: on the default SPI panel, whose framebuffer of 1024 bytes is all zero,
`Tx([0xFF], false)` sends the byte to the display and returns nil, and the framebuffer
is unchanged: the first byte `GetBuffer` returns is 0, not `0xFF`. -/
theorem tx_spi_keeps_buffer :
    ∃ d d', spi128x64 = some d ∧ d.Configured ∧ [0xFF].length ≤ d.GetBuffer.length ∧
      d.Tx [0xFF] false = some (d', none) ∧
      eventsSince d.log d' = [Event.csPin true, Event.dcPin true, Event.csPin false,
        Event.spiTx [0xFF], Event.csPin true] ∧
      d'.GetBuffer = d.GetBuffer ∧ d'.GetBuffer.take 1 = [0] ∧
      ¬ (d'.GetBuffer.take [0xFF].length = [0xFF]) :=
  ⟨spi128x64.getD (NewSPI idleWire),
    ((spi128x64.getD (NewSPI idleWire)).Tx [0xFF] false).getD (NewSPI idleWire, none) |>.1,
    by decide, by decide, by decide, by decide, by decide, by decide, by decide, by decide⟩

/-! ## Operations keep the frame -/

theorem Device.Framed.of_same {W H : Int} {d d' : Device} (h : d.Framed W H)
    (hv : d'.view = d.view) (hh : d'.bus.header = d.bus.header)
    (hl : d'.bus.buffer.length = d.bus.buffer.length) (hw : d'.width = d.width)
    (hht : d'.height = d.height) : d'.Framed W H := by
  obtain ⟨⟨h1, h2, h3⟩, h4, h5⟩ := h
  refine ⟨⟨?_, ?_, ?_⟩, hw.trans h4, hht.trans h5⟩
  · rw [hv, hh]; exact h1
  · rw [hv, hl]; exact h2
  · unfold Device.buffer at h3 ⊢
    rw [List.length_drop] at h3 ⊢
    rw [hv, hl, hw, hht]; exact h3

theorem Device.Framed.buffer_length {W H : Int} {d : Device} (h : d.Framed W H) :
    (d.buffer.length : Int) = (wrap16 (W * H)).tdiv 8 := by
  rw [← h.2.1, ← h.2.2]; exact h.1.2.2

theorem Device.SetPixel_framed {W H : Int} (s : Device) (x y : Int) (c : RGBA) (s' : Device)
    (hs : s.Framed W H) (h : s.SetPixel x y c = some s') : s'.Framed W H := by
  unfold Device.SetPixel at h
  simp only at h
  split_ifs at h with h1 h2 h3
  · cases h; exact hs
  · cases h; exact ⟨hs.1.store _ _, hs.2⟩
  · cases h; exact ⟨hs.1.store _ _, hs.2⟩

/-- A loop over an `int16` counter that returns keeps what every iteration keeps. -/
theorem forInt16_preserves {σ : Type} (body : Int → σ → Option σ) (Q : σ → Prop)
    (hbody : ∀ i s s', Q s → body i s = some s' → Q s') (hi : Int) :
    ∀ (fuel : Nat) (lo : Int) (s s' : σ), Q s → forInt16 body hi fuel lo s = some s' → Q s' := by
  intro fuel
  induction fuel with
  | zero => intro lo s s' _ h; cases h
  | succ n ih =>
    intro lo s s' hq h
    unfold forInt16 at h
    split_ifs at h with hlt
    · cases hb : body lo s with
      | none => rw [hb] at h; cases h
      | some s1 =>
        rw [hb] at h
        exact ih _ s1 s' (hbody lo s s1 hq hb) h
    · cases h; exact hq

/-- A loop over an `int` counter that returns keeps what every iteration keeps. -/
theorem forInt_preserves {σ : Type} (body : Nat → σ → Option σ) (Q : σ → Prop)
    (hbody : ∀ i s s', Q s → body i s = some s' → Q s') :
    ∀ (n i : Nat) (s s' : σ), Q s → forInt body n i s = some s' → Q s' := by
  intro n
  induction n with
  | zero => intro i s s' hq h; cases h; exact hq
  | succ n ih =>
    intro i s s' hq h
    unfold forInt at h
    cases hb : body i s with
    | none => rw [hb] at h; cases h
    | some s1 =>
      rw [hb] at h
      exact ih _ s1 s' (hbody i s s1 hq hb) h

theorem Device.afterCommands_framed {W H : Int} {d : Device} (h : d.Framed W H)
    (cs : List Nat) : (d.afterCommands cs).Framed W H := by
  obtain ⟨-, -, hh, len, -, vw, w, ht, -⟩ := Device.afterCommands_spec d cs h.1.ready
  exact h.of_same vw hh len w ht

/-- If `tx` of the interface returns, the transmission buffer has the length it had. -/
theorem Bus.tx_keeps (bus : Bus) (h : bus.Ready) (data : List Nat) (isCommand : Bool)
    (r : Bus × Option Error) (ht : bus.tx data isCommand = some r) :
    r.1.header = bus.header ∧ r.1.buffer.length = bus.buffer.length := by
  by_cases hdata : isCommand = true → data ≠ []
  · obtain ⟨bus', e, h1, h2, -⟩ := Bus.tx_spec bus h data isCommand hdata
    rw [e] at ht
    cases ht
    exact ⟨h1, h2⟩
  · have hc : isCommand = true := by
      by_contra hn; exact hdata (fun h => absurd h hn)
    have hd : data = [] := by
      by_contra hn; exact hdata (fun _ => hn)
    subst hd
    rw [hc] at ht
    cases bus with
    | i2c b => simp [Bus.tx, I2CBus.tx] at ht
    | spi b =>
      simp only [Bus.tx, Option.some.injEq] at ht
      subst ht
      exact ⟨rfl, rfl⟩

/-- Every operation that returns leaves a configured device of the same size. -/
theorem Device.step_framed (K : Consts) {W H : Int} (s : Device) (op : Op) (s' : Device)
    (hs : s.Framed W H) (h : s.step K op = some s') : s'.Framed W H := by
  have hclear : ∀ s1 : Device, s.ClearDisplay = some s1 → s1.Framed W H := by
    intro s1 h1
    obtain ⟨d', hd, hc, hw, hh, -⟩ := Device.ClearDisplay_spec s hs.1
    rw [hd] at h1
    cases h1
    exact ⟨hc, hw.trans hs.2.1, hh.trans hs.2.2⟩
  cases op with
  | setPixel x y c => exact Device.SetPixel_framed s x y c s' hs h
  | clearBuffer =>
    cases h
    obtain ⟨h1, h2, -⟩ := Device.clearFrom_spec s s.buffer.length 0
    exact ⟨hs.1.ClearBuffer, h1.trans hs.2.1, h2.trans hs.2.2⟩
  | clearDisplay => exact hclear s' h
  | setBuffer b =>
    cases h
    unfold Device.SetBuffer
    split_ifs with hl
    · exact hs
    · refine hs.of_same rfl (by simp) ?_ rfl rfl
      have hv := hs.1.2.1
      have e : b.length = s.buffer.length := by simpa using hl
      simp only [Bus.buffer_setBuffer, List.length_append, List.length_take, goCopy_length]
      unfold Device.buffer
      rw [List.length_drop]
      omega
  | fillRectangle x y w ht c =>
    simp only [Device.step, Option.map_eq_some'] at h
    obtain ⟨r, hr, rfl⟩ := h
    unfold Device.FillRectangle at hr
    simp only at hr
    split_ifs at hr with h1 h2
    · cases hr; exact hs
    · simp only [Option.map_eq_some'] at hr
      obtain ⟨s1, h3, rfl⟩ := hr
      exact hclear s1 h3
    · simp only [Option.map_eq_some'] at hr
      obtain ⟨s1, h3, rfl⟩ := hr
      refine forInt16_preserves _ (Device.Framed W H) ?_ _ _ _ _ _ hs h3
      intro i a a' ha hb
      refine forInt16_preserves _ (Device.Framed W H) ?_ _ _ _ _ _ ha hb
      intro j b b' hb1 hb2
      exact Device.SetPixel_framed b i j c b' hb1 hb2
  | drawBitmap x y bm =>
    simp only [Device.step, Option.map_eq_some'] at h
    obtain ⟨r, hr, rfl⟩ := h
    unfold Device.DrawBitmap at hr
    simp only at hr
    split_ifs at hr with h1
    · cases hr; exact hs
    · simp only [Option.map_eq_some'] at hr
      obtain ⟨s1, h3, rfl⟩ := hr
      refine forInt_preserves _ (Device.Framed W H) ?_ _ _ _ _ hs h3
      intro i a a' ha hb
      refine forInt_preserves _ (Device.Framed W H) ?_ _ _ _ _ ha hb
      intro j b b' hb1 hb2
      exact Device.SetPixel_framed b _ _ _ b' hb1 hb2
  | display =>
    simp only [Device.step, Option.map_eq_some'] at h
    obtain ⟨r, hr, rfl⟩ := h
    obtain ⟨d', err, hD, hc, -, -, -, -, hw, hh, -⟩ := Device.Display_spec s hs.1
    rw [hD] at hr
    cases hr
    exact ⟨hc, hw.trans hs.2.1, hh.trans hs.2.2⟩
  | setRotation rot =>
    simp only [Device.step, Option.map_eq_some'] at h
    obtain ⟨r, hr, rfl⟩ := h
    rw [Device.SetRotation_eq K s rot hs.1.ready] at hr
    cases hr
    have h0 : ({ s with rotation := rot } : Device).Framed W H := hs
    exact Device.afterCommands_framed h0 _
  | sleep e =>
    simp only [Device.step, Option.map_eq_some'] at h
    obtain ⟨r, hr, rfl⟩ := h
    unfold Device.Sleep at hr
    have hr2 := hs.1.ready
    split_ifs at hr
    · rw [Device.Command_eq s _ hr2] at hr
      cases hr
      exact Device.afterCommands_framed hs [DISPLAYOFF]
    · rw [Device.Command_eq s _ hr2] at hr
      cases hr
      exact Device.afterCommands_framed hs [DISPLAYON]
  | tx data ic =>
    simp only [Device.step, Option.map_eq_some'] at h
    obtain ⟨r, hr, rfl⟩ := h
    simp only [Device.Tx, Option.map_eq_some'] at hr
    obtain ⟨rb, hrb, rfl⟩ := hr
    obtain ⟨h1, h2⟩ := Bus.tx_keeps s.bus hs.1.ready data ic rb hrb
    exact hs.of_same rfl h1 h2 rfl rfl

/-- Every sequence of operations that returns leaves a configured device of the same
size. -/
theorem Device.run_framed (K : Consts) {W H : Int} (ops : List Op) :
    ∀ (s s' : Device), s.Framed W H → s.run K ops = some s' → s'.Framed W H := by
  induction ops with
  | nil => intro s s' hs h; cases h; exact hs
  | cons op ops ih =>
    intro s s' hs h
    unfold Device.run at h
    cases hst : s.step K op with
    | none => rw [hst] at h; cases h
    | some s1 =>
      rw [hst] at h
      exact ih s1 s' (Device.step_framed K s op s1 hs hst) h

/-! ## C17: the length of the framebuffer -/

set_option maxRecDepth 100000 in
/-- C17, as stated, fails: for the configuration 256x256, whose effective width and
height are positive, `Configure` returns on the I2C backend, `Size()` reports
`(256, 256)`, and the framebuffer has 0 bytes, not `256*256/8 = 8192`. -/
theorem framebuffer_empty_256x256 :
    ∃ d, Device.Configure K0 (NewI2C K0 idleWire) cfg256x256 = some d ∧
      0 < cfg256x256.effWidth ∧ 0 < cfg256x256.effHeight ∧ d.Size = (256, 256) ∧
      d.buffer.length = 0 ∧ ¬ ((d.buffer.length : Int) = d.Size.1 * d.Size.2 / 8) :=
  ⟨(Device.Configure K0 (NewI2C K0 idleWire) cfg256x256).getD (NewSPI idleWire),
    by decide, by decide, by decide, by decide, by decide, by decide⟩

/-- C17 (amended): for every Config for which `Configure` returns, on either backend,
the framebuffer has `width*height/8` bytes computed in `int16` arithmetic on the values
`Size()` reports, which is exactly `width*height/8` when `0 ≤ width*height ≤ 32767`; and
after every sequence of later operations (`SetPixel`, `ClearBuffer`, `ClearDisplay`,
`SetBuffer`, `FillRectangle`, `DrawBitmap`, `Display`, `SetRotation`, `Sleep`, `Tx`)
that returns, `Size()` and the length of the framebuffer are the same. -/
theorem framebuffer_length (K : Consts) (d0 : Device) (cfg : Config) (d : Device)
    (hconf : d0.Configure K cfg = some d) (ops : List Op) (s : Device)
    (hrun : d.run K ops = some s) :
    d.Size = (cfg.effWidth, cfg.effHeight) ∧
    (d.GetBuffer.length : Int) = (wrap16 (d.Size.1 * d.Size.2)).tdiv 8 ∧
    s.Size = d.Size ∧ s.GetBuffer.length = d.GetBuffer.length ∧
    (0 ≤ d.Size.1 * d.Size.2 ∧ d.Size.1 * d.Size.2 ≤ 32767 →
      (d.GetBuffer.length : Int) = d.Size.1 * d.Size.2 / 8 ∧
      (s.GetBuffer.length : Int) = d.Size.1 * d.Size.2 / 8) := by
  obtain ⟨d', h1, hc, hw, hh, -⟩ :=
    Device.Configure_spec K d0 cfg (Device.bufferSize_nonneg_of_Configure hconf)
  rw [hconf] at h1
  cases h1
  have hd : d.Framed d.width d.height := ⟨hc, rfl, rfl⟩
  have hs := Device.run_framed K ops d s hd hrun
  have hl : (s.buffer.length : Int) = (d.buffer.length : Int) := by
    rw [hs.buffer_length, hd.buffer_length]
  have hsize : s.Size = d.Size := by
    unfold Device.Size; rw [hs.2.1, hs.2.2]
  refine ⟨?_, hd.buffer_length, hsize, by exact_mod_cast hl, ?_⟩
  · unfold Device.Size; rw [hw, hh]
  · intro hr
    have e : (d.buffer.length : Int) = d.width * d.height / 8 := by
      rw [hd.buffer_length, wrap16_of_range (by have := hr.1; simp only [Device.Size] at this; omega)
        (by have := hr.2; simp only [Device.Size] at this; omega)]
      exact tdiv8_of_nonneg hr.1
    exact ⟨e, hl.trans e⟩

set_option maxRecDepth 100000 in
/-- C17, witness: on the 16x16 SPI panel the framebuffer has 32 bytes after `Configure`
and after ten later operations, one of each kind. -/
theorem framebuffer_length_witness :
    ∃ d s, Device.Configure K0 (NewSPI idleWire) cfg16x16 = some d ∧
      d.run K0 sampleOps = some s ∧ d.Size = (16, 16) ∧ s.Size = (16, 16) ∧
      d.GetBuffer.length = 32 ∧ s.GetBuffer.length = 32 := by
  have hc : Device.Configure K0 (NewSPI idleWire) cfg16x16
      = some ((Device.Configure K0 (NewSPI idleWire) cfg16x16).getD (NewSPI idleWire)) := by
    decide
  have hr : ((Device.Configure K0 (NewSPI idleWire) cfg16x16).getD (NewSPI idleWire)).run K0
      sampleOps = some ((((Device.Configure K0 (NewSPI idleWire) cfg16x16).getD
        (NewSPI idleWire)).run K0 sampleOps).getD (NewSPI idleWire)) := by
    decide
  obtain ⟨h1, -, h3, h4, -⟩ := framebuffer_length K0 _ cfg16x16 _ hc sampleOps _ hr
  have h5 : ((Device.Configure K0 (NewSPI idleWire) cfg16x16).getD
      (NewSPI idleWire)).GetBuffer.length = 32 := by decide
  exact ⟨_, _, hc, hr, h1.trans (by decide), h3.trans (h1.trans (by decide)), h5, h4.trans h5⟩

/-! ## C18: clearing -/

set_option maxRecDepth 100000 in
/-- C18, as stated, fails: on the I2C panel of 8 by 12 pixels, whose framebuffer has 12
bytes, `ClearDisplay` returns and `GetPixel(4, 8)` afterwards, for a pixel on the panel,
faults: it returns nothing. -/
theorem getPixel_faults_after_clear :
    ∃ d d', Device.Configure K0 (NewI2C K0 idleWire) cfg8x12 = some d ∧
      d.ClearDisplay = some d' ∧ d'.InRange 4 8 ∧ d'.buffer = List.replicate 12 0 ∧
      d'.GetPixel 4 8 = none :=
  ⟨(Device.Configure K0 (NewI2C K0 idleWire) cfg8x12).getD (NewSPI idleWire),
    (((Device.Configure K0 (NewI2C K0 idleWire) cfg8x12).getD
      (NewSPI idleWire)).ClearDisplay).getD (NewSPI idleWire),
    by decide, by decide, by decide, by decide, by decide⟩

/-- C18 (amended): `ClearBuffer` sets every byte of the framebuffer to zero, so
`ClearBuffer` twice gives the same buffer as `ClearBuffer` once; and on a configured
device whose framebuffer has a byte for every pixel of the panel, `ClearDisplay`
returns, whatever the result of the flush it triggers, the framebuffer is all zero
afterwards and `GetPixel(x, y)` is false for every `(x, y)`. -/
theorem clear_spec (d : Device) :
    d.ClearBuffer.buffer = List.replicate d.buffer.length 0 ∧
    d.ClearBuffer.ClearBuffer.buffer = d.ClearBuffer.buffer ∧
    (d.Covered → ∃ d', d.ClearDisplay = some d' ∧
      d'.buffer = List.replicate d.buffer.length 0 ∧
      ∀ x y : Int, d'.GetPixel x y = some false) := by
  refine ⟨Device.buffer_ClearBuffer d, ?_, ?_⟩
  · rw [Device.buffer_ClearBuffer d.ClearBuffer, Device.buffer_ClearBuffer d,
      List.length_replicate]
  · intro hc
    obtain ⟨d', h1, h2, hw, hh, hb⟩ := Device.ClearDisplay_spec d hc.1
    refine ⟨d', h1, hb, ?_⟩
    have hcov : d'.Covered := by
      refine ⟨h2, ?_⟩
      intro x y hr
      have hl : d'.buffer.length = d.buffer.length := by rw [hb, List.length_replicate]
      rw [hw, hl]
      apply hc.2
      unfold Device.InRange at hr ⊢
      rw [hw, hh] at hr
      exact hr
    exact Device.GetPixel_zero d' hcov _ hb

set_option maxRecDepth 100000 in
/-- C18, witness: on the default I2C panel, on a hardware whose next transfer, the
flush, fails, `ClearDisplay` returns and every pixel reads false afterwards. -/
theorem clear_spec_witness :
    ∃ d, i2cFlaky = some d ∧ d.Covered ∧ d.canReset = false ∧
      d.bus.wire.next = some (Error.transport 7) ∧
      ∃ d', d.ClearDisplay = some d' ∧ ∀ x y : Int, d'.GetPixel x y = some false := by
  have hc : (i2cFlaky.getD (NewSPI idleWire)).Covered :=
    (Device.covered_128x64 _ (by decide) (by decide) (by decide)).1
  obtain ⟨-, -, h3⟩ := clear_spec (i2cFlaky.getD (NewSPI idleWire))
  obtain ⟨d', h4, -, h5⟩ := h3 hc
  exact ⟨_, by decide, hc, by decide, by decide, d', h4, h5⟩

/-! ## C24: the addressing reset on the I2C backend -/

set_option maxRecDepth 100000 in
/-- C24: on the device made by `NewI2C` and configured with the zero configuration
(`Address` 0, which keeps the default I2C address, and the default size 128x64) the
addressing reset is disabled, and `Display()` returns after the flush alone: the
controller receives the 1024 data bytes and no command, neither the column-address-set
`0x21` nor the page-address-set `0x22`. -/
theorem i2c_default_no_reset :
    ∃ d d', i2c128x64 = some d ∧ d.bus.isI2C = true ∧ cfgDefault.Address = 0 ∧
      d.Size = (128, 64) ∧ d.canReset = false ∧
      d.Display = some (d', none) ∧
      eventsSince d.log d' = [Event.i2cTx K0.Address (0x40 :: List.replicate 1024 0)] ∧
      commandBytes (received false (eventsSince d.log d')) = [] :=
  ⟨i2c128x64.getD (NewSPI idleWire),
    ((i2c128x64.getD (NewSPI idleWire)).Display.getD (NewSPI idleWire, none)).1,
    by decide, by decide, by decide, by decide, by decide, by decide, by decide, by decide⟩

/-! ## C27: pixel indexing and the length of the buffer -/

set_option maxRecDepth 100000 in
/-- C27, as stated, fails: for the configuration 8x12, whose effective width and height
are positive, the buffer allocated by `Configure` has 12 bytes; the pixel `(4, 8)` is
in range and its byte index is 12, not smaller than the length of the buffer; `SetPixel`
and `GetPixel` fault on it. -/
theorem byteIndex_outside_8x12 :
    ∃ d, Device.Configure K0 (NewSPI idleWire) cfg8x12 = some d ∧
      0 < cfg8x12.effWidth ∧ 0 < cfg8x12.effHeight ∧ d.InRange 4 8 ∧
      d.byteIndex 4 8 = 12 ∧ d.buffer.length = 12 ∧
      d.SetPixel 4 8 white = none ∧ d.GetPixel 4 8 = none :=
  ⟨(Device.Configure K0 (NewSPI idleWire) cfg8x12).getD (NewSPI idleWire),
    by decide, by decide, by decide, by decide, by decide, by decide, by decide, by decide⟩

/-- C27 (amended): for every Config with positive effective width and height, whose
height is a multiple of 8 and whose `width*height` is at most 32767, for which
`Configure` returns, on the device after `Configure` and after every sequence of later
operations that returns: for every in-range pixel the byte index `x + (y/8)*width`
computed by `SetPixel` and `GetPixel` in `int16` arithmetic is that value, it is not
negative and smaller than the length of the buffer, and neither operation faults. -/
theorem pixel_index_inside (K : Consts) (d0 : Device) (cfg : Config) (d : Device)
    (hconf : d0.Configure K cfg = some d) (hw : 0 < cfg.effWidth) (hh : 0 < cfg.effHeight)
    (h8 : cfg.effHeight % 8 = 0) (hwh : cfg.effWidth * cfg.effHeight ≤ 32767)
    (ops : List Op) (s : Device) (hrun : d.run K ops = some s) (x y : Int)
    (hx : 0 ≤ x ∧ x < cfg.effWidth) (hy : 0 ≤ y ∧ y < cfg.effHeight) (c : RGBA) :
    s.Size = (cfg.effWidth, cfg.effHeight) ∧
    (s.buffer.length : Int) = cfg.effWidth * cfg.effHeight / 8 ∧
    s.byteIndex x y = x + y / 8 * cfg.effWidth ∧ 0 ≤ s.byteIndex x y ∧
    s.byteIndex x y < s.buffer.length ∧
    (∃ s', s.SetPixel x y c = some s') ∧ (∃ v, s.GetPixel x y = some v) := by
  obtain ⟨d', h1, hc, hdw, hdh, -⟩ :=
    Device.Configure_spec K d0 cfg (Device.bufferSize_nonneg_of_Configure hconf)
  rw [hconf] at h1
  cases h1
  have hs : s.Framed d.width d.height := Device.run_framed K ops d s ⟨hc, rfl, rfl⟩ hrun
  have hsw : s.width = cfg.effWidth := hs.2.1.trans hdw
  have hsh : s.height = cfg.effHeight := hs.2.2.trans hdh
  have hcov : s.Covered :=
    Device.covered_of_geometry s hs.1 (by rw [hsw]; exact hw) (by rw [hsh]; exact hh)
      (by rw [hsh]; exact h8) (by rw [hsw, hsh]; exact hwh)
  have hr : s.InRange x y := by
    unfold Device.InRange; rw [hsw, hsh]; exact ⟨hx.1, hx.2, hy.1, hy.2⟩
  have hidx := hcov.2 x y hr
  obtain ⟨he, h0⟩ := Device.byteIndex_exact hs.1 (by rw [hsw]; exact hx) hy.1 hidx
  have hpos : 0 ≤ cfg.effWidth * cfg.effHeight := Int.mul_nonneg (by omega) (by omega)
  have hlen : (s.buffer.length : Int) = cfg.effWidth * cfg.effHeight / 8 := by
    rw [hs.1.2.2, hsw, hsh, wrap16_of_range (by omega) hwh, tdiv8_of_nonneg hpos]
  have hi : 0 ≤ s.byteIndex x y := by rw [he]; exact h0
  have hlt : (s.byteIndex x y).toNat < s.buffer.length := by rw [he]; omega
  refine ⟨?_, hlen, by rw [he, hsw], hi, by rw [he]; exact hidx,
    ⟨_, Device.SetPixel_inside s x y c (by rw [hsw]; exact hx) (by rw [hsh]; exact hy) hi hlt⟩,
    ⟨_, Device.GetPixel_inside s x y (by rw [hsw]; exact hx) (by rw [hsh]; exact hy) hi hlt⟩⟩
  unfold Device.Size; rw [hsw, hsh]

set_option maxRecDepth 100000 in
/-- C27, witness: on the default SPI panel the last pixel `(127, 63)` has the byte index
1023, inside the buffer of 1024 bytes. -/
theorem pixel_index_inside_witness :
    ∃ d, Device.Configure K0 (NewSPI idleWire) cfgDefault = some d ∧
      d.byteIndex 127 63 = 1023 ∧ d.buffer.length = 1024 ∧
      (∃ d', d.SetPixel 127 63 white = some d') ∧
      (∃ v, d.GetPixel 127 63 = some v) := by
  have hc : Device.Configure K0 (NewSPI idleWire) cfgDefault
      = some ((Device.Configure K0 (NewSPI idleWire) cfgDefault).getD (NewSPI idleWire)) := by
    decide
  obtain ⟨-, h2, h3, -, -, h6, h7⟩ := pixel_index_inside K0 _ cfgDefault _ hc (by decide)
    (by decide) (by decide) (by decide) [] _ rfl 127 63 (by decide) (by decide)
    white
  refine ⟨_, hc, h3.trans (by decide), ?_, h6, h7⟩
  have : (128 : Int) * 64 / 8 = 1024 := by decide
  have h2' : ((((Device.Configure K0 (NewSPI idleWire) cfgDefault).getD
      (NewSPI idleWire)).buffer.length : Nat) : Int) = 1024 := h2.trans (by decide)
  exact_mod_cast h2'

end Ssd1306

namespace Ens160

/-! ## C20: the temperature compensation value -/

/-- C20: for every temperature `tempMilliC` (every `int32`, and every integer),
`calculateTempRaw` returns `((clamp(tempMilliC, -40000, 85000) + 273150) * 64 + 500) /
1000`; the three intermediate values of the computation are in the `int32` range, so
no operation wraps; the result is in `[0, 65535]`, so the conversion to `uint16`
truncates nothing; and the result is the value `(T + 273150) * 64 / 1000` rounded to
the nearest integer (half up). -/
theorem calculateTempRaw_spec (tempMilliC : Int) :
    (calculateTempRaw tempMilliC : Int)
      = ((clamp tempMilliC (-40000) 85000 + 273150) * 64 + 500) / 1000 ∧
    IsInt32 (clamp tempMilliC (-40000) 85000 + 273150) ∧
    IsInt32 ((clamp tempMilliC (-40000) 85000 + 273150) * 64) ∧
    IsInt32 ((clamp tempMilliC (-40000) 85000 + 273150) * 64 + 500) ∧
    0 ≤ ((clamp tempMilliC (-40000) 85000 + 273150) * 64 + 500) / 1000 ∧
    ((clamp tempMilliC (-40000) 85000 + 273150) * 64 + 500) / 1000 ≤ 65535 ∧
    2 * |1000 * (calculateTempRaw tempMilliC : Int)
        - (clamp tempMilliC (-40000) 85000 + 273150) * 64| ≤ 1000 := by
  have hc : -40000 ≤ clamp tempMilliC (-40000) 85000 ∧
      clamp tempMilliC (-40000) 85000 ≤ 85000 := by
    unfold clamp; split_ifs <;> omega
  have hdef : calculateTempRaw tempMilliC = toUint16 ((wrap32 (wrap32 (wrap32
      (clamp tempMilliC (-40000) 85000 + 273150) * 64) + 500)).tdiv 1000) := by
    unfold calculateTempRaw clamp kelvinOffsetMilli tempRawFactor roundingTerm milliFactor
    rfl
  generalize clamp tempMilliC (-40000) 85000 = c at hc hdef ⊢
  have e1 : wrap32 (c + 273150) = c + 273150 := by unfold wrap32; omega
  have e2 : wrap32 ((c + 273150) * 64) = (c + 273150) * 64 := by unfold wrap32; omega
  have e3 : wrap32 ((c + 273150) * 64 + 500) = (c + 273150) * 64 + 500 := by
    unfold wrap32; omega
  have e4 : ((c + 273150) * 64 + 500).tdiv 1000 = ((c + 273150) * 64 + 500) / 1000 :=
    Int.tdiv_eq_ediv (by omega) (by decide)
  have hval : (calculateTempRaw tempMilliC : Int) = ((c + 273150) * 64 + 500) / 1000 := by
    rw [hdef, e1, e2, e3, e4]
    unfold toUint16
    omega
  refine ⟨hval, ?_, ?_, ?_, by omega, by omega, ?_⟩
  · unfold IsInt32; omega
  · unfold IsInt32; omega
  · unfold IsInt32; omega
  · rw [hval]
    have : |1000 * (((c + 273150) * 64 + 500) / 1000) - (c + 273150) * 64| ≤ 500 := by
      rw [abs_le]; omega
    omega

/-- C20, the values of the test: 25000, -10500, -40000, -50000, 85000, 90000 and 0. -/
theorem calculateTempRaw_tests :
    calculateTempRaw 25000 = 19082 ∧ calculateTempRaw (-10500) = 16810 ∧
    calculateTempRaw (-40000) = 14922 ∧ calculateTempRaw (-50000) = 14922 ∧
    calculateTempRaw 85000 = 22922 ∧ calculateTempRaw 90000 = 22922 ∧
    calculateTempRaw 0 = 17482 ∧
    (calculateTempRaw 25000 : Int) = ((clamp 25000 (-40000) 85000 + 273150) * 64 + 500) / 1000 :=
  ⟨by decide, by decide, by decide, by decide, by decide, by decide, by decide,
    (calculateTempRaw_spec 25000).1⟩

/-! ## C21: the humidity compensation value -/

/-- C21: for every humidity `rhMilliPct` (every `int32`, and every integer),
`calculateHumRaw` returns `(clamp(rhMilliPct, 0, 100000) * 512 + 500) / 1000`; the two
intermediate values of the computation are in the `int32` range, so no operation wraps;
the result is in `[0, 65535]`, so the conversion to `uint16` truncates nothing; and
the result is the value `RH * 512 / 1000` rounded to the nearest integer (half up). -/
theorem calculateHumRaw_spec (rhMilliPct : Int) :
    (calculateHumRaw rhMilliPct : Int) = (clamp rhMilliPct 0 100000 * 512 + 500) / 1000 ∧
    IsInt32 (clamp rhMilliPct 0 100000 * 512) ∧
    IsInt32 (clamp rhMilliPct 0 100000 * 512 + 500) ∧
    0 ≤ (clamp rhMilliPct 0 100000 * 512 + 500) / 1000 ∧
    (clamp rhMilliPct 0 100000 * 512 + 500) / 1000 ≤ 65535 ∧
    2 * |1000 * (calculateHumRaw rhMilliPct : Int) - clamp rhMilliPct 0 100000 * 512|
      ≤ 1000 := by
  have hc : 0 ≤ clamp rhMilliPct 0 100000 ∧ clamp rhMilliPct 0 100000 ≤ 100000 := by
    unfold clamp; split_ifs <;> omega
  have hdef : calculateHumRaw rhMilliPct = toUint16 ((wrap32 (wrap32
      (clamp rhMilliPct 0 100000 * 512) + 500)).tdiv 1000) := by
    unfold calculateHumRaw clamp humRawFactor roundingTerm milliFactor
    rfl
  generalize clamp rhMilliPct 0 100000 = c at hc hdef ⊢
  have e2 : wrap32 (c * 512) = c * 512 := by unfold wrap32; omega
  have e3 : wrap32 (c * 512 + 500) = c * 512 + 500 := by unfold wrap32; omega
  have e4 : (c * 512 + 500).tdiv 1000 = (c * 512 + 500) / 1000 :=
    Int.tdiv_eq_ediv (by omega) (by decide)
  have hval : (calculateHumRaw rhMilliPct : Int) = (c * 512 + 500) / 1000 := by
    rw [hdef, e2, e3, e4]
    unfold toUint16
    omega
  refine ⟨hval, ?_, ?_, by omega, by omega, ?_⟩
  · unfold IsInt32; omega
  · unfold IsInt32; omega
  · rw [hval]
    have : |1000 * ((c * 512 + 500) / 1000) - c * 512| ≤ 500 := by
      rw [abs_le]; omega
    omega

/-- C21, the values of the test: 50000, 0, 100000, -10000, 110000 and 33300. -/
theorem calculateHumRaw_tests :
    calculateHumRaw 50000 = 25600 ∧ calculateHumRaw 0 = 0 ∧
    calculateHumRaw 100000 = 51200 ∧ calculateHumRaw (-10000) = 0 ∧
    calculateHumRaw 110000 = 51200 ∧ calculateHumRaw 33300 = 17050 ∧
    (calculateHumRaw 33300 : Int) = (clamp 33300 0 100000 * 512 + 500) / 1000 :=
  ⟨by decide, by decide, by decide, by decide, by decide, by decide,
    (calculateHumRaw_spec 33300).1⟩

end Ens160

namespace Seesaw

/-! ## C22: the encoder number -/

/-- C22: for every encoder `>= 16`, `GetEncoderPosition` returns `(0,
errInvalidEncoderNumber)` and `SetEncoderPosition` returns `errInvalidEncoderNumber`,
and the device, its list of `Read` and `Write` calls included, is unchanged; for every
encoder `< 16` each function performs exactly one call, `Read` of 4 bytes and `Write`
of 4 bytes, and the error it returns is the error of that call: it is
`errInvalidEncoderNumber` only when `Read` or `Write` returned it. -/
theorem encoder_number (K : Consts) (d : Device) (encoder : Nat) :
    (16 ≤ encoder →
      (∀ asDelta, d.GetEncoderPosition K encoder asDelta
        = (d, 0, some Error.errInvalidEncoderNumber)) ∧
      (∀ position, d.SetEncoderPosition K encoder position
        = (d, some Error.errInvalidEncoderNumber))) ∧
    (encoder < 16 →
      (∀ asDelta, ∃ fnAddr,
        (d.GetEncoderPosition K encoder asDelta).1.calls
          = d.calls ++ [Call.read K.ModuleEncoderBase fnAddr 4] ∧
        (d.GetEncoderPosition K encoder asDelta).2.2
          = (d.Read K.ModuleEncoderBase fnAddr 4).2.2 ∧
        ((d.GetEncoderPosition K encoder asDelta).2.2 = some Error.errInvalidEncoderNumber →
          (d.Read K.ModuleEncoderBase fnAddr 4).2.2 = some Error.errInvalidEncoderNumber)) ∧
      (∀ position, ∃ fnAddr buf,
        (d.SetEncoderPosition K encoder position).1.calls
          = d.calls ++ [Call.write K.ModuleEncoderBase fnAddr buf] ∧ buf.length = 4 ∧
        (d.SetEncoderPosition K encoder position).2
          = (d.Write K.ModuleEncoderBase fnAddr buf).2 ∧
        ((d.SetEncoderPosition K encoder position).2 = some Error.errInvalidEncoderNumber →
          (d.Write K.ModuleEncoderBase fnAddr buf).2
            = some Error.errInvalidEncoderNumber))) := by
  constructor
  · intro h
    constructor
    · intro asDelta
      unfold Device.GetEncoderPosition
      rw [if_pos h]
    · intro position
      unfold Device.SetEncoderPosition
      rw [if_pos h]
  · intro h
    have hn : ¬ encoder ≥ 16 := by omega
    constructor
    · intro asDelta
      refine ⟨if asDelta then FunctionAddress encoder ||| K.FunctionEncoderDelta
        else FunctionAddress encoder ||| K.FunctionEncoderPosition, ?_⟩
      have key : (d.GetEncoderPosition K encoder asDelta).1.calls
          = d.calls ++ [Call.read K.ModuleEncoderBase
            (if asDelta then FunctionAddress encoder ||| K.FunctionEncoderDelta
              else FunctionAddress encoder ||| K.FunctionEncoderPosition) 4] ∧
        (d.GetEncoderPosition K encoder asDelta).2.2
          = (d.Read K.ModuleEncoderBase
            (if asDelta then FunctionAddress encoder ||| K.FunctionEncoderDelta
              else FunctionAddress encoder ||| K.FunctionEncoderPosition) 4).2.2 := by
        unfold Device.GetEncoderPosition
        rw [if_neg hn]
        simp only []
        split_ifs with h1 <;> simp_all [Device.Read]
      exact ⟨key.1, key.2, fun e => key.2 ▸ e⟩
    · intro position
      refine ⟨K.FunctionEncoderPosition ||| FunctionAddress encoder, encodeInt32 position, ?_⟩
      have key : d.SetEncoderPosition K encoder position
          = d.Write K.ModuleEncoderBase (K.FunctionEncoderPosition ||| FunctionAddress encoder)
            (encodeInt32 position) := by
        unfold Device.SetEncoderPosition
        rw [if_neg hn]
      rw [key]
      exact ⟨rfl, rfl, rfl, fun e => e⟩

/-- C22, witness: encoder 16 is refused by both functions without a call; encoder 15 on
a hardware whose calls fail with a bus error gets that error from both, after one
call. -/
theorem encoder_number_witness :
    (failingDevice.GetEncoderPosition K1 16 false).2 = (0, some Error.errInvalidEncoderNumber) ∧
    (failingDevice.GetEncoderPosition K1 16 false).1.calls = [] ∧
    (failingDevice.SetEncoderPosition K1 16 7).2 = some Error.errInvalidEncoderNumber ∧
    (failingDevice.SetEncoderPosition K1 16 7).1.calls = [] ∧
    (failingDevice.GetEncoderPosition K1 15 false).2 = (0, some (Error.bus 3)) ∧
    (failingDevice.GetEncoderPosition K1 15 false).1.calls = [Call.read 0x11 0x3F 4] ∧
    (failingDevice.SetEncoderPosition K1 15 7).2 = some (Error.bus 3) ∧
    (failingDevice.SetEncoderPosition K1 15 7).1.calls = [Call.write 0x11 0x3F [0, 0, 0, 7]] := by
  obtain ⟨h1, h2⟩ := (encoder_number K1 failingDevice 16).1 (by decide)
  refine ⟨by rw [h1 false], by rw [h1 false]; rfl, by rw [h2 7], by rw [h2 7]; rfl,
    by decide, by decide, by decide, by decide⟩

/-! ## C23: the encoder position, written and read back -/

theorem bits32_wrap32 (n : Int) : bits32 (wrap32 n) = bits32 n := by
  unfold bits32 wrap32; omega
theorem bits32_natCast (n : Nat) (h : n < 4294967296) : bits32 (n : Int) = n := by
  unfold bits32; omega
theorem wrap32_natCast_small (n : Nat) (h : n < 256) : wrap32 (n : Int) = n := by
  unfold wrap32; omega
theorem or32_natCast (m n : Nat) (hm : m < 4294967296) (hn : n < 4294967296) :
    or32 (wrap32 m) (wrap32 n) = wrap32 ((m ||| n : Nat) : Int) := by
  unfold or32
  rw [bits32_wrap32, bits32_wrap32, bits32_natCast m hm, bits32_natCast n hn]

theorem lor_bytes (a b c d : Nat) (hb : b < 256) (hc : c < 256) (hd : d < 256) :
    a * 16777216 ||| b * 65536 = a * 16777216 + b * 65536 ∧
    (a * 16777216 + b * 65536) ||| c * 256 = a * 16777216 + b * 65536 + c * 256 ∧
    (a * 16777216 + b * 65536 + c * 256) ||| d = a * 16777216 + b * 65536 + c * 256 + d := by
  refine ⟨?_, ?_, ?_⟩
  · have := Nat.mul_add_lt_is_or (show b * 65536 < 2 ^ 24 by omega) a
    rw [show (2 : Nat) ^ 24 = 16777216 by norm_num] at this
    rw [Nat.mul_comm a, ← this]
  · have := Nat.mul_add_lt_is_or (show c * 256 < 2 ^ 16 by omega) (a * 256 + b)
    rw [show (2 : Nat) ^ 16 = 65536 by norm_num] at this
    rw [show a * 16777216 + b * 65536 = 65536 * (a * 256 + b) by ring, ← this]
  · have := Nat.mul_add_lt_is_or (show d < 2 ^ 8 by omega) (a * 65536 + b * 256 + c)
    rw [show (2 : Nat) ^ 8 = 256 by norm_num] at this
    rw [show a * 16777216 + b * 65536 + c * 256 = 256 * (a * 65536 + b * 256 + c) by ring,
      ← this]

theorem shl32_byte (a : Nat) :
    shl32 (a : Int) 24 = wrap32 ((a * 16777216 : Nat) : Int) ∧
    shl32 (a : Int) 16 = wrap32 ((a * 65536 : Nat) : Int) ∧
    shl32 (a : Int) 8 = wrap32 ((a * 256 : Nat) : Int) := by
  refine ⟨?_, ?_, ?_⟩ <;> (unfold shl32; push_cast; norm_num)

theorem decodeInt32_bytes (a b c d : Nat) (ha : a < 256) (hb : b < 256) (hc : c < 256)
    (hd : d < 256) :
    decodeInt32 [a, b, c, d]
      = wrap32 ((a * 16777216 + b * 65536 + c * 256 + d : Nat) : Int) := by
  obtain ⟨e24, -, -⟩ := shl32_byte a
  obtain ⟨-, e16, -⟩ := shl32_byte b
  obtain ⟨-, -, e8⟩ := shl32_byte c
  obtain ⟨h1, h2, h3⟩ := lor_bytes a b c d hb hc hd
  have s1 : or32 (shl32 (a : Int) 24) (shl32 (b : Int) 16)
      = wrap32 ((a * 16777216 + b * 65536 : Nat) : Int) := by
    rw [e24, e16, or32_natCast (a * 16777216) (b * 65536) (by omega) (by omega), h1]
  have s2 : or32 (wrap32 ((a * 16777216 + b * 65536 : Nat) : Int)) (shl32 (c : Int) 8)
      = wrap32 ((a * 16777216 + b * 65536 + c * 256 : Nat) : Int) := by
    rw [e8, or32_natCast (a * 16777216 + b * 65536) (c * 256) (by omega) (by omega), h2]
  have s3 : or32 (wrap32 ((a * 16777216 + b * 65536 + c * 256 : Nat) : Int)) (d : Int)
      = wrap32 ((a * 16777216 + b * 65536 + c * 256 + d : Nat) : Int) := by
    rw [← wrap32_natCast_small d hd,
      or32_natCast (a * 16777216 + b * 65536 + c * 256) d (by omega) (by omega), h3]
  have hdef : decodeInt32 [a, b, c, d]
      = or32 (or32 (or32 (shl32 (a : Int) 24) (shl32 (b : Int) 16)) (shl32 (c : Int) 8))
        (d : Int) := rfl
  rw [hdef, s1, s2, s3]

theorem byte_lt (n : Int) : byte n < 256 := by unfold byte; omega

/-- The bytes `SetEncoderPosition` writes are the bits of the position, most
significant byte first. -/
theorem encodeInt32_eq (p : Int) :
    encodeInt32 p = [bits32 p / 16777216 % 256, bits32 p / 65536 % 256, bits32 p / 256 % 256,
      bits32 p % 256] := by
  unfold encodeInt32 byte sar32 bits32
  have e1 : (2 : Int) ^ 24 = 16777216 := by norm_num
  have e2 : (2 : Int) ^ 16 = 65536 := by norm_num
  have e3 : (2 : Int) ^ 8 = 256 := by norm_num
  rw [e1, e2, e3]
  congr 1
  · omega
  congr 1
  · omega
  congr 1
  · omega
  congr 1
  omega

theorem decode_encode (p : Int) (hp : IsInt32 p) : decodeInt32 (encodeInt32 p) = p := by
  rw [encodeInt32_eq, decodeInt32_bytes _ _ _ _ (Nat.mod_lt _ (by norm_num))
    (Nat.mod_lt _ (by norm_num)) (Nat.mod_lt _ (by norm_num)) (Nat.mod_lt _ (by norm_num))]
  unfold IsInt32 at hp
  unfold wrap32 bits32
  omega

theorem goCopy_bytes (l : List Nat) (h : ∀ b ∈ l, b < 256) :
    goCopy (List.replicate l.length 0) (l.map fun b => b % 256) = l := by
  have e : l.map (fun b => b % 256) = l := by
    conv_rhs => rw [← List.map_id l]
    apply List.map_congr_left
    intro b hb
    exact Nat.mod_eq_of_lt (h b hb)
  rw [e]
  unfold goCopy
  simp

/-- C23: for every `int32` position `p`, negative values included: the 4 bytes
`SetEncoderPosition` writes are the 32 bits of `p` (two's complement), most significant
byte first; the expression of `GetEncoderPosition` decodes them to exactly `p`; and on a
hardware that answers a read with the bytes last written, for every encoder below 16,
`SetEncoderPosition(e, p)` writes these bytes and `GetEncoderPosition(e, false)`
afterwards returns `(p, nil)`. -/
theorem encoder_roundtrip (K : Consts) (d : Device) (hd : d.Echo) (encoder : Nat)
    (he : encoder < 16) (p : Int) (hp : IsInt32 p) :
    encodeInt32 p = [bits32 p / 16777216 % 256, bits32 p / 65536 % 256, bits32 p / 256 % 256,
      bits32 p % 256] ∧
    decodeInt32 (encodeInt32 p) = p ∧
    (d.SetEncoderPosition K encoder p).1.calls = d.calls ++
      [Call.write K.ModuleEncoderBase (K.FunctionEncoderPosition ||| encoder)
        (encodeInt32 p)] ∧
    ((d.SetEncoderPosition K encoder p).1.GetEncoderPosition K encoder false).2
      = (p, none) := by
  have hn : ¬ encoder ≥ 16 := by omega
  have hfa : FunctionAddress encoder = encoder := by
    unfold FunctionAddress; omega
  have hset : d.SetEncoderPosition K encoder p
      = ({ d with calls := d.calls ++ [Call.write K.ModuleEncoderBase
          (K.FunctionEncoderPosition ||| encoder) (encodeInt32 p)] },
        (d.respond (d.calls ++ [Call.write K.ModuleEncoderBase
          (K.FunctionEncoderPosition ||| encoder) (encodeInt32 p)])).2) := by
    unfold Device.SetEncoderPosition Device.Write
    rw [if_neg hn, hfa]
  refine ⟨encodeInt32_eq p, decode_encode p hp, by rw [hset], ?_⟩
  rw [hset]
  have hl : (encodeInt32 p).length = 4 := rfl
  have hecho := hd d.calls K.ModuleEncoderBase (K.FunctionEncoderPosition ||| encoder)
    (encodeInt32 p)
  rw [hl] at hecho
  have hb : ∀ b ∈ encodeInt32 p, b < 256 := by
    intro b hb
    simp only [encodeInt32, List.mem_cons, List.mem_singleton, List.not_mem_nil, or_false] at hb
    rcases hb with h | h | h | h <;> rw [h] <;> exact byte_lt _
  have hc := goCopy_bytes (encodeInt32 p) hb
  rw [hl] at hc
  unfold Device.GetEncoderPosition Device.Read
  rw [if_neg hn, hfa]
  simp only [Bool.false_eq_true, if_false, Nat.lor_comm encoder K.FunctionEncoderPosition,
    List.append_assoc, List.singleton_append, hecho, hc, ne_eq, not_true_eq_false,
    decode_encode p hp]

theorem echoDevice_echo : echoDevice.Echo := by
  intro history m f data
  show echoRespond _ = _
  unfold echoRespond
  simp

/-- C23, witness: on the echoing hardware, encoder 3: the position `-2` is written as
`0xFF, 0xFF, 0xFF, 0xFE` and read back as `-2`. -/
theorem encoder_roundtrip_witness :
    echoDevice.Echo ∧ (3 : Nat) < 16 ∧ IsInt32 (-2) ∧
    (echoDevice.SetEncoderPosition K1 3 (-2)).1.calls
      = [Call.write 0x11 0x33 [0xFF, 0xFF, 0xFF, 0xFE]] ∧
    ((echoDevice.SetEncoderPosition K1 3 (-2)).1.GetEncoderPosition K1 3 false).2
      = (-2, none) := by
  have hp : IsInt32 (-2) := by unfold IsInt32; omega
  obtain ⟨-, -, h3, h4⟩ := encoder_roundtrip K1 echoDevice echoDevice_echo 3 (by decide) (-2) hp
  exact ⟨echoDevice_echo, by decide, hp, h3.trans (by decide), h4⟩

end Seesaw

namespace Regmap

/-! ## C25: the register reads over SPI -/

/-- The method `Read16SPI` sends the address byte and two zero bytes and decodes the two
bytes received after the first one. -/
theorem Device8.Read16SPI_spec (d : Device8) (bus : SPI) (addr : Nat) (order : ByteOrder) :
    (d.Read16SPI bus addr order).bus.log = bus.log ++ [{ w := [addr, 0, 0], rlen := 3 }] ∧
    (d.Read16SPI bus addr order).value
      = order.Uint16 ((bus.received [addr, 0, 0] 3).drop 1) ∧
    ((bus.received [addr, 0, 0] 3).drop 1).length = 2 ∧
    (d.Read16SPI bus addr order).err
      = (bus.respond (bus.log ++ [{ w := [addr, 0, 0], rlen := 3 }])).2 := by
  have hl : (bus.received [addr, 0, 0] 3).length = 3 := by
    unfold SPI.received goCopy
    simp only [List.length_append, List.length_take, List.length_drop, List.length_replicate,
      List.length_map]
    omega
  refine ⟨rfl, ?_, by rw [List.length_drop, hl], rfl⟩
  generalize hr : bus.received [addr, 0, 0] 3 = r at hl
  have hv : (d.Read16SPI bus addr order).value
      = order.Uint16 (slice (writeBack ((List.replicate 10 0).set 0 addr) 3 r) 4 6) := by
    rw [← hr]; rfl
  rw [hv]
  match r, hl with
  | [a, b, c], _ => rfl

/-- The method `Read32SPI` sends the address byte and four zero bytes and decodes the
four bytes received after the first one. -/
theorem Device8.Read32SPI_spec (d : Device8) (bus : SPI) (addr : Nat) (order : ByteOrder) :
    (d.Read32SPI bus addr order).bus.log
      = bus.log ++ [{ w := [addr, 0, 0, 0, 0], rlen := 5 }] ∧
    (d.Read32SPI bus addr order).value
      = order.Uint32 ((bus.received [addr, 0, 0, 0, 0] 5).drop 1) ∧
    ((bus.received [addr, 0, 0, 0, 0] 5).drop 1).length = 4 ∧
    (d.Read32SPI bus addr order).err
      = (bus.respond (bus.log ++ [{ w := [addr, 0, 0, 0, 0], rlen := 5 }])).2 := by
  have hl : (bus.received [addr, 0, 0, 0, 0] 5).length = 5 := by
    unfold SPI.received goCopy
    simp only [List.length_append, List.length_take, List.length_drop, List.length_replicate,
      List.length_map]
    omega
  refine ⟨rfl, ?_, by rw [List.length_drop, hl], rfl⟩
  generalize hr : bus.received [addr, 0, 0, 0, 0] 5 = r at hl
  have hv : (d.Read32SPI bus addr order).value
      = order.Uint32 (slice (writeBack ((List.replicate 10 0).set 0 addr) 5 r) 6 10) := by
    rw [← hr]; rfl
  rw [hv]
  match r, hl with
  | [a, b, c, e, f], _ => rfl

/-- The method `Read8SPI` sends the address byte alone and returns the byte received
while it is sent. -/
theorem Device8.Read8SPI_spec (d : Device8) (bus : SPI) (addr : Nat) :
    (d.Read8SPI bus addr).bus.log = bus.log ++ [{ w := [addr], rlen := 1 }] ∧
    (d.Read8SPI bus addr).value = (bus.received [addr] 1).getD 0 0 ∧
    (bus.received [addr] 1).length = 1 ∧
    (d.Read8SPI bus addr).err = (bus.respond (bus.log ++ [{ w := [addr], rlen := 1 }])).2 := by
  have hl : (bus.received [addr] 1).length = 1 := by
    unfold SPI.received goCopy
    simp only [List.length_append, List.length_take, List.length_drop, List.length_replicate,
      List.length_map]
    omega
  refine ⟨rfl, ?_, hl, rfl⟩
  generalize hr : bus.received [addr] 1 = r at hl
  have hv : (d.Read8SPI bus addr).value
      = (writeBack ((List.replicate 10 0).set 0 addr) 1 r).getD 1 0 := by
    rw [← hr]; rfl
  rw [hv]
  match r, hl with
  | [a], _ => rfl

/-- C25: on a bus on which the device sends `0xAA` while the address byte is sent and
`0x55, 0x66, 0x77, 0x88` after it, `Read16SPI` and `Read32SPI` send the address `0x0F`
followed by zero bytes and return `0x5566` and `0x55667788` (big endian), the bytes
received after the first; `Read8SPI` sends the address byte without a zero byte after
it and returns `0xAA`, the byte received while the address byte is sent. -/
theorem read8SPI_returns_first_byte :
    (dev0.Read16SPI sampleSPI 0x0F BigEndian).bus.log = [{ w := [0x0F, 0, 0], rlen := 3 }] ∧
    (dev0.Read16SPI sampleSPI 0x0F BigEndian).value = 0x5566 ∧
    (dev0.Read32SPI sampleSPI 0x0F BigEndian).bus.log
      = [{ w := [0x0F, 0, 0, 0, 0], rlen := 5 }] ∧
    (dev0.Read32SPI sampleSPI 0x0F BigEndian).value = 0x55667788 ∧
    (dev0.Read8SPI sampleSPI 0x0F).bus.log = [{ w := [0x0F], rlen := 1 }] ∧
    (dev0.Read8SPI sampleSPI 0x0F).value = 0xAA ∧
    (dev0.Read8SPI sampleSPI 0x0F).err = none ∧
    ¬ ((dev0.Read8SPI sampleSPI 0x0F).value = 0x55) := by
  refine ⟨by decide, by decide, by decide, by decide, by decide, by decide, by decide,
    by decide⟩

/-! ## C26: the auxiliary buffer of `ReadDataSPI` -/

theorem goCopy_length_eq (dst src : List Nat) : (goCopy dst src).length = dst.length := by
  unfold goCopy
  simp only [List.length_append, List.length_take, List.length_drop]
  omega

/-- The method `ReadDataSPI` returns `(nil, io.ErrShortBuffer)`, without a transfer,
exactly when `len(auxiliaryBuf) < 2*(dataLength+1)`; otherwise, for `dataLength >= 0`, it
performs one transfer, of the first half of the auxiliary buffer with `addr` as its
first byte, and returns the bytes received into the second half after the first one,
at least `dataLength` of them. -/
theorem Device8.ReadDataSPI_spec (d : Device8) (bus : SPI) (addr : Nat) (dataLength : Int)
    (aux : List Nat) (h0 : 0 ≤ dataLength) :
    ((aux.length : Int) < 2 * (dataLength + 1) →
      ∃ r, d.ReadDataSPI bus addr dataLength aux = some r ∧ r.data = none ∧
        r.err = some Error.ErrShortBuffer ∧ r.bus.log = bus.log) ∧
    (2 * (dataLength + 1) ≤ (aux.length : Int) →
      ∃ r w, d.ReadDataSPI bus addr dataLength aux = some r ∧
        (aux.take (aux.length / 2)).set 0 addr = addr :: w ∧
        r.bus.log = bus.log ++ [{ w := addr :: w, rlen := aux.length - aux.length / 2 }] ∧
        r.data = some ((bus.Tx (addr :: w) (aux.drop (aux.length / 2))).2.1.drop 1) ∧
        dataLength ≤ ((bus.Tx (addr :: w) (aux.drop (aux.length / 2))).2.1.drop 1).length ∧
        r.err = (bus.Tx (addr :: w) (aux.drop (aux.length / 2))).2.2) := by
  constructor
  · intro h
    have hs : ((aux.length / 2 : Nat) : Int) < dataLength + 1 := by omega
    refine ⟨DataResult.mk bus aux none (some Error.ErrShortBuffer), ?_, rfl, rfl, rfl⟩
    unfold Device8.ReadDataSPI
    simp only [hs, if_true]
  · intro h
    have hs : ¬ ((aux.length / 2 : Nat) : Int) < dataLength + 1 := by omega
    have h1 : 1 ≤ aux.length / 2 := by omega
    have hw : (aux.take (aux.length / 2)).length = aux.length / 2 := by
      rw [List.length_take]; omega
    obtain ⟨a, w, hcons⟩ : ∃ a w, aux.take (aux.length / 2) = a :: w := by
      cases ht : aux.take (aux.length / 2) with
      | nil => rw [ht] at hw; simp at hw; omega
      | cons a w => exact ⟨a, w, rfl⟩
    have hset : (aux.take (aux.length / 2)).set 0 addr = addr :: w := by
      rw [hcons]; rfl
    have hrl : (aux.drop (aux.length / 2)).length = aux.length - aux.length / 2 :=
      List.length_drop _ _
    have hlen : ((bus.Tx (addr :: w) (aux.drop (aux.length / 2))).2.1).length
        = aux.length - aux.length / 2 := by
      show (goCopy _ _).length = _
      rw [goCopy_length_eq, hrl]
    have hne : ¬ (aux.take (aux.length / 2)).length = 0 := by omega
    have hge : ¬ ((bus.Tx (addr :: w) (aux.drop (aux.length / 2))).2.1).length < 1 := by omega
    refine ⟨DataResult.mk (bus.Tx (addr :: w) (aux.drop (aux.length / 2))).1
        ((addr :: w) ++ (bus.Tx (addr :: w) (aux.drop (aux.length / 2))).2.1)
        (some ((bus.Tx (addr :: w) (aux.drop (aux.length / 2))).2.1.drop 1))
        (bus.Tx (addr :: w) (aux.drop (aux.length / 2))).2.2, w, ?_, hset, ?_, rfl, ?_, rfl⟩
    · unfold Device8.ReadDataSPI
      simp only [hs, if_false, hne, hset]
      rw [if_neg hge]
    · show bus.log ++ [{ w := addr :: w, rlen := (aux.drop (aux.length / 2)).length }] = _
      rw [hrl]
    · rw [List.length_drop, hlen]
      omega

/-- C26: for `dataLength = 1` and an auxiliary buffer of 4 bytes the documented
requirement `2*(dataLength+1) < len(auxiliaryBuf)` does not hold, and `ReadDataSPI` does
not return `io.ErrShortBuffer`: it performs the transfer of `addr, 0` and returns the
one byte received after the first. -/
theorem readDataSPI_accepts_boundary :
    ¬ ((2 : Int) * (1 + 1) < (([0, 0, 0, 0] : List Nat).length : Int)) ∧
    ∃ r, dev0.ReadDataSPI sampleSPI 0x0F 1 [0, 0, 0, 0] = some r ∧
      r.bus.log = [{ w := [0x0F, 0], rlen := 2 }] ∧ r.data = some [0x55] ∧ r.err = none ∧
      r.aux = [0x0F, 0, 0xAA, 0x55] := by
  refine ⟨by decide, _, rfl, by decide, by decide, by decide, by decide⟩

end Regmap
